import Mathlib

/-!
Qt Multimedia: sound-effect voices, OpenSL ES device info and channel masks, audio callbacks,
PipeWire device monitor.

Shallow embedding of

* `QSoundEffectVoice::play` and `QSoundEffectVoice::playVoice`
  (`src/multimedia/audio/qsoundeffectwithplayer.cpp`),
* the loading, playing and device switching of `QSoundEffectPrivateWithPlayer` (same file),
* the constructor of `QOpenSLESDeviceInfo` (`src/multimedia/android/qandroidaudiodevice.cpp`),
* `getChannelMask` and `QOpenSLESEngine::audioFormatToSLFormatPCM`
  (`src/multimedia/android/qopenslesengine.cpp`),
* `validateAudioCallback` and `runAudioCallback` (`src/multimedia/audio/qaudiosystem_p.h`),
* the object bookkeeping, the pending records, the compression timer and the device lists of
  `QAudioDeviceMonitor` (`src/multimedia/pipewire/qpipewire_audiodevicemonitor.cpp`),
* the cached device lists of `QPlatformAudioDevices`
  (`src/multimedia/platform/qplatformaudiodevices.cpp`).

Conventions of the embedding.

* Audio samples are `float` in the source.  They are embedded as rationals, so the arithmetic
  on sample values is exact.
* A `QSpan<float>` is embedded as a `List ℚ`; code that writes through a span returns the new
  contents of the span.
* Frame counts, sample counts and channel counts are natural numbers (the source uses
  `qsizetype` and `int`; the values are taken to stay inside the range of `int`).
* The atomic loop counter of a voice is an integer.
* Where the source narrows a size to a 32-bit integer (`runAudioCallback`,
  `audioFormatToSLFormatPCM`) the conversion is explicit (`toInt32`, `toSLuint32`).
* The recursion of `play` is bounded by a fuel argument; the theorems state how much fuel is
  enough for the call to return.
* Objects with state are embedded as structures, member functions as functions from the state
  before the call to the state after it; emitted signals are logged in the state.
* A call that would dereference an absent player yields `none`.
* The order in which `std::sort` leaves equivalent elements is a parameter (`StdSort`).

The definitions come first, the theorems follow.
-/

/-! Part 1: definitions -/

namespace QtMultimediaPrivate

/-- Modelled from the spec: the span helper `drop` (declared in `qaudio_qspan_support_p.h`, not
among the sources).  The call `drop(span, n)` yields the span without its first `n` elements,
the *remaining* buffer; it is empty when `n` exceeds the size. -/
def drop (span : List ℚ) (n : Nat) : List ℚ := span.drop n

/-- Modelled from the spec: the span helper `take` (declared in `qaudio_qspan_support_p.h`, not
among the sources).  The call `take(span, n)` yields the first `n` elements of the span, the
whole span when `n` exceeds the size. -/
def take (span : List ℚ) (n : Nat) : List ℚ := span.take n

/-- The statement `span[i] += x`. -/
def addAt (span : List ℚ) (i : Nat) (x : ℚ) : List ℚ :=
  span.set i (span.getD i 0 + x)

/-- The call `std::fill_n(span.begin(), n, value)`. -/
def fill_n (span : List ℚ) (n : Nat) (value : ℚ) : List ℚ :=
  (span.take n).map (fun _ => value) ++ span.drop n

/-- Result of `QRtAudioEngineVoice::play`. -/
inductive VoicePlayResult where
  | Playing
  | Finished
  deriving DecidableEq, Repr

/-- Modelled from the spec: the enumerator `QSoundEffect::Infinite` (declared in
`qsoundeffect.h`, not among the sources), the sentinel loop count that means looping forever;
its value in Qt is `-2`. -/
def Infinite : Int := -2

/-- The part of `QSample` a voice reads: the channel count of `format()` and the sample data
seen through `toFloatSpan`. -/
structure QSample where
  channelCount : Nat
  data : List ℚ
  deriving DecidableEq, Repr

/-- Data members of `QSoundEffectVoice`.  `m_engineChannelCount` stands for
`m_engineFormat.channelCount()`, `m_currentLoopChanged` for the state of the notification
flag of the same name. -/
structure QSoundEffectVoice where
  m_sample : QSample
  m_engineChannelCount : Nat
  m_volume : ℚ
  m_muted : Bool
  m_loopsRemaining : Int
  m_currentFrame : Nat
  m_totalFrames : Nat
  m_currentLoopChanged : Bool
  deriving DecidableEq, Repr

/-- The local enumeration `ConversionType` of `playVoice`. -/
inductive ConversionType where
  | SameChannels
  | MonoToStereo
  | StereoToMono
  deriving DecidableEq, Repr

/-- The lambda that initialises `conversion` in `playVoice`; the unreachable branch yields
`SameChannels` as in `Q_UNREACHABLE_RETURN(SameChannels)`. -/
def conversionType (sampleCh engineCh : Nat) : ConversionType :=
  if sampleCh = engineCh then ConversionType.SameChannels
  else if sampleCh = 1 ∧ engineCh = 2 then ConversionType.MonoToStereo
  else if sampleCh = 2 ∧ engineCh = 1 then ConversionType.StereoToMono
  else ConversionType.SameChannels

/-- The local `playbackRange` of `playVoice`. -/
def playbackRange (v : QSoundEffectVoice) : List ℚ :=
  take (drop v.m_sample.data (v.m_sample.channelCount * v.m_currentFrame))
    (v.m_totalFrames * v.m_sample.channelCount)

/-- The local `framesToPlay` (`maxFrames`) of `playVoice` for an output span of
`outputSamples` samples. -/
def framesToPlay (v : QSoundEffectVoice) (outputSamples : Nat) : Nat :=
  min ((playbackRange v).length / v.m_sample.channelCount)
    (outputSamples / v.m_engineChannelCount)

/-- Loop of the `SameChannels` case. -/
def mixSameChannels (range : List ℚ) (volume : ℚ) (sampleCh engineCh frames : Nat)
    (outputBuffer : List ℚ) : List ℚ :=
  (List.range frames).foldl
    (fun out frame =>
      (List.range sampleCh).foldl
        (fun o ch =>
          addAt o (frame * engineCh + ch) (range.getD (frame * sampleCh + ch) 0 * volume))
        out)
    outputBuffer

/-- Loop of the `MonoToStereo` case. -/
def mixMonoToStereo (range : List ℚ) (volume : ℚ) (sampleCh engineCh frames : Nat)
    (outputBuffer : List ℚ) : List ℚ :=
  (List.range frames).foldl
    (fun out frame =>
      let val := range.getD (frame * sampleCh) 0 * volume
      addAt (addAt out (frame * engineCh) val) (frame * engineCh + 1) val)
    outputBuffer

/-- Loop of the `StereoToMono` case. -/
def mixStereoToMono (range : List ℚ) (volume : ℚ) (sampleCh engineCh frames : Nat)
    (outputBuffer : List ℚ) : List ℚ :=
  let scale := (1 / 2 : ℚ) * volume
  (List.range frames).foldl
    (fun out frame =>
      let val := (range.getD (frame * sampleCh) 0 + range.getD (frame * sampleCh + 1) 0) * scale
      addAt out (frame * engineCh) val)
    outputBuffer

/-- The function `QSoundEffectVoice::playVoice`: the number of frames played and the contents
of the output span after the call.  The debug assertion that the playback range is not empty
has no counterpart here; on an empty range the function plays no frame. -/
def playVoice (v : QSoundEffectVoice) (outputBuffer : List ℚ) : Nat × List ℚ :=
  let sampleCh := v.m_sample.channelCount
  let engineCh := v.m_engineChannelCount
  let frames := framesToPlay v outputBuffer.length
  let outputSamplesPlayed := frames * engineCh
  if v.m_muted = true ∨ v.m_volume = 0 then
    (frames, fill_n outputBuffer outputSamplesPlayed 0)
  else
    match conversionType sampleCh engineCh with
    | ConversionType.SameChannels =>
      (frames, mixSameChannels (playbackRange v) v.m_volume sampleCh engineCh frames outputBuffer)
    | ConversionType.MonoToStereo =>
      (frames, mixMonoToStereo (playbackRange v) v.m_volume sampleCh engineCh frames outputBuffer)
    | ConversionType.StereoToMono =>
      (frames, mixStereoToMono (playbackRange v) v.m_volume sampleCh engineCh frames outputBuffer)

/-- The function `QSoundEffectVoice::play`: the result, the voice after the call and the contents of the
output span after the call.  The recursion of the source is bounded by `fuel`; `none` means
that the bound was reached. -/
def play : Nat → QSoundEffectVoice → List ℚ → Option (VoicePlayResult × QSoundEffectVoice × List ℚ)
  | 0, _, _ => none
  | fuel + 1, v, outputBuffer =>
    let playedFrames := (playVoice v outputBuffer).1
    let out := (playVoice v outputBuffer).2
    let currentFrame := v.m_currentFrame + playedFrames
    if currentFrame = v.m_totalFrames then
      let isInfiniteLoop : Bool := decide (v.m_loopsRemaining = Infinite)
      let continuePlaying : Bool :=
        if isInfiniteLoop then true else decide (v.m_loopsRemaining > 1)
      let loops := if isInfiniteLoop then v.m_loopsRemaining else v.m_loopsRemaining - 1
      if continuePlaying then
        let v1 : QSoundEffectVoice :=
          { v with
            m_loopsRemaining := loops
            m_currentLoopChanged := if isInfiniteLoop then v.m_currentLoopChanged else true
            m_currentFrame := 0 }
        let played := playedFrames * v.m_engineChannelCount
        match play fuel v1 (drop out played) with
        | none => none
        | some (r, v2, rest) => some (r, v2, List.take played out ++ rest)
      else
        some (VoicePlayResult.Finished,
              { v with m_currentFrame := currentFrame, m_loopsRemaining := loops }, out)
    else
      some (VoicePlayResult.Playing, { v with m_currentFrame := currentFrame }, out)

/-- The function `QSoundEffectVoice::isActive`. -/
def isActive (v : QSoundEffectVoice) : Bool :=
  if v.m_currentFrame ≠ v.m_totalFrames then true
  else decide (v.m_loopsRemaining ≠ 0)

/-- Pointwise sum of two spans. -/
def ladd (a b : List ℚ) : List ℚ := List.zipWith (· + ·) a b

/-- The channel-count pairs for which the conversion lambda of `playVoice` does not run into
its unreachable branch. -/
def channelsSupported (sampleCh engineCh : Nat) : Prop :=
  1 ≤ sampleCh ∧ 1 ≤ engineCh ∧
    (sampleCh = engineCh ∨ (sampleCh = 1 ∧ engineCh = 2) ∨ (sampleCh = 2 ∧ engineCh = 1))

instance (sampleCh engineCh : Nat) : Decidable (channelsSupported sampleCh engineCh) := by
  unfold channelsSupported
  infer_instance

/-- The sample of voice `v` rendered `k` times in a row, each time from its first frame: every
pass renders the voice, with its cursor at frame 0, into the next `m_totalFrames` frames of
the span; what follows the `k` passes is left as it is. -/
def renderTimes (v : QSoundEffectVoice) : Nat → List ℚ → List ℚ
  | 0, buf => buf
  | k + 1, buf =>
    (playVoice { v with m_currentFrame := 0 }
        (buf.take (v.m_totalFrames * v.m_engineChannelCount))).2
      ++ renderTimes v k (buf.drop (v.m_totalFrames * v.m_engineChannelCount))

/-- Successive calls of `play` on one output span: the voices render one after the other into
the same span; the result is the contents of the span after the last voice (`none` when a voice
runs out of fuel). -/
def mixVoices (fuel : Nat) : List QSoundEffectVoice → List ℚ → Option (List ℚ)
  | [], buf => some buf
  | v :: vs, buf =>
    match play fuel v buf with
    | none => none
    | some r => mixVoices fuel vs r.2.2

/-- What voice `v` writes when it renders alone into a zero-initialised span of `n` samples. -/
def soloOutput (fuel : Nat) (v : QSoundEffectVoice) (n : Nat) : List ℚ :=
  match play fuel v (List.replicate n 0) with
  | none => []
  | some r => r.2.2

/-- A muted voice over a two-frame mono sample, mono engine, one loop. -/
def mutedVoice : QSoundEffectVoice :=
  { m_sample := { channelCount := 1, data := [1, 1] }, m_engineChannelCount := 1,
    m_volume := 1, m_muted := true, m_loopsRemaining := 1, m_currentFrame := 0,
    m_totalFrames := 2, m_currentLoopChanged := false }

/-- An unmuted voice with volume zero over a one-frame mono sample, stereo engine. -/
def zeroVolumeMonoVoice : QSoundEffectVoice :=
  { m_sample := { channelCount := 1, data := [1] }, m_engineChannelCount := 2,
    m_volume := 0, m_muted := false, m_loopsRemaining := 1, m_currentFrame := 0,
    m_totalFrames := 1, m_currentLoopChanged := false }

/-- An unmuted voice with volume zero over a one-frame stereo sample, mono engine. -/
def zeroVolumeStereoVoice : QSoundEffectVoice :=
  { m_sample := { channelCount := 2, data := [1, 3] }, m_engineChannelCount := 1,
    m_volume := 0, m_muted := false, m_loopsRemaining := 1, m_currentFrame := 0,
    m_totalFrames := 1, m_currentLoopChanged := false }

/-- A fresh voice over a 1000-frame mono sample with loop count 3, mono engine. -/
def threeLoopVoice : QSoundEffectVoice :=
  { m_sample := { channelCount := 1, data := List.replicate 1000 0 }, m_engineChannelCount := 1,
    m_volume := 1, m_muted := false, m_loopsRemaining := 3, m_currentFrame := 0,
    m_totalFrames := 1000, m_currentLoopChanged := false }

/-- A voice over a two-frame mono sample with loop count 2, mono engine. -/
def twoLoopVoice : QSoundEffectVoice :=
  { m_sample := { channelCount := 1, data := [1, 2] }, m_engineChannelCount := 1,
    m_volume := 1, m_muted := false, m_loopsRemaining := 2, m_currentFrame := 0,
    m_totalFrames := 2, m_currentLoopChanged := false }

/-- A voice over a three-frame stereo sample, mono engine. -/
def stereoVoice : QSoundEffectVoice :=
  { m_sample := { channelCount := 2, data := [1, 2, 3, 4, 5, 6] }, m_engineChannelCount := 1,
    m_volume := 1, m_muted := false, m_loopsRemaining := 1, m_currentFrame := 0,
    m_totalFrames := 3, m_currentLoopChanged := false }

/-- A voice with volume one half over a two-frame mono sample, mono engine, looping forever. -/
def halfVolumeVoice : QSoundEffectVoice :=
  { m_sample := { channelCount := 1, data := [4, 6] }, m_engineChannelCount := 1,
    m_volume := 1 / 2, m_muted := false, m_loopsRemaining := Infinite, m_currentFrame := 0,
    m_totalFrames := 2, m_currentLoopChanged := false }

/-- The calls of `QSoundEffectVoice::play` that one call from outside leads to, outermost
first: for each call the voice it runs on and the output span it receives.  The recursion is
that of `play`, bounded by the same `fuel`. -/
def playCalls : Nat → QSoundEffectVoice → List ℚ → List (QSoundEffectVoice × List ℚ)
  | 0, _, _ => []
  | fuel + 1, v, outputBuffer =>
    let playedFrames := (playVoice v outputBuffer).1
    let out := (playVoice v outputBuffer).2
    let currentFrame := v.m_currentFrame + playedFrames
    if currentFrame = v.m_totalFrames then
      let isInfiniteLoop : Bool := decide (v.m_loopsRemaining = Infinite)
      let continuePlaying : Bool :=
        if isInfiniteLoop then true else decide (v.m_loopsRemaining > 1)
      let loops := if isInfiniteLoop then v.m_loopsRemaining else v.m_loopsRemaining - 1
      if continuePlaying then
        let v1 : QSoundEffectVoice :=
          { v with
            m_loopsRemaining := loops
            m_currentLoopChanged := if isInfiniteLoop then v.m_currentLoopChanged else true
            m_currentFrame := 0 }
        let played := playedFrames * v.m_engineChannelCount
        (v, outputBuffer) :: playCalls fuel v1 (drop out played)
      else [(v, outputBuffer)]
    else [(v, outputBuffer)]

/-- Modelled from the spec: the identifier `VoiceId` of a voice (declared in a header that is
not among the sources): voice ids are unique and allocated in increasing order. -/
abbrev VoiceId := Nat

/-- Modelled from the spec: the enumeration `QSoundEffect::Status` (declared in
`qsoundeffect.h`, not among the sources). -/
inductive QSoundEffect.Status where
  | Null
  | Loading
  | Ready
  | Error
  deriving DecidableEq, Repr

/-- Modelled from the spec: a `QAudioDevice` as far as the sound effect uses it (the class is
declared in `qaudiodevice.h`, not among the sources): devices are compared with `==` and asked
`isNull()`; `id` is `none` for the null device. -/
structure QAudioDevice where
  id : Option String
  deriving DecidableEq, Repr

/-- Modelled from the spec: the function `QAudioDevice::isNull`. -/
def QAudioDevice.isNull (device : QAudioDevice) : Bool := device.id.isNone

/-- Modelled from the spec: a `QUrl` as far as `setSource` reads it, through `isEmpty()` and
`isValid()`. -/
structure QUrl where
  isEmpty : Bool
  isValid : Bool
  deriving DecidableEq, Repr

/-- Modelled from the spec: a `QRtAudioEngine` (declared in a header that is not among the
sources) as far as the sound effect reads it: the channel count of `audioSink().format()`. -/
structure QRtAudioEngine where
  sinkChannelCount : Nat
  deriving DecidableEq, Repr

/-- The future held in `m_sampleLoadFuture`: `finished` tells whether the continuation
attached in `setSource` has run. -/
structure SampleLoadFuture where
  finished : Bool
  deriving DecidableEq, Repr

/-- The constructor of `QSoundEffectVoice`.  The initialiser of `m_totalFrames` is in the
header, which is not among the sources; it is modelled from the spec as the number of frames
of the sample. -/
def QSoundEffectVoice.construct (sample : QSample) (volume : ℚ) (muted : Bool)
    (totalLoopCount : Int) (engineChannelCount : Nat) : QSoundEffectVoice :=
  { m_sample := sample, m_engineChannelCount := engineChannelCount, m_volume := volume,
    m_muted := muted, m_loopsRemaining := totalLoopCount, m_currentFrame := 0,
    m_totalFrames := sample.data.length / sample.channelCount, m_currentLoopChanged := false }

/-- The function `QSoundEffectVoice::clone`, without the allocation of the voice id, which the
caller takes from the allocator; `newEngineFormat` is the channel count of the optional
engine format. -/
def QSoundEffectVoice.clone (voice : QSoundEffectVoice) (newEngineFormat : Option Nat) :
    QSoundEffectVoice :=
  { QSoundEffectVoice.construct voice.m_sample voice.m_volume voice.m_muted
      voice.m_loopsRemaining (newEngineFormat.getD voice.m_engineChannelCount) with
    m_currentFrame := voice.m_currentFrame }

/-- The state of a `QSoundEffectPrivateWithPlayer`.  `m_voices` is the set of voices in
flight, ordered by voice id; `m_voiceFinishedConnection` tells whether the handler of
`voiceFinished` is connected; `nextVoiceId` is the state of `QRtAudioEngine::allocateVoiceId`;
the last three members count the emissions of the signals `statusChanged`, `playingChanged`
and `loopsRemainingChanged`. -/
structure QSoundEffectPrivateWithPlayer where
  m_audioDevice : QAudioDevice
  m_defaultAudioDevice : QAudioDevice
  m_resolvedAudioDevice : QAudioDevice
  m_url : QUrl
  m_sample : Option QSample
  m_sampleLoadFuture : Option SampleLoadFuture
  m_player : Option QRtAudioEngine
  m_voiceFinishedConnection : Bool
  m_voices : List (VoiceId × QSoundEffectVoice)
  m_status : QSoundEffect.Status
  m_loopCount : Int
  m_loopsRemaining : Int
  m_volume : ℚ
  m_muted : Bool
  m_playPending : Bool
  nextVoiceId : VoiceId
  statusChanged : Nat
  playingChanged : Nat
  loopsRemainingChanged : Nat
  deriving DecidableEq, Repr

namespace QSoundEffectPrivateWithPlayer

/-- The call `m_voices.insert(voice)` on the set ordered by voice id: no effect when a voice
with this id is in the set. -/
def voicesInsert (voices : List (VoiceId × QSoundEffectVoice))
    (entry : VoiceId × QSoundEffectVoice) : List (VoiceId × QSoundEffectVoice) :=
  if voices.any (fun e => decide (e.1 = entry.1)) then voices
  else voices.filter (fun e => decide (e.1 < entry.1)) ++ [entry]
    ++ voices.filter (fun e => decide (entry.1 < e.1))

/-- The function `QSoundEffectPrivateWithPlayer::setStatus`. -/
def setStatus (e : QSoundEffectPrivateWithPlayer) (status : QSoundEffect.Status) :
    QSoundEffectPrivateWithPlayer :=
  if status = e.m_status then e
  else { e with m_status := status, statusChanged := e.statusChanged + 1 }

/-- The function `QSoundEffectPrivateWithPlayer::setLoopsRemaining`. -/
def setLoopsRemaining (e : QSoundEffectPrivateWithPlayer) (loopsRemaining : Int) :
    QSoundEffectPrivateWithPlayer :=
  if loopsRemaining = e.m_loopsRemaining then e
  else { e with m_loopsRemaining := loopsRemaining,
                loopsRemainingChanged := e.loopsRemainingChanged + 1 }

/-- The function `QSoundEffectPrivateWithPlayer::playing`. -/
def playing (e : QSoundEffectPrivateWithPlayer) : Bool := !e.m_voices.isEmpty

/-- The function `QSoundEffectPrivateWithPlayer::activeVoice`. -/
def activeVoice (e : QSoundEffectPrivateWithPlayer) : Option VoiceId :=
  e.m_voices.getLast?.map (fun entry => entry.1)

/-- The function `QSoundEffectPrivateWithPlayer::formatIsSupported`, on the channel count of
the format. -/
def formatIsSupported (channelCount : Nat) : Bool :=
  match channelCount with
  | 1 => true
  | 2 => true
  | _ => false

/-- The lambda that initialises `m_player` in `updatePlayer`: the engine for the format of the
sample, otherwise the engine for the format with the other channel count.  `getEngineFor`
stands for `QRtAudioEngine::getEngineFor`, which is not among the sources; the branch the
source marks unreachable yields no engine. -/
def selectEngine (getEngineFor : QAudioDevice → Nat → Option QRtAudioEngine)
    (device : QAudioDevice) (sample : QSample) : Option QRtAudioEngine :=
  match getEngineFor device sample.channelCount with
  | some player => some player
  | none =>
    match sample.channelCount with
    | 1 => getEngineFor device 2
    | 2 => getEngineFor device 1
    | _ => none

/-- The function `QSoundEffectPrivateWithPlayer::updatePlayer`: the return value and the
effect after the call. -/
def updatePlayer (getEngineFor : QAudioDevice → Nat → Option QRtAudioEngine)
    (e : QSoundEffectPrivateWithPlayer) (sample : QSample) :
    Bool × QSoundEffectPrivateWithPlayer :=
  let e1 := { e with m_voiceFinishedConnection := false, m_player := none }
  if e1.m_resolvedAudioDevice.isNull then (false, e1)
  else
    match selectEngine getEngineFor e1.m_resolvedAudioDevice sample with
    | none => (false, e1)
    | some player => (true, { e1 with m_player := some player, m_voiceFinishedConnection := true })

/-- The overload `QSoundEffectPrivateWithPlayer::play(std::shared_ptr<QSoundEffectVoice>)`.
The result is `none` when the call dereferences an absent player. -/
def play_voice (e : QSoundEffectPrivateWithPlayer) (voiceId : VoiceId)
    (voice : QSoundEffectVoice) : Option QSoundEffectPrivateWithPlayer :=
  match e.m_player with
  | none => none
  | some _ =>
    let e1 := { e with m_voices := voicesInsert e.m_voices (voiceId, voice) }
    let e2 := setLoopsRemaining e1 e1.m_loopCount
    if e2.m_voices.length = 1 then some { e2 with playingChanged := e2.playingChanged + 1 }
    else some e2

/-- The function `QSoundEffectPrivateWithPlayer::play()`.  The result is `none` when the call
dereferences an absent player. -/
def play (e : QSoundEffectPrivateWithPlayer) : Option QSoundEffectPrivateWithPlayer :=
  match e.m_sample with
  | none => some { e with m_playPending := true }
  | some sample =>
    if e.m_status ≠ QSoundEffect.Status.Ready then some e
    else
      match e.m_player with
      | none => none
      | some player =>
        play_voice { e with nextVoiceId := e.nextVoiceId + 1 } e.nextVoiceId
          (QSoundEffectVoice.construct sample e.m_volume e.m_muted e.m_loopCount
            player.sinkChannelCount)

/-- The function `QSoundEffectPrivateWithPlayer::setSource`: the return value and the effect
after the call.  The request to the sample cache is answered later, by `sampleLoaded`. -/
def setSource (e : QSoundEffectPrivateWithPlayer) (url : QUrl) :
    Bool × QSoundEffectPrivateWithPlayer :=
  let e1 := { e with m_sampleLoadFuture := none }
  let e2 :=
    if e1.m_player.isSome then { e1 with m_voiceFinishedConnection := false, m_player := none }
    else e1
  let e3 := { e2 with m_url := url, m_sample := none }
  if url.isEmpty then (false, setStatus e3 QSoundEffect.Status.Null)
  else if !url.isValid then (false, setStatus e3 QSoundEffect.Status.Error)
  else
    (true, { setStatus e3 QSoundEffect.Status.Loading with
              m_sampleLoadFuture := some { finished := false } })

/-- The continuation that `setSource` attaches to the sample future, run with the result of
the sample cache (`none` when decoding failed).  A cancelled future and a future whose
continuation has run do not run it.  The result is `none` when the call dereferences an absent
player. -/
def sampleLoaded (getEngineFor : QAudioDevice → Nat → Option QRtAudioEngine)
    (e : QSoundEffectPrivateWithPlayer) (result : Option QSample) :
    Option QSoundEffectPrivateWithPlayer :=
  match e.m_sampleLoadFuture with
  | none => some e
  | some future =>
    if future.finished then some e
    else
      let e0 := { e with m_sampleLoadFuture := some { finished := true } }
      match result with
      | some sample =>
        if !formatIsSupported sample.channelCount then
          some (setStatus e0 QSoundEffect.Status.Error)
        else
          let updated := updatePlayer getEngineFor e0 sample
          let e1 := { updated.2 with m_sample := some sample }
          if !updated.1 then some (setStatus e1 QSoundEffect.Status.Error)
          else
            let e2 := setStatus e1 QSoundEffect.Status.Ready
            if e2.m_playPending then play { e2 with m_playPending := false }
            else some { e2 with m_playPending := false }
      | none => some (setStatus e0 QSoundEffect.Status.Error)

/-- One round of a loop of `setResolvedAudioDevice` that replays the voices: the voice is
cloned, with a new voice id, and played.  `engineFormat` tells whether the clone takes the
format of the sink of the player, as in the first loop, or keeps the format of the voice, as
in the second loop. -/
def playClone (engineFormat : Bool) (e : QSoundEffectPrivateWithPlayer)
    (voice : VoiceId × QSoundEffectVoice) : Option QSoundEffectPrivateWithPlayer :=
  match e.m_player with
  | none => none
  | some player =>
    play_voice { e with nextVoiceId := e.nextVoiceId + 1 } e.nextVoiceId
      (voice.2.clone (if engineFormat then some player.sinkChannelCount else none))

/-- A loop of `setResolvedAudioDevice` over the voices that were in flight. -/
def playClones (engineFormat : Bool) :
    List (VoiceId × QSoundEffectVoice) → QSoundEffectPrivateWithPlayer →
    Option QSoundEffectPrivateWithPlayer
  | [], e => some e
  | voice :: voices, e =>
    match playClone engineFormat e voice with
    | none => none
    | some e1 => playClones engineFormat voices e1

/-- The function `QSoundEffectPrivateWithPlayer::setResolvedAudioDevice`.  Stopping the voices
on the old player changes no member of the effect.  The result is `none` when the call
dereferences an absent player. -/
def setResolvedAudioDevice (getEngineFor : QAudioDevice → Nat → Option QRtAudioEngine)
    (e : QSoundEffectPrivateWithPlayer) (device : QAudioDevice) :
    Option QSoundEffectPrivateWithPlayer :=
  if e.m_resolvedAudioDevice = device then some e
  else
    let voices := e.m_voices
    let e1 := { e with m_resolvedAudioDevice := device, m_voices := [] }
    match e1.m_sample with
    | some sample =>
      let updated := updatePlayer getEngineFor e1 sample
      if !updated.1 then some (setStatus updated.2 QSoundEffect.Status.Error)
      else
        match playClones true voices updated.2 with
        | none => none
        | some e2 => playClones false voices (setStatus e2 QSoundEffect.Status.Ready)
    | none =>
      some (setStatus e1
        (if e1.m_sampleLoadFuture.isSome then QSoundEffect.Status.Loading
         else QSoundEffect.Status.Null))

/-- A sound effect as its constructor leaves it when no audio device is there: no source, no
sample, no player, no voice. -/
def fresh : QSoundEffectPrivateWithPlayer :=
  { m_audioDevice := { id := none }, m_defaultAudioDevice := { id := none },
    m_resolvedAudioDevice := { id := none }, m_url := { isEmpty := true, isValid := false },
    m_sample := none, m_sampleLoadFuture := none, m_player := none,
    m_voiceFinishedConnection := false, m_voices := [], m_status := QSoundEffect.Status.Null,
    m_loopCount := 1, m_loopsRemaining := 0, m_volume := 1, m_muted := false,
    m_playPending := false, nextVoiceId := 0, statusChanged := 0, playingChanged := 0,
    loopsRemainingChanged := 0 }

/-- A sound effect on the device "speaker", without a source. -/
def speakerEffect : QSoundEffectPrivateWithPlayer :=
  { fresh with
    m_resolvedAudioDevice := { id := some "speaker" }
    m_defaultAudioDevice := { id := some "speaker" } }

/-- An engine lookup that finds a stereo engine for every device and format. -/
def stereoEngineFor : QAudioDevice → Nat → Option QRtAudioEngine :=
  fun _ _ => some { sinkChannelCount := 2 }

/-- A sound effect on the device "speaker" with the two-frame mono sample of `twoLoopVoice`
loaded and one voice, with the voice id 0, in flight after one frame. -/
def oneVoiceEffect : QSoundEffectPrivateWithPlayer :=
  { fresh with
    m_resolvedAudioDevice := { id := some "speaker" }
    m_defaultAudioDevice := { id := some "speaker" }
    m_url := { isEmpty := false, isValid := true }
    m_sample := some twoLoopVoice.m_sample
    m_sampleLoadFuture := some { finished := true }
    m_player := some { sinkChannelCount := 1 }
    m_voiceFinishedConnection := true
    m_voices := [(0, { twoLoopVoice with m_loopsRemaining := 1, m_currentFrame := 1 })]
    m_status := QSoundEffect.Status.Ready
    m_loopsRemaining := 1
    nextVoiceId := 1
    playingChanged := 1 }

/-- The function `QSoundEffectPrivateWithPlayer::stop`.  The result is `none` when the call
dereferences an absent player, which the loop over the voices does for every voice. -/
def stop (e : QSoundEffectPrivateWithPlayer) : Option QSoundEffectPrivateWithPlayer :=
  let activeVoices := e.m_voices.length
  if e.m_voices ≠ [] ∧ e.m_player.isNone then none
  else
    let e1 := setLoopsRemaining e 0
    let e2 := { e1 with m_voices := [], m_playPending := false }
    if activeVoices ≠ 0 then some { e2 with playingChanged := e2.playingChanged + 1 }
    else some e2

/-- The function `QSoundEffectPrivateWithPlayer::setVolume`: the return value and the effect
after the call.  The result is `none` when the call dereferences an absent player, which the
loop over the voices does for every voice. -/
def setVolume (e : QSoundEffectPrivateWithPlayer) (volume : ℚ) :
    Option (Bool × QSoundEffectPrivateWithPlayer) :=
  if e.m_volume = volume then some (false, e)
  else
    let e1 := { e with m_volume := volume }
    if e1.m_voices ≠ [] ∧ e1.m_player.isNone then none
    else
      some (true, { e1 with
        m_voices := e1.m_voices.map (fun entry => (entry.1, { entry.2 with m_volume := volume })) })

/-- The function `QSoundEffectPrivateWithPlayer::setMuted`: the return value and the effect
after the call.  The result is `none` when the call dereferences an absent player, which the
loop over the voices does for every voice. -/
def setMuted (e : QSoundEffectPrivateWithPlayer) (muted : Bool) :
    Option (Bool × QSoundEffectPrivateWithPlayer) :=
  if e.m_muted = muted then some (false, e)
  else
    let e1 := { e with m_muted := muted }
    if e1.m_voices ≠ [] ∧ e1.m_player.isNone then none
    else
      some (true, { e1 with
        m_voices := e1.m_voices.map (fun entry => (entry.1, { entry.2 with m_muted := muted })) })

/-- The function `QSoundEffectPrivateWithPlayer::setLoopCount`: the return value and the effect
after the call. -/
def setLoopCount (e : QSoundEffectPrivateWithPlayer) (loopCount : Int) :
    Bool × QSoundEffectPrivateWithPlayer :=
  let loopCount := if loopCount = 0 then 1 else loopCount
  if loopCount = e.m_loopCount then (false, e)
  else
    let e1 := { e with m_loopCount := loopCount }
    match e1.m_voices.getLast? with
    | none => (true, e1)
    | some voice =>
      let e2 := { e1 with
        m_voices := e1.m_voices.dropLast ++ [(voice.1, { voice.2 with m_loopsRemaining := loopCount })] }
      (true, setLoopsRemaining e2 loopCount)

/-- The function `QSoundEffectPrivateWithPlayer::resolveAudioDevice`; `defaultAudioOutput` is
what `QMediaDevices::defaultAudioOutput()` returns. -/
def resolveAudioDevice (getEngineFor : QAudioDevice → Nat → Option QRtAudioEngine)
    (defaultAudioOutput : QAudioDevice) (e : QSoundEffectPrivateWithPlayer) :
    Option QSoundEffectPrivateWithPlayer :=
  let e1 :=
    if e.m_audioDevice.isNull then { e with m_defaultAudioDevice := defaultAudioOutput } else e
  setResolvedAudioDevice getEngineFor e1
    (if e1.m_audioDevice.isNull then e1.m_defaultAudioDevice else e1.m_audioDevice)

/-- The function `QSoundEffectPrivateWithPlayer::setAudioDevice`: the return value and the
effect after the call. -/
def setAudioDevice (getEngineFor : QAudioDevice → Nat → Option QRtAudioEngine)
    (defaultAudioOutput : QAudioDevice) (e : QSoundEffectPrivateWithPlayer)
    (device : QAudioDevice) : Option (Bool × QSoundEffectPrivateWithPlayer) :=
  if device = e.m_audioDevice then some (false, e)
  else
    match resolveAudioDevice getEngineFor defaultAudioOutput { e with m_audioDevice := device } with
    | none => none
    | some e1 => some (true, e1)

/-- The handler of `QMediaDevices::audioOutputsChanged` that the constructor connects;
`defaultAudioOutput` is what `QMediaDevices::defaultAudioOutput()` returns. -/
def audioOutputsChanged (getEngineFor : QAudioDevice → Nat → Option QRtAudioEngine)
    (defaultAudioOutput : QAudioDevice) (e : QSoundEffectPrivateWithPlayer) :
    Option QSoundEffectPrivateWithPlayer :=
  if defaultAudioOutput = e.m_defaultAudioDevice then some e
  else
    let e1 := { e with m_defaultAudioDevice := defaultAudioOutput }
    if e1.m_audioDevice.isNull then setResolvedAudioDevice getEngineFor e1 e1.m_defaultAudioDevice
    else some e1

/-- The handler of `QRtAudioEngine::voiceFinished` that `updatePlayer` connects; it runs only
while the connection is there. -/
def voiceFinished (e : QSoundEffectPrivateWithPlayer) (voiceId : VoiceId) :
    QSoundEffectPrivateWithPlayer :=
  if !e.m_voiceFinishedConnection then e
  else
    let e1 := if some voiceId = activeVoice e then setLoopsRemaining e 0 else e
    if e1.m_voices.any (fun entry => decide (entry.1 = voiceId)) then
      let e2 := { e1 with m_voices := e1.m_voices.filter (fun entry => !decide (entry.1 = voiceId)) }
      if e2.m_voices.isEmpty then { e2 with playingChanged := e2.playingChanged + 1 } else e2
    else e1

/-- The operations on a sound effect: the calls of a client, the completion of the sample
load with the result of the sample cache, the change of the audio outputs with the new default
output, and the notification of the player that a voice has finished. -/
inductive Op where
  | setSource (url : QUrl)
  | sampleLoaded (result : Option QSample)
  | play
  | stop
  | setVolume (volume : ℚ)
  | setMuted (muted : Bool)
  | setLoopCount (loopCount : Int)
  | setAudioDevice (device defaultAudioOutput : QAudioDevice)
  | audioOutputsChanged (defaultAudioOutput : QAudioDevice)
  | voiceFinished (voiceId : VoiceId)

/-- One operation on a sound effect.  The result is `none` when the operation dereferences an
absent player. -/
def Op.step (getEngineFor : QAudioDevice → Nat → Option QRtAudioEngine)
    (e : QSoundEffectPrivateWithPlayer) : Op → Option QSoundEffectPrivateWithPlayer
  | Op.setSource url => some (QSoundEffectPrivateWithPlayer.setSource e url).2
  | Op.sampleLoaded result => QSoundEffectPrivateWithPlayer.sampleLoaded getEngineFor e result
  | Op.play => QSoundEffectPrivateWithPlayer.play e
  | Op.stop => QSoundEffectPrivateWithPlayer.stop e
  | Op.setVolume volume => (QSoundEffectPrivateWithPlayer.setVolume e volume).map Prod.snd
  | Op.setMuted muted => (QSoundEffectPrivateWithPlayer.setMuted e muted).map Prod.snd
  | Op.setLoopCount loopCount => some (QSoundEffectPrivateWithPlayer.setLoopCount e loopCount).2
  | Op.setAudioDevice device defaultAudioOutput =>
    (QSoundEffectPrivateWithPlayer.setAudioDevice getEngineFor defaultAudioOutput e device).map
      Prod.snd
  | Op.audioOutputsChanged defaultAudioOutput =>
    QSoundEffectPrivateWithPlayer.audioOutputsChanged getEngineFor defaultAudioOutput e
  | Op.voiceFinished voiceId => some (QSoundEffectPrivateWithPlayer.voiceFinished e voiceId)

/-- The operations of a list, one after the other. -/
def Op.run (getEngineFor : QAudioDevice → Nat → Option QRtAudioEngine) :
    QSoundEffectPrivateWithPlayer → List Op → Option QSoundEffectPrivateWithPlayer
  | e, [] => some e
  | e, op :: ops =>
    match Op.step getEngineFor e op with
    | none => none
    | some e1 => Op.run getEngineFor e1 ops

/-- A source that is neither empty nor invalid. -/
def validUrl : QUrl := { isEmpty := false, isValid := true }

/-- An engine lookup that finds a stereo engine for the device "speaker" and no engine for any
other device. -/
def speakerOnlyEngineFor : QAudioDevice → Nat → Option QRtAudioEngine :=
  fun device _ => if device.id = some "speaker" then some { sinkChannelCount := 2 } else none

/-- A client loads the sample of `twoLoopVoice` and plays it once. -/
def loadAndPlay : List Op :=
  [Op.setSource validUrl, Op.sampleLoaded (some twoLoopVoice.m_sample), Op.play]

end QSoundEffectPrivateWithPlayer

end QtMultimediaPrivate

/-- Modelled from the spec: the enumeration `QAudioFormat::SampleFormat` (declared in
`qaudioformat.h`, not among the sources), the sample representations of the spec plus
`Unknown`. -/
inductive QAudioFormat.SampleFormat where
  | Unknown
  | UInt8
  | Int16
  | Int32
  | Float
  deriving DecidableEq, Repr

/-- Modelled from the spec: the part of `QAudioFormat` (declared in `qaudioformat.h`, not among
the sources) that the device info sets through `setSampleRate`, `setChannelCount` and
`setSampleFormat`; each setter stores its argument. -/
structure QAudioFormat where
  sampleRate : Int
  channelCount : Int
  sampleFormat : QAudioFormat.SampleFormat
  deriving DecidableEq, Repr

/-- The function `std::clamp(v, lo, hi)` on `int`. -/
def std.clamp (v lo hi : Int) : Int :=
  if v < lo then lo else if hi < v then hi else v

/-- The members of `QAudioDevicePrivate` that the constructor of `QOpenSLESDeviceInfo`
reads or writes. -/
structure QOpenSLESDeviceInfo where
  isDefault : Bool
  minimumChannelCount : Int
  maximumChannelCount : Int
  minimumSampleRate : Int
  maximumSampleRate : Int
  supportedSampleFormats : List QAudioFormat.SampleFormat
  preferredFormat : QAudioFormat
  deriving DecidableEq, Repr

/-- The body of the constructor `QOpenSLESDeviceInfo::QOpenSLESDeviceInfo`.  `base` holds the
members as the base-class constructor `QAudioDevicePrivate` leaves them; `channels`,
`sampleRates` and `formats` are what the engine returns for `supportedChannelCounts(mode)`,
`supportedSampleRates(mode)` and `supportedSampleFormats(mode)`. -/
def QOpenSLESDeviceInfo.construct (base : QOpenSLESDeviceInfo) (isDefaultDevice : Bool)
    (channels sampleRates : List Int) (formats : List QAudioFormat.SampleFormat) :
    QOpenSLESDeviceInfo :=
  let minimumChannelCount :=
    if channels.length ≠ 0 then channels.headD 0 else base.minimumChannelCount
  let maximumChannelCount :=
    if channels.length ≠ 0 then channels.getLastD 0 else base.maximumChannelCount
  let minimumSampleRate :=
    if sampleRates.length ≠ 0 then sampleRates.headD 0 else base.minimumSampleRate
  let maximumSampleRate :=
    if sampleRates.length ≠ 0 then sampleRates.getLastD 0 else base.maximumSampleRate
  let f : QAudioFormat.SampleFormat :=
    if ¬ formats.contains QAudioFormat.SampleFormat.Int16
    then formats.headD QAudioFormat.SampleFormat.Unknown
    else QAudioFormat.SampleFormat.Int16
  { isDefault := isDefaultDevice
    minimumChannelCount := minimumChannelCount
    maximumChannelCount := maximumChannelCount
    minimumSampleRate := minimumSampleRate
    maximumSampleRate := maximumSampleRate
    supportedSampleFormats := formats
    preferredFormat :=
      { base.preferredFormat with
        channelCount := std.clamp 2 minimumChannelCount maximumChannelCount
        sampleRate := std.clamp 48000 minimumSampleRate maximumSampleRate
        sampleFormat := f } }

/-- A freshly constructed `QAudioDevicePrivate` part: no range, no format. -/
def QOpenSLESDeviceInfo.blank : QOpenSLESDeviceInfo :=
  { isDefault := false, minimumChannelCount := 0, maximumChannelCount := 0,
    minimumSampleRate := 0, maximumSampleRate := 0, supportedSampleFormats := [],
    preferredFormat :=
      { sampleRate := 0, channelCount := 0, sampleFormat := QAudioFormat.SampleFormat.Unknown } }


namespace QtPipeWire

/-- Modelled from the spec: the registry's object id (`ObjectId`, declared in a header that is
not among the sources); ids may be reused by the registry. -/
abbrev ObjectId := Nat

/-- Modelled from the spec: the object serial (`ObjectSerial`, declared in a header that is
not among the sources), the reuse-proof identifier of a registry object. -/
abbrev ObjectSerial := Nat

/-- Modelled from the spec: the enumeration `PipewireRegistryType` (declared in
`qpipewire_registry_support_p.h`, not among the sources).  `objectAdded` distinguishes
`Device`, `Node` and everything else; `Other` stands for the remaining enumerators. -/
inductive PipewireRegistryType where
  | Device
  | Node
  | Other
  deriving DecidableEq, Repr

/-- Modelled from the spec: the property dictionary of a registry object (`PwPropertyDict`,
declared in `qpipewire_registry_support_p.h`, not among the sources), given by the results of
the getters the monitor calls on it: `getMediaClass`, `getObjectSerial`, `getNodeName`,
`getDeviceId`, `getDeviceName`, `getDeviceSysfsPath`; `nodeDescription` is the description of a
node, from which the description of its audio device is taken. -/
structure PwPropertyDict where
  mediaClass : Option String
  objectSerial : Option ObjectSerial
  nodeName : Option String
  deviceId : Option ObjectId
  deviceName : Option String
  deviceSysfsPath : Option String
  nodeDescription : Option String
  deriving DecidableEq, Repr

/-- The class `ObjectRemoveObserver`.  Observers are held through shared pointers and compared
by pointer; `address` stands for the identity of the observer object. -/
structure ObjectRemoveObserver where
  address : Nat
  m_observedSerial : ObjectSerial
  deriving DecidableEq, Repr

/-- The function `ObjectRemoveObserver::serial`. -/
def ObjectRemoveObserver.serial (o : ObjectRemoveObserver) : ObjectSerial :=
  o.m_observedSerial

/-- Modelled from the spec: the dictionaries of the monitor (their type is declared in
`qpipewire_audiodevicemonitor_p.h`, not among the sources) are maps from a key to a value, kept
here as lists of key-value pairs; this is the lookup `find`. -/
def dictFind {β : Type} : List (Nat × β) → Nat → Option β
  | [], _ => none
  | (k', v) :: rest, k => if k' = k then some v else dictFind rest k

/-- The call `emplace(key, value)` on a `std::map`: no effect when the key is present. -/
def dictEmplace {β : Type} (d : List (Nat × β)) (k : Nat) (v : β) : List (Nat × β) :=
  match dictFind d k with
  | some _ => d
  | none => (k, v) :: d

/-- The call `erase(key)` on a `std::map`. -/
def dictErase {β : Type} (d : List (Nat × β)) (k : Nat) : List (Nat × β) :=
  d.filter (fun e => decide (e.1 ≠ k))

/-- The struct `DeviceRecord`. -/
structure DeviceRecord where
  serial : ObjectSerial
  properties : PwPropertyDict
  deriving DecidableEq, Repr

/-- The struct `SpaRange<int>` of `qpipewire_spa_pod_parser_support_p.h`. -/
structure SpaRange where
  defaultValue : Int
  minValue : Int
  maxValue : Int
  deriving DecidableEq, Repr

/-- The member `rates` of `SpaObjectAudioFormat`, a variant of `int`, `std::vector<int>` and
`SpaRange<int>`. -/
inductive SpaRates where
  | rate (value : Int)
  | rates (values : List Int)
  | range (range : SpaRange)
  deriving DecidableEq, Repr

/-- The member `sampleTypes` of `SpaObjectAudioFormat`, a variant of `spa_audio_format`,
`SpaEnum<spa_audio_format>` and `spa_audio_iec958_codec`; the enumerators of the PipeWire
headers are given by their numbers. -/
inductive SpaSampleTypes where
  | format (format : Nat)
  | formatEnum (values : List Nat)
  | iec958Codec (codec : Nat)
  deriving DecidableEq, Repr

/-- The enumerator `SPA_AUDIO_IEC958_CODEC_PCM` of the PipeWire header
`spa/param/audio/iec958.h`. -/
def SPA_AUDIO_IEC958_CODEC_PCM : Nat := 1

/-- The struct `SpaObjectAudioFormat` of `qpipewire_spa_pod_support_p.h`. -/
structure SpaObjectAudioFormat where
  channelCount : Int
  rates : SpaRates
  sampleTypes : SpaSampleTypes
  channelPositions : Option (List Nat)
  deriving DecidableEq, Repr

/-- The data members of `PendingNodeRecord` the monitor reads.  `formatFinished` is the state
`formatFuture.isFinished()` of the format future, `formatResults` is what
`formatFuture.results()` returns: one entry for every format the node has reported, empty
when the format could not be parsed. -/
structure PendingNodeRecord where
  serial : ObjectSerial
  deviceSerial : Option ObjectSerial
  properties : PwPropertyDict
  formatFinished : Bool
  formatResults : List (Option SpaObjectAudioFormat)
  deriving DecidableEq, Repr

/-- The struct `PendingRecords`.  A default-device entry is `none` when no change is pending,
`some none` for `NoDefaultDeviceType` and `some (some name)` for a node name. -/
structure PendingRecords where
  m_sources : List PendingNodeRecord
  m_sinks : List PendingNodeRecord
  m_removals : List ObjectSerial
  m_defaultSource : Option (Option String)
  m_defaultSink : Option (Option String)
  deriving DecidableEq, Repr

/-- The function `QAudioDeviceMonitor::PendingRecords::removeRecordsForObject`. -/
def PendingRecords.removeRecordsForObject (p : PendingRecords) (id : ObjectSerial) :
    PendingRecords :=
  { p with
    m_sources := p.m_sources.filter
      (fun record => !(decide (record.serial = id) || decide (record.deviceSerial = some id)))
    m_sinks := p.m_sinks.filter
      (fun record => !(decide (record.serial = id) || decide (record.deviceSerial = some id))) }

/-- The struct `NodeRecord`: a node whose format has been resolved. -/
structure NodeRecord where
  serial : ObjectSerial
  deviceSerial : Option ObjectSerial
  properties : PwPropertyDict
  format : SpaObjectAudioFormat
  deriving DecidableEq, Repr

/-- Modelled from the spec: the enumeration `QAudioDevice::Mode` (declared in `qaudiodevice.h`,
not among the sources). -/
inductive QAudioDevice.Mode where
  | Null
  | Input
  | Output
  deriving DecidableEq, Repr

/-- Modelled from the spec: an audio device as the monitor publishes it (`QAudioDevice` over
`QPipewireAudioDevicePrivate`, neither among the sources), given by the arguments it is
constructed from in `updateSourcesOrSinks`: the properties and the format of the node, the
sysfs path of the parent device, the mode and the default flag. -/
structure QAudioDevice where
  properties : PwPropertyDict
  sysFsPath : Option String
  format : SpaObjectAudioFormat
  mode : QAudioDevice.Mode
  isDefault : Bool
  deriving DecidableEq, Repr

/-- Modelled from the spec: the identifier `id()` of a published device, the name of its
node. -/
def QAudioDevice.id (d : QAudioDevice) : Option String := d.properties.nodeName

/-- Modelled from the spec: the description `description()` of a published device, the
description of its node. -/
def QAudioDevice.description (d : QAudioDevice) : String := d.properties.nodeDescription.getD ""

/-- The state of a `QAudioDeviceMonitor`.  `m_compressionTimerActive` is
`m_compressionTimer.isActive()`.  The last four members record what the monitor has done so
far: the observers whose signal `objectRemoved()` has been emitted and the lists passed to
`audioSourcesChanged` and `audioSinksChanged`, in order, and the number of runs of
`audioDevicesChanged`. -/
structure QAudioDeviceMonitor where
  m_objectSerialDict : List (ObjectId × ObjectSerial)
  m_serialObjectDict : List (ObjectSerial × ObjectId)
  m_objectRemoveObserver : List ObjectRemoveObserver
  m_devices : List (ObjectSerial × DeviceRecord)
  m_pendingRecords : PendingRecords
  m_compressionTimerActive : Bool
  m_sources : List NodeRecord
  m_sinks : List NodeRecord
  m_sourceDeviceList : List QAudioDevice
  m_sinkDeviceList : List QAudioDevice
  m_defaultSourceName : Option String
  m_defaultSinkName : Option String
  emittedObjectRemoved : List ObjectRemoveObserver
  emittedAudioSourcesChanged : List (List QAudioDevice)
  emittedAudioSinksChanged : List (List QAudioDevice)
  audioDevicesChangedRuns : Nat
  deriving DecidableEq, Repr

namespace QAudioDeviceMonitor

/-- The function `QAudioDeviceMonitor::findObjectId`. -/
def findObjectId (m : QAudioDeviceMonitor) (serial : ObjectSerial) : Option ObjectId :=
  dictFind m.m_serialObjectDict serial

/-- The function `QAudioDeviceMonitor::findObjectSerial`. -/
def findObjectSerial (m : QAudioDeviceMonitor) (id : ObjectId) : Option ObjectSerial :=
  dictFind m.m_objectSerialDict id

/-- The function `QAudioDeviceMonitor::startCompressionTimer`, with the queued call run at once. -/
def startCompressionTimer (m : QAudioDeviceMonitor) : QAudioDeviceMonitor :=
  if m.m_compressionTimerActive then m else { m with m_compressionTimerActive := true }

/-- The lambda `addPendingNode` of `objectAdded`; `sources` selects the list
`m_pendingRecords.m_sources`, otherwise `m_pendingRecords.m_sinks`. -/
def addPendingNode (m : QAudioDeviceMonitor) (sources : Bool) (serial : ObjectSerial)
    (props : PwPropertyDict) : QAudioDeviceMonitor :=
  match props.nodeName with
  | none => m
  | some nodeName =>
    if nodeName = "auto_null" then m
    else
      let deviceSerial : Option ObjectSerial :=
        match props.deviceId with
        | some deviceId => findObjectSerial m deviceId
        | none => none
      if props.deviceId.isSome ∧ deviceSerial.isNone then m
      else
        let record : PendingNodeRecord :=
          { serial := serial, deviceSerial := deviceSerial, properties := props,
            formatFinished := false, formatResults := [] }
        if sources then
          { m with m_pendingRecords :=
              { m.m_pendingRecords with m_sources := m.m_pendingRecords.m_sources ++ [record] } }
        else
          { m with m_pendingRecords :=
              { m.m_pendingRecords with m_sinks := m.m_pendingRecords.m_sinks ++ [record] } }

/-- The function `QAudioDeviceMonitor::objectAdded`.  An object without a serial, which the source rules out
by assertion, is ignored. -/
def objectAdded (m : QAudioDeviceMonitor) (id : ObjectId) (objectType : PipewireRegistryType)
    (props : PwPropertyDict) : QAudioDeviceMonitor :=
  match props.mediaClass with
  | none => m
  | some mediaClass =>
    match props.objectSerial with
    | none => m
    | some serial =>
      let m1 : QAudioDeviceMonitor :=
        { m with
          m_objectSerialDict := dictEmplace m.m_objectSerialDict id serial
          m_serialObjectDict := dictEmplace m.m_serialObjectDict serial id }
      match objectType with
      | PipewireRegistryType.Device =>
        if mediaClass ≠ "Audio/Device" then m1
        else
          { m1 with
            m_devices := dictEmplace m1.m_devices serial { serial := serial, properties := props } }
      | PipewireRegistryType.Node =>
        if mediaClass = "Audio/Source" ∨ mediaClass = "Audio/Source/Virtual" then
          addPendingNode m1 true serial props
        else if mediaClass = "Audio/Sink" ∨ mediaClass = "Audio/Sink/Virtual" then
          addPendingNode m1 false serial props
        else m1
      | PipewireRegistryType.Other => m1

/-- The function `QAudioDeviceMonitor::objectRemoved`. -/
def objectRemoved (m : QAudioDeviceMonitor) (id : ObjectId) : QAudioDeviceMonitor :=
  match findObjectSerial m id with
  | none => m
  | some serial =>
    let removalObserversForObject :=
      m.m_objectRemoveObserver.filter (fun observer => decide (observer.serial = serial))
    let m1 : QAudioDeviceMonitor :=
      { m with
        m_objectRemoveObserver :=
          m.m_objectRemoveObserver.filter (fun element => !decide (element.serial = serial))
        m_objectSerialDict := dictErase m.m_objectSerialDict id
        m_serialObjectDict := dictErase m.m_serialObjectDict serial }
    let m2 : QAudioDeviceMonitor :=
      { m1 with emittedObjectRemoved := m1.emittedObjectRemoved ++ removalObserversForObject }
    let pending := m2.m_pendingRecords.removeRecordsForObject serial
    startCompressionTimer
      { m2 with m_pendingRecords := { pending with m_removals := pending.m_removals ++ [serial] } }

/-- The function `QAudioDeviceMonitor::registerObserver`: the return value and the monitor after the
call. -/
def registerObserver (m : QAudioDeviceMonitor) (observer : ObjectRemoveObserver) :
    Bool × QAudioDeviceMonitor :=
  match dictFind m.m_serialObjectDict observer.serial with
  | none => (false, m)
  | some _ => (true, { m with m_objectRemoveObserver := m.m_objectRemoveObserver ++ [observer] })

/-- The function `QAudioDeviceMonitor::unregisterObserver`. -/
def unregisterObserver (m : QAudioDeviceMonitor) (observer : ObjectRemoveObserver) :
    QAudioDeviceMonitor :=
  { m with
    m_objectRemoveObserver := m.m_objectRemoveObserver.filter (fun o => decide (o ≠ observer)) }

/-- The calls that reach the object bookkeeping of the monitor. -/
inductive Event where
  | objectAdded (id : ObjectId) (objectType : PipewireRegistryType) (props : PwPropertyDict)
  | objectRemoved (id : ObjectId)
  | registerObserver (observer : ObjectRemoveObserver)
  | unregisterObserver (observer : ObjectRemoveObserver)
  deriving DecidableEq, Repr

/-- The monitor after one call. -/
def step (m : QAudioDeviceMonitor) : Event → QAudioDeviceMonitor
  | Event.objectAdded id objectType props => objectAdded m id objectType props
  | Event.objectRemoved id => objectRemoved m id
  | Event.registerObserver observer => (registerObserver m observer).2
  | Event.unregisterObserver observer => unregisterObserver m observer

/-- The monitor after a sequence of calls. -/
def run (m : QAudioDeviceMonitor) (es : List Event) : QAudioDeviceMonitor :=
  es.foldl step m

/-- How often the signal `objectRemoved()` of `observer` has been emitted. -/
def notifications (m : QAudioDeviceMonitor) (observer : ObjectRemoveObserver) : Nat :=
  m.emittedObjectRemoved.count observer

/-- A call that concerns neither the object id `i`, nor the serials `s` and `s'`, nor the
observer `o`: another object is added or removed, another observer is registered or
unregistered. -/
def Event.unrelated (i : ObjectId) (s s' : ObjectSerial) (o : ObjectRemoveObserver) :
    Event → Prop
  | Event.objectAdded id _ props =>
    id ≠ i ∧ props.objectSerial ≠ some s ∧ props.objectSerial ≠ some s'
  | Event.objectRemoved id => id ≠ i
  | Event.registerObserver observer => observer ≠ o
  | Event.unregisterObserver observer => observer ≠ o

/-- The bookkeeping of the monitor as far as the object id `i`, the serials `s` and `s'` and
the observer `o` go: `i` is mapped to `cur`, no other id is mapped to `s` or `s'`, a serial
among `s`, `s'` has an id exactly when it is `cur`, the observer is registered `k` times and
has been notified `c` times. -/
def Tracks (m : QAudioDeviceMonitor) (i : ObjectId) (s s' : ObjectSerial)
    (o : ObjectRemoveObserver) (cur : Option ObjectSerial) (k c : Nat) : Prop :=
  findObjectSerial m i = cur ∧
  (∀ t, cur = some t → findObjectId m t = some i) ∧
  (∀ j, j ≠ i → findObjectSerial m j ≠ some s ∧ findObjectSerial m j ≠ some s') ∧
  (cur ≠ some s → findObjectId m s = none) ∧
  (cur ≠ some s' → findObjectId m s' = none) ∧
  m.m_objectRemoveObserver.count o = k ∧
  notifications m o = c

/-- A monitor that tracks nothing. -/
def empty : QAudioDeviceMonitor :=
  { m_objectSerialDict := [], m_serialObjectDict := [], m_objectRemoveObserver := [],
    m_devices := [],
    m_pendingRecords :=
      { m_sources := [], m_sinks := [], m_removals := [], m_defaultSource := none,
        m_defaultSink := none },
    m_compressionTimerActive := false, m_sources := [], m_sinks := [],
    m_sourceDeviceList := [], m_sinkDeviceList := [], m_defaultSourceName := none,
    m_defaultSinkName := none, emittedObjectRemoved := [], emittedAudioSourcesChanged := [],
    emittedAudioSinksChanged := [], audioDevicesChangedRuns := 0 }

/-- Properties of an audio device object with the given serial. -/
def deviceProps (serial : ObjectSerial) : PwPropertyDict :=
  { mediaClass := some "Audio/Device", objectSerial := some serial, nodeName := none,
    deviceId := none, deviceName := none, deviceSysfsPath := none, nodeDescription := none }

/-- The call adds an object with serial `s`. -/
def Event.addsSerial (s : ObjectSerial) : Event → Prop
  | Event.objectAdded _ _ props => props.objectSerial = some s
  | _ => False

/-- The enumeration `QAudioDeviceMonitor::Direction`. -/
inductive Direction where
  | sink
  | source
  deriving DecidableEq, Repr

/-- The two calls of `std::sort` in `updateSourcesOrSinks`: `results` sorts the format results
of a node, `devices` sorts the rebuilt device list.  The standard leaves open in which order
`std::sort` puts elements that compare equivalent, so the two functions are parameters of the
embedding. -/
structure StdSort where
  results : List SpaObjectAudioFormat → List SpaObjectAudioFormat
  devices : List QAudioDevice → List QAudioDevice

/-- Both sorting functions rearrange their argument. -/
def StdSort.Permutes (S : StdSort) : Prop :=
  (∀ l, (S.results l).Perm l) ∧ (∀ l, (S.devices l).Perm l)

/-- A sorting model that leaves every list as it is, the outcome of `std::sort` on lists that
are sorted already. -/
def StdSort.keep : StdSort :=
  { results := fun l => l, devices := fun l => l }

/-- The predicate of the second `removeIf` in `updateSourcesOrSinks`: the format is an IEC958
format with a codec other than PCM. -/
def isIEC61937EncapsulatedDevice (arg : SpaObjectAudioFormat) : Bool :=
  match arg.sampleTypes with
  | SpaSampleTypes.iec958Codec format => decide (format ≠ SPA_AUDIO_IEC958_CODEC_PCM)
  | _ => false

/-- The test `std::holds_alternative<spa_audio_iec958_codec>(sampleTypes)` used by the
comparison that sorts the format results. -/
def hasIec958 (arg : SpaObjectAudioFormat) : Bool :=
  match arg.sampleTypes with
  | SpaSampleTypes.iec958Codec _ => true
  | _ => false

/-- The comparison that sorts the format results: formats that are not IEC958 come first. -/
def resultsLess (lhs rhs : SpaObjectAudioFormat) : Bool :=
  !hasIec958 lhs && hasIec958 rhs

/-- The comparison that sorts the rebuilt device list by description. -/
def devicesLess (lhs rhs : QAudioDevice) : Bool :=
  decide (lhs.description < rhs.description)

/-- The format results of a pending node after the two calls of `removeIf` and the sort in
`updateSourcesOrSinks`: the results that hold a format, without the IEC958 formats whose codec
is not PCM. -/
def usableResults (S : StdSort) (record : PendingNodeRecord) : List SpaObjectAudioFormat :=
  S.results
    ((record.formatResults.filterMap (fun arg => arg)).filter
      (fun arg => !isIEC61937EncapsulatedDevice arg))

/-- One round of the loop over `addedNodes` in `updateSourcesOrSinks`: the node is appended to
the node list with the first of its usable formats, or left out when it has none. -/
def addResolvedNode (S : StdSort) (sinksOrSources : List NodeRecord)
    (record : PendingNodeRecord) : List NodeRecord :=
  match usableResults S record with
  | [] => sinksOrSources
  | format :: _ =>
    sinksOrSources ++
      [{ serial := record.serial, deviceSerial := record.deviceSerial,
         properties := record.properties, format := format }]

/-- The loop over `removedObjects` in `updateSourcesOrSinks`. -/
def eraseRemovedObjects (sinksOrSources : List NodeRecord) (removedObjects : List ObjectSerial) :
    List NodeRecord :=
  removedObjects.foldl
    (fun nodes id =>
      nodes.filter
        (fun record => !(decide (record.serial = id) || decide (record.deviceSerial = some id))))
    sinksOrSources

/-- The node list `sinksOrSources` after the first part of `updateSourcesOrSinks`. -/
def updatedNodes (S : StdSort) (sinksOrSources : List NodeRecord)
    (addedNodes : List PendingNodeRecord) (removedObjects : List ObjectSerial) :
    List NodeRecord :=
  addedNodes.foldl (addResolvedNode S) (eraseRemovedObjects sinksOrSources removedObjects)

/-- The lambda that computes `sysFsPath` in `updateSourcesOrSinks`. -/
def sysFsPath (m : QAudioDeviceMonitor) (sinkOrSource : NodeRecord) : Option String :=
  match sinkOrSource.deviceSerial with
  | none => none
  | some deviceSerial =>
    match dictFind m.m_devices deviceSerial with
    | none => none
    | some device => device.properties.deviceSysfsPath

/-- The device created for one node in the loop that rebuilds the device list.  The mode is
`QAudioDevice::Mode::Output` as in the source. -/
def createDevice (m : QAudioDeviceMonitor) (defaultSinkOrSourceNodeName : Option String)
    (sinkOrSource : NodeRecord) : QAudioDevice :=
  { properties := sinkOrSource.properties
    sysFsPath := sysFsPath m sinkOrSource
    format := sinkOrSource.format
    mode := QAudioDevice.Mode.Output
    isDefault := decide (defaultSinkOrSourceNodeName = sinkOrSource.properties.nodeName) }

/-- The list `newDeviceList` of `updateSourcesOrSinks`, after the sort by description. -/
def newDeviceList (S : StdSort) (m : QAudioDeviceMonitor) (mode : Direction)
    (sinksOrSources : List NodeRecord) : List QAudioDevice :=
  S.devices
    (sinksOrSources.map
      (createDevice m
        (if mode = Direction.sink then m.m_defaultSinkName else m.m_defaultSourceName)))

/-- Modelled from the spec: the helper `ranges::equal` (declared in
`qmultimedia_ranges_p.h`, not among the sources) with the comparison of
`updateSourcesOrSinks`: the two lists have the same length and corresponding devices have the
same id and the same default flag. -/
def deviceListsEqual : List QAudioDevice → List QAudioDevice → Bool
  | [], [] => true
  | lhs :: ls, rhs :: rs =>
    (decide (lhs.id = rhs.id) && decide (lhs.isDefault = rhs.isDefault)) && deviceListsEqual ls rs
  | _, _ => false

/-- The function `QAudioDeviceMonitor::updateSourcesOrSinks`. -/
def updateSourcesOrSinks (S : StdSort) (mode : Direction) (m : QAudioDeviceMonitor)
    (addedNodes : List PendingNodeRecord) (removedObjects : List ObjectSerial) :
    QAudioDeviceMonitor :=
  let sinksOrSources :=
    updatedNodes S (if mode = Direction.sink then m.m_sinks else m.m_sources) addedNodes
      removedObjects
  let m1 : QAudioDeviceMonitor :=
    if mode = Direction.sink then { m with m_sinks := sinksOrSources }
    else { m with m_sources := sinksOrSources }
  let oldDeviceList :=
    if mode = Direction.sink then m1.m_sinkDeviceList else m1.m_sourceDeviceList
  let newList := newDeviceList S m1 mode sinksOrSources
  if deviceListsEqual oldDeviceList newList then m1
  else if mode = Direction.sink then
    { m1 with
      m_sinkDeviceList := newList
      emittedAudioSinksChanged := m1.emittedAudioSinksChanged ++ [newList] }
  else
    { m1 with
      m_sourceDeviceList := newList
      emittedAudioSourcesChanged := m1.emittedAudioSourcesChanged ++ [newList] }

/-- The function `QAudioDeviceMonitor::updateSinks`. -/
def updateSinks (S : StdSort) (m : QAudioDeviceMonitor) (addedNodes : List PendingNodeRecord)
    (removedObjects : List ObjectSerial) : QAudioDeviceMonitor :=
  updateSourcesOrSinks S Direction.sink m addedNodes removedObjects

/-- The function `QAudioDeviceMonitor::updateSources`. -/
def updateSources (S : StdSort) (m : QAudioDeviceMonitor) (addedNodes : List PendingNodeRecord)
    (removedObjects : List ObjectSerial) : QAudioDeviceMonitor :=
  updateSourcesOrSinks S Direction.source m addedNodes removedObjects

/-- The lambda `takeFullyResolvedRecords` of `audioDevicesChanged`: the loop walks through
`toResolve` and splices every record whose format future is finished to the end of `resolved`.
The result is the pair of `toResolve` and `resolved` after the loop. -/
def takeFullyResolvedRecords :
    List PendingNodeRecord → List PendingNodeRecord →
    List PendingNodeRecord × List PendingNodeRecord
  | [], resolved => ([], resolved)
  | it :: rest, resolved =>
    if it.formatFinished then takeFullyResolvedRecords rest (resolved ++ [it])
    else
      (it :: (takeFullyResolvedRecords rest resolved).1,
        (takeFullyResolvedRecords rest resolved).2)

/-- The function `QAudioDeviceMonitor::audioDevicesChanged`.  The lambda that takes the
records to handle out of `m_pendingRecords` leaves `m1` behind and returns `pendingRecords`;
the run is counted in `audioDevicesChangedRuns`. -/
def audioDevicesChanged (S : StdSort) (m : QAudioDeviceMonitor) : QAudioDeviceMonitor :=
  let pendingRecords : PendingRecords :=
    { m_removals := m.m_pendingRecords.m_removals
      m_defaultSource := m.m_pendingRecords.m_defaultSource
      m_defaultSink := m.m_pendingRecords.m_defaultSink
      m_sources := (takeFullyResolvedRecords m.m_pendingRecords.m_sources []).2
      m_sinks := (takeFullyResolvedRecords m.m_pendingRecords.m_sinks []).2 }
  let m1 : QAudioDeviceMonitor :=
    { m with
      audioDevicesChangedRuns := m.audioDevicesChangedRuns + 1
      m_pendingRecords :=
        { m_removals := []
          m_defaultSource := none
          m_defaultSink := none
          m_sources := (takeFullyResolvedRecords m.m_pendingRecords.m_sources []).1
          m_sinks := (takeFullyResolvedRecords m.m_pendingRecords.m_sinks []).1 } }
  let defaultSourceChanged := pendingRecords.m_defaultSource.isSome
  let m2 : QAudioDeviceMonitor :=
    match pendingRecords.m_defaultSource with
    | some newDefault => { m1 with m_defaultSourceName := newDefault }
    | none => m1
  let defaultSinkChanged := pendingRecords.m_defaultSink.isSome
  let m3 : QAudioDeviceMonitor :=
    match pendingRecords.m_defaultSink with
    | some newDefault => { m2 with m_defaultSinkName := newDefault }
    | none => m2
  let m4 : QAudioDeviceMonitor :=
    if !pendingRecords.m_sources.isEmpty || !pendingRecords.m_removals.isEmpty
        || defaultSourceChanged then
      updateSources S m3 pendingRecords.m_sources pendingRecords.m_removals
    else m3
  if !pendingRecords.m_sinks.isEmpty || !pendingRecords.m_removals.isEmpty
      || defaultSinkChanged then
    updateSinks S m4 pendingRecords.m_sinks pendingRecords.m_removals
  else m4

/-- The function `QAudioDeviceMonitor::setDefaultAudioSink`; `none` stands for
`NoDefaultDeviceType`. -/
def setDefaultAudioSink (m : QAudioDeviceMonitor) (newDefault : Option String) :
    QAudioDeviceMonitor :=
  startCompressionTimer
    { m with m_pendingRecords := { m.m_pendingRecords with m_defaultSink := some newDefault } }

/-- The function `QAudioDeviceMonitor::setDefaultAudioSource`; `none` stands for
`NoDefaultDeviceType`. -/
def setDefaultAudioSource (m : QAudioDeviceMonitor) (newDefault : Option String) :
    QAudioDeviceMonitor :=
  startCompressionTimer
    { m with m_pendingRecords := { m.m_pendingRecords with m_defaultSource := some newDefault } }

/-- The callback `onParam` of a pending node: the parsed format (empty when parsing failed) is
added to the results of the format future of the node with the given serial, as long as the
future has not finished. -/
def formatParam (m : QAudioDeviceMonitor) (serial : ObjectSerial)
    (format : Option SpaObjectAudioFormat) : QAudioDeviceMonitor :=
  let addResult := fun (record : PendingNodeRecord) =>
    if record.serial = serial ∧ record.formatFinished = false then
      { record with formatResults := record.formatResults ++ [format] }
    else record
  { m with m_pendingRecords :=
      { m.m_pendingRecords with
        m_sources := m.m_pendingRecords.m_sources.map addResult
        m_sinks := m.m_pendingRecords.m_sinks.map addResult } }

/-- The completion of the format enumeration of a pending node: the format future of the node
with the given serial finishes and its continuation calls `startCompressionTimer`.  Nothing
happens when no such node is pending any more. -/
def formatDone (m : QAudioDeviceMonitor) (serial : ObjectSerial) : QAudioDeviceMonitor :=
  let isWaiting := fun (record : PendingNodeRecord) =>
    decide (record.serial = serial) && !record.formatFinished
  let finish := fun (record : PendingNodeRecord) =>
    if record.serial = serial then { record with formatFinished := true } else record
  if m.m_pendingRecords.m_sources.any isWaiting || m.m_pendingRecords.m_sinks.any isWaiting then
    startCompressionTimer
      { m with m_pendingRecords :=
          { m.m_pendingRecords with
            m_sources := m.m_pendingRecords.m_sources.map finish
            m_sinks := m.m_pendingRecords.m_sinks.map finish } }
  else m

/-- The timeout of the single-shot compression timer: the timer stops and the connected
lambda calls `audioDevicesChanged`.  A timer that is not active does not time out. -/
def compressionTimeout (S : StdSort) (m : QAudioDeviceMonitor) : QAudioDeviceMonitor :=
  if m.m_compressionTimerActive then
    audioDevicesChanged S { m with m_compressionTimerActive := false }
  else m

/-- The calls that reach the monitor: the registry calls of `Event`, the callbacks of the
format enumeration, the changes of the default devices and the timeout of the compression
timer. -/
inductive Call where
  | registry (e : Event)
  | formatParam (serial : ObjectSerial) (format : Option SpaObjectAudioFormat)
  | formatDone (serial : ObjectSerial)
  | setDefaultAudioSink (newDefault : Option String)
  | setDefaultAudioSource (newDefault : Option String)
  | timeout
  deriving DecidableEq, Repr

/-- The monitor after one call. -/
def Call.step (S : StdSort) (m : QAudioDeviceMonitor) : Call → QAudioDeviceMonitor
  | Call.registry e => QAudioDeviceMonitor.step m e
  | Call.formatParam serial format => QAudioDeviceMonitor.formatParam m serial format
  | Call.formatDone serial => QAudioDeviceMonitor.formatDone m serial
  | Call.setDefaultAudioSink newDefault => QAudioDeviceMonitor.setDefaultAudioSink m newDefault
  | Call.setDefaultAudioSource newDefault =>
    QAudioDeviceMonitor.setDefaultAudioSource m newDefault
  | Call.timeout => compressionTimeout S m

/-- The monitor after a sequence of calls. -/
def Call.run (S : StdSort) (m : QAudioDeviceMonitor) (calls : List Call) : QAudioDeviceMonitor :=
  calls.foldl (Call.step S) m

/-- The call adds an object with serial `s`. -/
def Call.addsSerial (s : ObjectSerial) : Call → Prop
  | Call.registry e => Event.addsSerial s e
  | _ => False

/-- The node record concerns the object with serial `s`: it is the node with this serial or a
node of the device with this serial. -/
def nodeConcerns (record : NodeRecord) (s : ObjectSerial) : Prop :=
  record.serial = s ∨ record.deviceSerial = some s

/-- The pending node record concerns the object with serial `s`. -/
def pendingConcerns (record : PendingNodeRecord) (s : ObjectSerial) : Prop :=
  record.serial = s ∨ record.deviceSerial = some s

/-- The node list of one direction: `m_sinks` or `m_sources`. -/
def nodeList (m : QAudioDeviceMonitor) : Direction → List NodeRecord
  | Direction.sink => m.m_sinks
  | Direction.source => m.m_sources

/-- The published device list of one direction: `m_sinkDeviceList` or `m_sourceDeviceList`. -/
def publishedList (m : QAudioDeviceMonitor) : Direction → List QAudioDevice
  | Direction.sink => m.m_sinkDeviceList
  | Direction.source => m.m_sourceDeviceList

/-- The lists passed so far to the change signal of one direction: `audioSinksChanged` or
`audioSourcesChanged`. -/
def emittedLists (m : QAudioDeviceMonitor) : Direction → List (List QAudioDevice)
  | Direction.sink => m.emittedAudioSinksChanged
  | Direction.source => m.emittedAudioSourcesChanged

/-- The device list that `updateSourcesOrSinks` rebuilds from the updated node list. -/
def rebuiltDeviceList (S : StdSort) (mode : Direction) (m : QAudioDeviceMonitor)
    (addedNodes : List PendingNodeRecord) (removedObjects : List ObjectSerial) :
    List QAudioDevice :=
  newDeviceList S m mode (updatedNodes S (nodeList m mode) addedNodes removedObjects)

/-- What the comparison of `updateSourcesOrSinks` looks at in a device: its id and its default
flag. -/
def idAndDefault (d : QAudioDevice) : Option String × Bool := (d.id, d.isDefault)

/-- Properties of an audio sink node with the given serial and node name, without a parent
device. -/
def sinkProps (serial : ObjectSerial) (name : String) : PwPropertyDict :=
  { mediaClass := some "Audio/Sink", objectSerial := some serial, nodeName := some name,
    deviceId := none, deviceName := none, deviceSysfsPath := none, nodeDescription := some name }

/-- A stereo format with the sample rate 48000 and the given sample types. -/
def stereoFormat (sampleTypes : SpaSampleTypes) : SpaObjectAudioFormat :=
  { channelCount := 2, rates := SpaRates.rate 48000, sampleTypes := sampleTypes,
    channelPositions := none }

/-- A resolved pending sink node with the given serial, node name and format results. -/
def resolvedSink (serial : ObjectSerial) (name : String)
    (results : List (Option SpaObjectAudioFormat)) : PendingNodeRecord :=
  { serial := serial, deviceSerial := none, properties := sinkProps serial name,
    formatFinished := true, formatResults := results }

/-- What a call does to the published device list of one direction: it leaves the list and
the lists passed to the change signal as they are, or it passes the list it publishes to the
change signal, and this list is the device list rebuilt from the node list the call leaves. -/
def Republishes (S : StdSort) (mode : Direction) (before after : QAudioDeviceMonitor) : Prop :=
  (emittedLists after mode = emittedLists before mode ∧
    publishedList after mode = publishedList before mode) ∨
  (emittedLists after mode = emittedLists before mode ++ [publishedList after mode] ∧
    publishedList after mode = newDeviceList S after mode (nodeList after mode))

/-- What a call does to the published device list of one direction once the object with
serial `s` has been removed: it publishes nothing, or it publishes the device list rebuilt from
the node list it leaves, no node of this node list concerns `s`, and every device of the
published list is created from a node of this node list. -/
def PublishesWithout (S : StdSort) (s : ObjectSerial) (mode : Direction)
    (before after : QAudioDeviceMonitor) : Prop :=
  (emittedLists after mode = emittedLists before mode ∧
    publishedList after mode = publishedList before mode) ∨
  (emittedLists after mode = emittedLists before mode ++ [publishedList after mode] ∧
    publishedList after mode = newDeviceList S after mode (nodeList after mode) ∧
    (∀ record ∈ nodeList after mode, ¬ nodeConcerns record s) ∧
    (∀ d ∈ publishedList after mode, ∃ record ∈ nodeList after mode,
      d = createDevice after
            (if mode = Direction.sink then after.m_defaultSinkName
             else after.m_defaultSourceName) record))

/-- What is known of the monitor after the object with serial `s` has been removed: no object
id stands for `s`, no pending node concerns `s`, and the node lists hold no node that concerns
`s` unless the removal of `s` is still pending. -/
def Forgets (s : ObjectSerial) (m : QAudioDeviceMonitor) : Prop :=
  (∀ j, findObjectSerial m j ≠ some s) ∧
  (∀ record ∈ m.m_pendingRecords.m_sources, ¬ pendingConcerns record s) ∧
  (∀ record ∈ m.m_pendingRecords.m_sinks, ¬ pendingConcerns record s) ∧
  (s ∈ m.m_pendingRecords.m_removals ∨
    ((∀ record ∈ m.m_sources, ¬ nodeConcerns record s) ∧
      (∀ record ∈ m.m_sinks, ¬ nodeConcerns record s)))

/-- A monitor with two resolved sinks that are not published yet: the sink nodes with the ids 10
and 11 and the serials 100 and 101 have been added, and the format enumeration of each has
reported one format and completed. -/
def twoSinkPending : QAudioDeviceMonitor :=
  Call.run StdSort.keep empty
    [Call.registry (Event.objectAdded 10 PipewireRegistryType.Node (sinkProps 100 "hdmi")),
     Call.registry (Event.objectAdded 11 PipewireRegistryType.Node (sinkProps 101 "speaker")),
     Call.formatParam 100 (some (stereoFormat (SpaSampleTypes.format 3))),
     Call.formatParam 101 (some (stereoFormat (SpaSampleTypes.format 3))),
     Call.formatDone 100,
     Call.formatDone 101]

/-- A monitor that has published two sinks: `twoSinkPending` after the timeout of the
compression timer. -/
def twoSinkMonitor : QAudioDeviceMonitor :=
  Call.step StdSort.keep twoSinkPending Call.timeout

/-- What `std::sort` guarantees for the format results of a node, sorted with the comparison
of `updateSourcesOrSinks`: no result compares less than a result before it. -/
def StdSort.SortsResults (S : StdSort) : Prop :=
  ∀ l, (S.results l).Pairwise (fun earlier later => resultsLess later earlier = false)

/-- A sorting model that puts the formats that are not IEC958 first and keeps the order
otherwise, one of the outcomes `std::sort` may have on the format results; device lists are
left as they are. -/
def StdSort.nonIec958First : StdSort :=
  { results := fun l => l.filter (fun arg => !hasIec958 arg) ++ l.filter (fun arg => hasIec958 arg),
    devices := fun l => l }

/-- A resolved pending sink node that has reported an IEC958 PCM format and, after it, a raw
format. -/
def hdmiSink : PendingNodeRecord :=
  resolvedSink 102 "hdmi"
    [some (stereoFormat (SpaSampleTypes.iec958Codec SPA_AUDIO_IEC958_CODEC_PCM)),
     none,
     some (stereoFormat (SpaSampleTypes.iec958Codec 2)),
     some (stereoFormat (SpaSampleTypes.format 3))]

/-- Properties of an audio source node with the given serial and node name, without a parent
device. -/
def sourceProps (serial : ObjectSerial) (name : String) : PwPropertyDict :=
  { mediaClass := some "Audio/Source", objectSerial := some serial, nodeName := some name,
    deviceId := none, deviceName := none, deviceSysfsPath := none, nodeDescription := some name }

/-- A monitor that has published one source: the source node with id 20 and serial 200 has
been added, its format enumeration has reported one format and completed, and the compression
timer has timed out. -/
def publishedSourceMonitor : QAudioDeviceMonitor :=
  Call.run StdSort.keep empty
    [Call.registry (Event.objectAdded 20 PipewireRegistryType.Node (sourceProps 200 "mic")),
     Call.formatParam 200 (some (stereoFormat (SpaSampleTypes.format 3))),
     Call.formatDone 200,
     Call.timeout]

/-- The single-shot `QTimer` of Qt as far as the monitor uses `m_compressionTimer`, with time
in milliseconds: `interval` is what `setInterval` has set, `deadline` is the time at which the
running timer will time out and is empty while the timer is not active. -/
structure QTimer where
  interval : Nat
  deadline : Option Nat
  deriving DecidableEq, Repr

/-- The function `QTimer::isActive`. -/
def QTimer.isActive (timer : QTimer) : Bool := timer.deadline.isSome

/-- The function `QTimer::start` called at the time `now`: the timer times out one interval
later; a timer that is running is stopped and started again. -/
def QTimer.start (timer : QTimer) (now : Nat) : QTimer :=
  { timer with deadline := some (now + timer.interval) }

/-- The timer `m_compressionTimer` as the constructor of the monitor leaves it: single shot,
with the interval `compressionTime` of 50 milliseconds, not started. -/
def compressionTimer : QTimer := { interval := 50, deadline := none }

/-- The lambda of `QAudioDeviceMonitor::startCompressionTimer`, run at the time `now`, on the
timer alone. -/
def startCompressionTimerAt (timer : QTimer) (now : Nat) : QTimer :=
  if timer.isActive then timer else timer.start now

/-- The timer after the calls of `startCompressionTimer` at the given times. -/
def startCompressionTimerAtAll (timer : QTimer) (times : List Nat) : QTimer :=
  times.foldl startCompressionTimerAt timer

/-- The registry calls of a history keep to the rules for ids and serials: an object is added
under an id that is not among the ids `live` of the objects added and not removed so far,
and with a serial that is not among the serials `used` so far. -/
def admissible : List ObjectId → List ObjectSerial → List Event → Prop
  | _, _, [] => True
  | live, used, Event.objectAdded id _ props :: rest =>
    id ∉ live ∧ (∀ s, props.objectSerial = some s → s ∉ used) ∧
      admissible (id :: live) (props.objectSerial.toList ++ used) rest
  | live, used, Event.objectRemoved id :: rest => admissible (live.erase id) used rest
  | live, used, _ :: rest => admissible live used rest

/-- The call adds the object with the id `i` and the serial `s`, with a media class. -/
def Event.tracks (i : ObjectId) (s : ObjectSerial) : Event → Prop
  | Event.objectAdded id _ props =>
    id = i ∧ props.objectSerial = some s ∧ props.mediaClass.isSome = true
  | _ => False

/-- The two dictionaries of the monitor are inverse of each other, the ids they hold are among
`live` and the serials they hold are among `used`. -/
def DictsInverse (m : QAudioDeviceMonitor) (live : List ObjectId) (used : List ObjectSerial) :
    Prop :=
  (∀ i s, findObjectSerial m i = some s ↔ findObjectId m s = some i) ∧
  (∀ i s, findObjectSerial m i = some s → i ∈ live ∧ s ∈ used)

end QAudioDeviceMonitor

end QtPipeWire

/-- Modelled from the spec: the class template `QCachedValue` (declared in a header that is
not among the sources), a value that is computed lazily on first access and kept until it is
invalidated; `m_value` is empty while nothing is cached. -/
structure QCachedValue (α : Type) where
  m_value : Option α
  deriving DecidableEq, Repr

/-- Modelled from the spec: the function `QCachedValue::ensure`: it returns the cached value
and runs `creator` only when nothing is cached; the value `creator` returns is cached then.
The state `σ` is what `creator` may change. -/
def QCachedValue.ensure {α σ : Type} (c : QCachedValue α) (creator : σ → α × σ) (s : σ) :
    α × QCachedValue α × σ :=
  match c.m_value with
  | some value => (value, c, s)
  | none => ((creator s).1, { m_value := some (creator s).1 }, (creator s).2)

/-- Modelled from the spec: the function `QCachedValue::reset`: it invalidates the cached value
without computing a new one. -/
def QCachedValue.reset {α : Type} (_c : QCachedValue α) : QCachedValue α :=
  { m_value := none }

/-- Modelled from the spec: the function `QCachedValue::update`: it stores `value` and tells
whether it differs from what was cached. -/
def QCachedValue.update {α : Type} [DecidableEq α] (c : QCachedValue α) (value : α) :
    Bool × QCachedValue α :=
  if c.m_value = some value then (false, c) else (true, { m_value := some value })

/-- The virtual functions `findAudioInputs` and `findAudioOutputs` of the platform:
`findAudioInputs n` is the list the enumeration of the inputs finds when `n` enumerations of
the inputs have run before, and likewise for the outputs. -/
structure AudioPlatform (Device : Type) where
  findAudioInputs : Nat → List Device
  findAudioOutputs : Nat → List Device

/-- The state of a `QPlatformAudioDevices`: the two caches, how often `findAudioInputs` and
`findAudioOutputs` have run, and how often the signals `audioInputsChanged` and
`audioOutputsChanged` have been emitted. -/
structure QPlatformAudioDevices (Device : Type) where
  m_audioInputs : QCachedValue (List Device)
  m_audioOutputs : QCachedValue (List Device)
  findAudioInputsCalls : Nat
  findAudioOutputsCalls : Nat
  emittedAudioInputsChanged : Nat
  emittedAudioOutputsChanged : Nat
  deriving DecidableEq, Repr

namespace QPlatformAudioDevices

/-- One run of the virtual function `findAudioInputs`. -/
def findAudioInputs {Device : Type} (platform : AudioPlatform Device)
    (d : QPlatformAudioDevices Device) : List Device × QPlatformAudioDevices Device :=
  (platform.findAudioInputs d.findAudioInputsCalls,
    { d with findAudioInputsCalls := d.findAudioInputsCalls + 1 })

/-- One run of the virtual function `findAudioOutputs`. -/
def findAudioOutputs {Device : Type} (platform : AudioPlatform Device)
    (d : QPlatformAudioDevices Device) : List Device × QPlatformAudioDevices Device :=
  (platform.findAudioOutputs d.findAudioOutputsCalls,
    { d with findAudioOutputsCalls := d.findAudioOutputsCalls + 1 })

/-- The function `QPlatformAudioDevices::audioInputs`: the list it returns and the state after
the call. -/
def audioInputs {Device : Type} (platform : AudioPlatform Device)
    (d : QPlatformAudioDevices Device) : List Device × QPlatformAudioDevices Device :=
  ((d.m_audioInputs.ensure (findAudioInputs platform) d).1,
    { (d.m_audioInputs.ensure (findAudioInputs platform) d).2.2 with
      m_audioInputs := (d.m_audioInputs.ensure (findAudioInputs platform) d).2.1 })

/-- The function `QPlatformAudioDevices::audioOutputs`: the list it returns and the state
after the call. -/
def audioOutputs {Device : Type} (platform : AudioPlatform Device)
    (d : QPlatformAudioDevices Device) : List Device × QPlatformAudioDevices Device :=
  ((d.m_audioOutputs.ensure (findAudioOutputs platform) d).1,
    { (d.m_audioOutputs.ensure (findAudioOutputs platform) d).2.2 with
      m_audioOutputs := (d.m_audioOutputs.ensure (findAudioOutputs platform) d).2.1 })

/-- The function `QPlatformAudioDevices::onAudioInputsChanged`. -/
def onAudioInputsChanged {Device : Type} (d : QPlatformAudioDevices Device) :
    QPlatformAudioDevices Device :=
  { d with m_audioInputs := d.m_audioInputs.reset,
           emittedAudioInputsChanged := d.emittedAudioInputsChanged + 1 }

/-- The function `QPlatformAudioDevices::onAudioOutputsChanged`. -/
def onAudioOutputsChanged {Device : Type} (d : QPlatformAudioDevices Device) :
    QPlatformAudioDevices Device :=
  { d with m_audioOutputs := d.m_audioOutputs.reset,
           emittedAudioOutputsChanged := d.emittedAudioOutputsChanged + 1 }

/-- The function `QPlatformAudioDevices::updateAudioInputsCache`. -/
def updateAudioInputsCache {Device : Type} [DecidableEq Device] (platform : AudioPlatform Device)
    (d : QPlatformAudioDevices Device) : QPlatformAudioDevices Device :=
  let found := findAudioInputs platform d
  let updated := found.2.m_audioInputs.update found.1
  if updated.1 then
    { found.2 with m_audioInputs := updated.2,
                   emittedAudioInputsChanged := found.2.emittedAudioInputsChanged + 1 }
  else { found.2 with m_audioInputs := updated.2 }

/-- The function `QPlatformAudioDevices::updateAudioOutputsCache`. -/
def updateAudioOutputsCache {Device : Type} [DecidableEq Device]
    (platform : AudioPlatform Device) (d : QPlatformAudioDevices Device) :
    QPlatformAudioDevices Device :=
  let found := findAudioOutputs platform d
  let updated := found.2.m_audioOutputs.update found.1
  if updated.1 then
    { found.2 with m_audioOutputs := updated.2,
                   emittedAudioOutputsChanged := found.2.emittedAudioOutputsChanged + 1 }
  else { found.2 with m_audioOutputs := updated.2 }

/-- The two accessors of the device lists. -/
inductive Accessor where
  | audioInputs
  | audioOutputs
  deriving DecidableEq, Repr

/-- The state after a sequence of calls of the accessors. -/
def access {Device : Type} (platform : AudioPlatform Device) :
    QPlatformAudioDevices Device → List Accessor → QPlatformAudioDevices Device
  | d, [] => d
  | d, Accessor.audioInputs :: rest => access platform (audioInputs platform d).2 rest
  | d, Accessor.audioOutputs :: rest => access platform (audioOutputs platform d).2 rest

end QPlatformAudioDevices

/-- Modelled from the spec: the function `QAudioFormat::bytesPerSample` (defined in
`qaudioformat.cpp`, not among the sources), the size in bytes of one sample of one channel;
0 for the format `Unknown`. -/
def QAudioFormat.bytesPerSample (format : QAudioFormat) : Int :=
  match format.sampleFormat with
  | QAudioFormat.SampleFormat.Unknown => 0
  | QAudioFormat.SampleFormat.UInt8 => 1
  | QAudioFormat.SampleFormat.Int16 => 2
  | QAudioFormat.SampleFormat.Int32 => 4
  | QAudioFormat.SampleFormat.Float => 4

/-- Modelled from the spec: the speaker position `SL_SPEAKER_FRONT_LEFT` of the OpenSL ES
header, which is not among the sources.  Each speaker position is one bit. -/
def SL_SPEAKER_FRONT_LEFT : Nat := 0x00000001

/-- Modelled from the spec: the speaker position `SL_SPEAKER_FRONT_RIGHT` of the OpenSL ES
header. -/
def SL_SPEAKER_FRONT_RIGHT : Nat := 0x00000002

/-- Modelled from the spec: the speaker position `SL_SPEAKER_FRONT_CENTER` of the OpenSL ES
header. -/
def SL_SPEAKER_FRONT_CENTER : Nat := 0x00000004

/-- Modelled from the spec: the speaker position `SL_SPEAKER_LOW_FREQUENCY` of the OpenSL ES
header. -/
def SL_SPEAKER_LOW_FREQUENCY : Nat := 0x00000008

/-- Modelled from the spec: the speaker position `SL_SPEAKER_BACK_LEFT` of the OpenSL ES
header. -/
def SL_SPEAKER_BACK_LEFT : Nat := 0x00000010

/-- Modelled from the spec: the speaker position `SL_SPEAKER_BACK_RIGHT` of the OpenSL ES
header. -/
def SL_SPEAKER_BACK_RIGHT : Nat := 0x00000020

/-- Modelled from the spec: the speaker position `SL_SPEAKER_FRONT_LEFT_OF_CENTER` of the
OpenSL ES header. -/
def SL_SPEAKER_FRONT_LEFT_OF_CENTER : Nat := 0x00000040

/-- Modelled from the spec: the speaker position `SL_SPEAKER_FRONT_RIGHT_OF_CENTER` of the
OpenSL ES header. -/
def SL_SPEAKER_FRONT_RIGHT_OF_CENTER : Nat := 0x00000080

/-- Modelled from the spec: the speaker position `SL_SPEAKER_BACK_CENTER` of the OpenSL ES
header. -/
def SL_SPEAKER_BACK_CENTER : Nat := 0x00000100

/-- Modelled from the spec: the speaker position `SL_SPEAKER_SIDE_LEFT` of the OpenSL ES
header. -/
def SL_SPEAKER_SIDE_LEFT : Nat := 0x00000200

/-- Modelled from the spec: the speaker position `SL_SPEAKER_SIDE_RIGHT` of the OpenSL ES
header. -/
def SL_SPEAKER_SIDE_RIGHT : Nat := 0x00000400

/-- Modelled from the spec: the speaker position `SL_SPEAKER_TOP_CENTER` of the OpenSL ES
header. -/
def SL_SPEAKER_TOP_CENTER : Nat := 0x00000800

/-- Modelled from the spec: the speaker position `SL_SPEAKER_TOP_FRONT_LEFT` of the OpenSL ES
header. -/
def SL_SPEAKER_TOP_FRONT_LEFT : Nat := 0x00001000

/-- Modelled from the spec: the speaker position `SL_SPEAKER_TOP_FRONT_CENTER` of the
OpenSL ES header. -/
def SL_SPEAKER_TOP_FRONT_CENTER : Nat := 0x00002000

/-- Modelled from the spec: the speaker position `SL_SPEAKER_TOP_FRONT_RIGHT` of the OpenSL ES
header. -/
def SL_SPEAKER_TOP_FRONT_RIGHT : Nat := 0x00004000

/-- Modelled from the spec: the speaker position `SL_SPEAKER_TOP_BACK_LEFT` of the OpenSL ES
header. -/
def SL_SPEAKER_TOP_BACK_LEFT : Nat := 0x00008000

/-- Modelled from the spec: the speaker position `SL_SPEAKER_TOP_BACK_CENTER` of the OpenSL ES
header. -/
def SL_SPEAKER_TOP_BACK_CENTER : Nat := 0x00010000

/-- Modelled from the spec: the speaker position `SL_SPEAKER_TOP_BACK_RIGHT` of the OpenSL ES
header. -/
def SL_SPEAKER_TOP_BACK_RIGHT : Nat := 0x00020000

/-- The speaker positions of the OpenSL ES header. -/
def speakerPositions : List Nat :=
  [SL_SPEAKER_FRONT_LEFT, SL_SPEAKER_FRONT_RIGHT, SL_SPEAKER_FRONT_CENTER,
   SL_SPEAKER_LOW_FREQUENCY, SL_SPEAKER_BACK_LEFT, SL_SPEAKER_BACK_RIGHT,
   SL_SPEAKER_FRONT_LEFT_OF_CENTER, SL_SPEAKER_FRONT_RIGHT_OF_CENTER, SL_SPEAKER_BACK_CENTER,
   SL_SPEAKER_SIDE_LEFT, SL_SPEAKER_SIDE_RIGHT, SL_SPEAKER_TOP_CENTER, SL_SPEAKER_TOP_FRONT_LEFT,
   SL_SPEAKER_TOP_FRONT_CENTER, SL_SPEAKER_TOP_FRONT_RIGHT, SL_SPEAKER_TOP_BACK_LEFT,
   SL_SPEAKER_TOP_BACK_CENTER, SL_SPEAKER_TOP_BACK_RIGHT]

/-- The speaker positions whose bit is set in `mask`. -/
def speakerPositionsOf (mask : Nat) : List Nat :=
  speakerPositions.filter (fun position => decide (mask &&& position = position))

/-- The population count of a 32-bit mask: the number of bits that are set. -/
def popCount (mask : Nat) : Nat :=
  ((List.range 32).filter (fun bit => mask.testBit bit)).length

/-- The function `getChannelMask` of `qopenslesengine.cpp`. -/
def getChannelMask (channelCount : Nat) : Nat :=
  match channelCount with
  | 1 => SL_SPEAKER_FRONT_CENTER
  | 2 => SL_SPEAKER_FRONT_LEFT ||| SL_SPEAKER_FRONT_RIGHT
  | 3 => SL_SPEAKER_FRONT_LEFT ||| SL_SPEAKER_FRONT_RIGHT ||| SL_SPEAKER_FRONT_CENTER
  | 4 => SL_SPEAKER_FRONT_LEFT ||| SL_SPEAKER_FRONT_RIGHT
      ||| SL_SPEAKER_BACK_LEFT ||| SL_SPEAKER_BACK_RIGHT
  | 5 => SL_SPEAKER_FRONT_LEFT ||| SL_SPEAKER_FRONT_RIGHT ||| SL_SPEAKER_BACK_LEFT
      ||| SL_SPEAKER_BACK_RIGHT ||| SL_SPEAKER_FRONT_CENTER
  | 6 => SL_SPEAKER_FRONT_LEFT ||| SL_SPEAKER_FRONT_RIGHT ||| SL_SPEAKER_BACK_LEFT
      ||| SL_SPEAKER_BACK_RIGHT ||| SL_SPEAKER_FRONT_CENTER ||| SL_SPEAKER_LOW_FREQUENCY
  | 7 => SL_SPEAKER_FRONT_LEFT ||| SL_SPEAKER_FRONT_RIGHT ||| SL_SPEAKER_FRONT_CENTER
      ||| SL_SPEAKER_BACK_LEFT ||| SL_SPEAKER_BACK_RIGHT ||| SL_SPEAKER_LOW_FREQUENCY
      ||| SL_SPEAKER_BACK_CENTER
  | 8 => SL_SPEAKER_FRONT_LEFT ||| SL_SPEAKER_FRONT_RIGHT ||| SL_SPEAKER_FRONT_CENTER
      ||| SL_SPEAKER_LOW_FREQUENCY ||| SL_SPEAKER_BACK_LEFT ||| SL_SPEAKER_BACK_RIGHT
      ||| SL_SPEAKER_SIDE_LEFT ||| SL_SPEAKER_SIDE_RIGHT
  | 9 => SL_SPEAKER_FRONT_LEFT ||| SL_SPEAKER_FRONT_RIGHT ||| SL_SPEAKER_FRONT_CENTER
      ||| SL_SPEAKER_LOW_FREQUENCY ||| SL_SPEAKER_BACK_LEFT ||| SL_SPEAKER_BACK_RIGHT
      ||| SL_SPEAKER_SIDE_LEFT ||| SL_SPEAKER_SIDE_RIGHT ||| SL_SPEAKER_TOP_FRONT_CENTER
  | 10 => SL_SPEAKER_FRONT_LEFT ||| SL_SPEAKER_FRONT_RIGHT ||| SL_SPEAKER_FRONT_CENTER
      ||| SL_SPEAKER_LOW_FREQUENCY ||| SL_SPEAKER_BACK_LEFT ||| SL_SPEAKER_BACK_RIGHT
      ||| SL_SPEAKER_SIDE_LEFT ||| SL_SPEAKER_SIDE_RIGHT ||| SL_SPEAKER_TOP_FRONT_LEFT
      ||| SL_SPEAKER_TOP_FRONT_RIGHT
  | 11 => SL_SPEAKER_FRONT_LEFT ||| SL_SPEAKER_FRONT_RIGHT ||| SL_SPEAKER_FRONT_CENTER
      ||| SL_SPEAKER_LOW_FREQUENCY ||| SL_SPEAKER_BACK_LEFT ||| SL_SPEAKER_BACK_RIGHT
      ||| SL_SPEAKER_SIDE_LEFT ||| SL_SPEAKER_SIDE_RIGHT ||| SL_SPEAKER_TOP_FRONT_LEFT
      ||| SL_SPEAKER_TOP_FRONT_RIGHT ||| SL_SPEAKER_TOP_BACK_CENTER
  | 12 => SL_SPEAKER_FRONT_LEFT ||| SL_SPEAKER_FRONT_RIGHT ||| SL_SPEAKER_FRONT_CENTER
      ||| SL_SPEAKER_LOW_FREQUENCY ||| SL_SPEAKER_BACK_LEFT ||| SL_SPEAKER_BACK_RIGHT
      ||| SL_SPEAKER_SIDE_LEFT ||| SL_SPEAKER_SIDE_RIGHT ||| SL_SPEAKER_TOP_FRONT_LEFT
      ||| SL_SPEAKER_TOP_FRONT_RIGHT ||| SL_SPEAKER_TOP_BACK_LEFT
      ||| SL_SPEAKER_TOP_BACK_RIGHT
  | _ => 0

/-- The values that `getRepresentation` returns, by the names of the OpenSL ES header. -/
inductive SLAndroidPcmRepresentation where
  | SL_ANDROID_PCM_REPRESENTATION_SIGNED_INT
  | SL_ANDROID_PCM_REPRESENTATION_UNSIGNED_INT
  | SL_ANDROID_PCM_REPRESENTATION_FLOAT
  | SL_ANDROID_PCM_REPRESENTATION_INVALID
  deriving DecidableEq, Repr

/-- The function `getRepresentation` of `qopenslesengine.cpp`. -/
def getRepresentation (format : QAudioFormat.SampleFormat) : SLAndroidPcmRepresentation :=
  match format with
  | QAudioFormat.SampleFormat.UInt8 =>
    SLAndroidPcmRepresentation.SL_ANDROID_PCM_REPRESENTATION_UNSIGNED_INT
  | QAudioFormat.SampleFormat.Int16 =>
    SLAndroidPcmRepresentation.SL_ANDROID_PCM_REPRESENTATION_SIGNED_INT
  | QAudioFormat.SampleFormat.Int32 =>
    SLAndroidPcmRepresentation.SL_ANDROID_PCM_REPRESENTATION_SIGNED_INT
  | QAudioFormat.SampleFormat.Float =>
    SLAndroidPcmRepresentation.SL_ANDROID_PCM_REPRESENTATION_FLOAT
  | QAudioFormat.SampleFormat.Unknown =>
    SLAndroidPcmRepresentation.SL_ANDROID_PCM_REPRESENTATION_INVALID

/-- The conversion of an `int` to the type `SLuint32`. -/
def toSLuint32 (value : Int) : Nat := (value % 2 ^ 32).toNat

/-- The members of `SLAndroidDataFormat_PCM_EX` that depend on the format; `formatType` and
`endianness` are constants of the platform. -/
structure SLAndroidDataFormat_PCM_EX where
  numChannels : Nat
  sampleRate : Nat
  bitsPerSample : Nat
  containerSize : Nat
  channelMask : Nat
  representation : SLAndroidPcmRepresentation
  deriving DecidableEq, Repr

/-- The function `QOpenSLESEngine::audioFormatToSLFormatPCM`. -/
def audioFormatToSLFormatPCM (format : QAudioFormat) : SLAndroidDataFormat_PCM_EX :=
  let numChannels := toSLuint32 format.channelCount
  { numChannels := numChannels
    sampleRate := toSLuint32 (format.sampleRate * 1000)
    bitsPerSample := toSLuint32 (format.bytesPerSample * 8)
    containerSize := toSLuint32 (format.bytesPerSample * 8)
    channelMask := getChannelMask numChannels
    representation := getRepresentation format.sampleFormat }

/-- Modelled from the spec: the function `QAudioFormat::isValid` (declared in `qaudioformat.h`,
not among the sources): the sample rate and the channel count are positive and the sample
format is known. -/
def QAudioFormat.isValid (format : QAudioFormat) : Bool :=
  decide (0 < format.sampleRate) && decide (0 < format.channelCount)
    && decide (format.sampleFormat ≠ QAudioFormat.SampleFormat.Unknown)

/-- Modelled from the spec: the function `QAudioFormat::bytesPerFrame` (declared in
`qaudioformat.h`, not among the sources): the size in bytes of one sample of every channel. -/
def QAudioFormat.bytesPerFrame (format : QAudioFormat) : Int :=
  format.bytesPerSample * format.channelCount

/-- The conversion of an integer to the 32-bit type `int`. -/
def toInt32 (value : Int) : Int := (value + 2 ^ 31) % 2 ^ 32 - 2 ^ 31

/-- Modelled from the spec: the function `QAudioFormat::framesForBytes` (defined in
`qaudioformat.cpp`, not among the sources): the number of whole frames in `byteCount` bytes,
0 when the size of a frame is not positive.  The argument and the result are of the type
`qint32`. -/
def QAudioFormat.framesForBytes (format : QAudioFormat) (byteCount : Int) : Int :=
  if 0 < format.bytesPerFrame then (toInt32 byteCount).tdiv format.bytesPerFrame else 0

namespace QtMultimediaPrivate

/-- The sample types for which `GetSampleTypeImpl` is specialised. -/
inductive SampleType where
  | float
  | int32_t
  | int16_t
  | uint8_t
  deriving DecidableEq, Repr

/-- The size in bytes of a value of the sample type. -/
def SampleType.sizeof : SampleType → Int
  | SampleType.float => 4
  | SampleType.int32_t => 4
  | SampleType.int16_t => 2
  | SampleType.uint8_t => 1

/-- The function template `getSampleFormat`: the member `sample_format` of the specialisation
of `GetSampleTypeImpl`. -/
def getSampleFormat : SampleType → QAudioFormat.SampleFormat
  | SampleType.float => QAudioFormat.SampleFormat.Float
  | SampleType.int32_t => QAudioFormat.SampleFormat.Int32
  | SampleType.int16_t => QAudioFormat.SampleFormat.Int16
  | SampleType.uint8_t => QAudioFormat.SampleFormat.UInt8

/-- An `AudioSinkCallback` or `AudioSourceCallback`: the sample type of the alternative that
the variant holds, and whether the `std::function` it holds has a target. -/
structure AudioCallback where
  sampleType : SampleType
  hasTarget : Bool
  deriving DecidableEq, Repr

/-- The function template `validateAudioCallbackImpl`. -/
def validateAudioCallbackImpl (audioCallback : AudioCallback) (format : QAudioFormat) : Bool :=
  let isNonNullFunction := audioCallback.hasTarget
  if !isNonNullFunction then false
  else
    let hasCorrectFormat := decide (getSampleFormat audioCallback.sampleType = format.sampleFormat)
    hasCorrectFormat

/-- The function `validateAudioCallback`. -/
def validateAudioCallback (audioCallback : AudioCallback) (format : QAudioFormat) : Bool :=
  validateAudioCallbackImpl audioCallback format

/-- The span that `runAudioCallback` hands to the callback: the type of its elements and the
number of elements. -/
structure SampleSpan where
  sampleType : SampleType
  size : Int
  deriving DecidableEq, Repr

/-- The size in bytes of the span. -/
def SampleSpan.size_bytes (span : SampleSpan) : Int := span.size * span.sampleType.sizeof

/-- The function template `runAudioCallback` on a host buffer of `hostBufferSize` bytes: the
span on which the callback is called.  The result is `none` when the host buffer is empty or
the callback is not valid, which the function excludes by an assertion and an assumption.
The number of samples is of the type `int`. -/
def runAudioCallback (audioCallback : AudioCallback) (hostBufferSize : Nat)
    (format : QAudioFormat) : Option SampleSpan :=
  if hostBufferSize = 0 then none
  else
    let callbackIsValid := validateAudioCallback audioCallback format
    if !callbackIsValid then none
    else
      let numberOfSamples : Int :=
        toInt32 (format.framesForBytes hostBufferSize * format.channelCount)
      some { sampleType := audioCallback.sampleType, size := numberOfSamples }

/-- A mono format of 8-bit samples at 8000 Hz. -/
def monoUInt8Format : QAudioFormat :=
  { sampleRate := 8000, channelCount := 1, sampleFormat := QAudioFormat.SampleFormat.UInt8 }

/-- A stereo format of 16-bit samples at 48000 Hz. -/
def stereoInt16Format : QAudioFormat :=
  { sampleRate := 48000, channelCount := 2, sampleFormat := QAudioFormat.SampleFormat.Int16 }

end QtMultimediaPrivate

/-! Part 2: theorems -/

namespace QtMultimediaPrivate

theorem length_addAt (s : List ℚ) (i : Nat) (x : ℚ) : (addAt s i x).length = s.length := by
  simp [addAt]

theorem addAt_nil (i : Nat) (x : ℚ) : addAt [] i x = [] := by
  simp [addAt]

theorem addAt_cons_zero (h : ℚ) (t : List ℚ) (x : ℚ) : addAt (h :: t) 0 x = (h + x) :: t := by
  simp [addAt]

theorem addAt_cons_succ (h : ℚ) (t : List ℚ) (i : Nat) (x : ℚ) :
    addAt (h :: t) (i + 1) x = h :: addAt t i x := by
  simp [addAt]

theorem addAt_append_left (a b : List ℚ) (i : Nat) (x : ℚ) (hi : i < a.length) :
    addAt (a ++ b) i x = addAt a i x ++ b := by
  induction a generalizing i with
  | nil => simp at hi
  | cons h t ih =>
    cases i with
    | zero => simp [addAt_cons_zero]
    | succ i =>
      have hi' : i < t.length := by simpa using hi
      simp [addAt_cons_succ, ih i hi']

theorem addAt_ladd (a b : List ℚ) (i : Nat) (x : ℚ) :
    addAt (ladd a b) i x = ladd (addAt a i x) b := by
  induction a generalizing b i with
  | nil => simp [ladd, addAt_nil]
  | cons h t ih =>
    cases b with
    | nil => simp [ladd, addAt_nil]
    | cons h' t' =>
      cases i with
      | zero =>
        simp only [ladd, List.zipWith_cons_cons, addAt_cons_zero]
        congr 1
        ring
      | succ i =>
        have := ih t' i
        simp only [ladd] at this
        simp only [ladd, List.zipWith_cons_cons, addAt_cons_succ, this]

theorem getD_addAt (s : List ℚ) (i j : Nat) (x : ℚ) :
    (addAt s i x).getD j 0 = if j = i ∧ i < s.length then s.getD j 0 + x else s.getD j 0 := by
  induction s generalizing i j with
  | nil => simp [addAt_nil]
  | cons h t ih =>
    cases i with
    | zero =>
      cases j with
      | zero => simp [addAt_cons_zero]
      | succ j => simp [addAt_cons_zero]
    | succ i =>
      cases j with
      | zero => simp [addAt_cons_succ]
      | succ j =>
        have := ih i j
        simp only [List.getD_eq_getElem?_getD] at this
        simp [addAt_cons_succ, this]

theorem length_fill_n (s : List ℚ) (n : Nat) (x : ℚ) : (fill_n s n x).length = s.length := by
  simp [fill_n]
  omega

theorem foldl_length {α : Type} (l : List α) (F : List ℚ → α → List ℚ)
    (hF : ∀ a k, (F a k).length = a.length) (a : List ℚ) :
    (l.foldl F a).length = a.length := by
  induction l generalizing a with
  | nil => rfl
  | cons k l ih => simp [List.foldl_cons, ih, hF]

theorem foldl_ladd {α : Type} (l : List α) (F : List ℚ → α → List ℚ)
    (hF : ∀ a b k, F (ladd a b) k = ladd (F a k) b) (a b : List ℚ) :
    l.foldl F (ladd a b) = ladd (l.foldl F a) b := by
  induction l generalizing a with
  | nil => rfl
  | cons k l ih => simp [List.foldl_cons, hF, ih]

theorem foldl_append_left {α : Type} (l : List α) (F : List ℚ → α → List ℚ) (n : Nat)
    (hlen : ∀ a k, (F a k).length = a.length)
    (hF : ∀ k ∈ l, ∀ a b : List ℚ, a.length = n → F (a ++ b) k = F a k ++ b)
    (a b : List ℚ) (ha : a.length = n) :
    l.foldl F (a ++ b) = l.foldl F a ++ b := by
  induction l generalizing a with
  | nil => rfl
  | cons k l ih =>
    simp only [List.foldl_cons]
    rw [hF k (List.mem_cons_self _ _) a b ha]
    exact ih (fun k' hk' => hF k' (List.mem_cons_of_mem _ hk')) (F a k) (by rw [hlen, ha])

theorem length_mixSameChannels (range : List ℚ) (vol : ℚ) (cs ce frames : Nat) (buf : List ℚ) :
    (mixSameChannels range vol cs ce frames buf).length = buf.length := by
  unfold mixSameChannels
  apply foldl_length
  intro a k
  apply foldl_length
  intro a' ch
  exact length_addAt _ _ _

theorem length_mixMonoToStereo (range : List ℚ) (vol : ℚ) (cs ce frames : Nat) (buf : List ℚ) :
    (mixMonoToStereo range vol cs ce frames buf).length = buf.length := by
  unfold mixMonoToStereo
  apply foldl_length
  intro a k
  simp [length_addAt]

theorem length_mixStereoToMono (range : List ℚ) (vol : ℚ) (cs ce frames : Nat) (buf : List ℚ) :
    (mixStereoToMono range vol cs ce frames buf).length = buf.length := by
  unfold mixStereoToMono
  apply foldl_length
  intro a k
  simp [length_addAt]

theorem playVoice_fst (v : QSoundEffectVoice) (buf : List ℚ) :
    (playVoice v buf).1 = framesToPlay v buf.length := by
  simp only [playVoice]
  split
  · rfl
  · cases conversionType v.m_sample.channelCount v.m_engineChannelCount <;> rfl

theorem playVoice_length (v : QSoundEffectVoice) (buf : List ℚ) :
    (playVoice v buf).2.length = buf.length := by
  simp only [playVoice]
  split
  · exact length_fill_n _ _ _
  · cases conversionType v.m_sample.channelCount v.m_engineChannelCount
    · exact length_mixSameChannels _ _ _ _ _ _
    · exact length_mixMonoToStereo _ _ _ _ _ _
    · exact length_mixStereoToMono _ _ _ _ _ _

theorem framesToPlay_mul_le (v : QSoundEffectVoice) (n : Nat) :
    framesToPlay v n * v.m_engineChannelCount ≤ n := by
  unfold framesToPlay
  calc min _ (n / v.m_engineChannelCount) * v.m_engineChannelCount
      ≤ (n / v.m_engineChannelCount) * v.m_engineChannelCount :=
        Nat.mul_le_mul_right _ (Nat.min_le_right _ _)
    _ ≤ n := Nat.div_mul_le_self _ _

theorem length_playbackRange (v : QSoundEffectVoice)
    (hdata : v.m_sample.data.length = v.m_totalFrames * v.m_sample.channelCount) :
    (playbackRange v).length
      = (v.m_totalFrames - v.m_currentFrame) * v.m_sample.channelCount := by
  simp only [playbackRange, take, drop, List.length_take, List.length_drop, hdata]
  rw [Nat.sub_mul, Nat.mul_comm v.m_sample.channelCount]
  omega

theorem framesToPlay_eq (v : QSoundEffectVoice) (n : Nat)
    (hdata : v.m_sample.data.length = v.m_totalFrames * v.m_sample.channelCount)
    (hcs : 1 ≤ v.m_sample.channelCount) :
    framesToPlay v n
      = min (v.m_totalFrames - v.m_currentFrame) (n / v.m_engineChannelCount) := by
  unfold framesToPlay
  rw [length_playbackRange v hdata, Nat.mul_div_cancel _ hcs]

theorem ladd_length (a b : List ℚ) (h : a.length = b.length) : (ladd a b).length = a.length := by
  simp [ladd, h]

theorem mixSameChannels_ladd (range : List ℚ) (vol : ℚ) (cs ce frames : Nat) (a b : List ℚ) :
    mixSameChannels range vol cs ce frames (ladd a b)
      = ladd (mixSameChannels range vol cs ce frames a) b := by
  unfold mixSameChannels
  apply foldl_ladd
  intro a' b' k
  apply foldl_ladd
  intro a'' b'' ch
  exact addAt_ladd _ _ _ _

theorem mixMonoToStereo_ladd (range : List ℚ) (vol : ℚ) (cs ce frames : Nat) (a b : List ℚ) :
    mixMonoToStereo range vol cs ce frames (ladd a b)
      = ladd (mixMonoToStereo range vol cs ce frames a) b := by
  unfold mixMonoToStereo
  apply foldl_ladd
  intro a' b' k
  simp only [addAt_ladd]

theorem mixStereoToMono_ladd (range : List ℚ) (vol : ℚ) (cs ce frames : Nat) (a b : List ℚ) :
    mixStereoToMono range vol cs ce frames (ladd a b)
      = ladd (mixStereoToMono range vol cs ce frames a) b := by
  unfold mixStereoToMono
  apply foldl_ladd
  intro a' b' k
  simp only [addAt_ladd]

/-- An audible voice (not muted, volume not zero) only adds to the span: rendering into the
pointwise sum `a + b` gives the rendering into `a` plus `b`. -/
theorem playVoice_ladd (v : QSoundEffectVoice) (a b : List ℚ)
    (hm : v.m_muted = false) (hv : v.m_volume ≠ 0) (hlen : a.length = b.length) :
    (playVoice v (ladd a b)).2 = ladd (playVoice v a).2 b := by
  have hl : (ladd a b).length = a.length := ladd_length a b hlen
  simp only [playVoice, hm, hv, hl, Bool.false_eq_true, or_self, if_false]
  cases conversionType v.m_sample.channelCount v.m_engineChannelCount
  · exact mixSameChannels_ladd _ _ _ _ _ _ _
  · exact mixMonoToStereo_ladd _ _ _ _ _ _ _
  · exact mixStereoToMono_ladd _ _ _ _ _ _ _

theorem mixSameChannels_append (range : List ℚ) (vol : ℚ) (c frames : Nat) (a b : List ℚ)
    (ha : a.length = frames * c) :
    mixSameChannels range vol c c frames (a ++ b)
      = mixSameChannels range vol c c frames a ++ b := by
  unfold mixSameChannels
  refine foldl_append_left _ _ (frames * c) ?_ ?_ a b ha
  · intro a' k
    apply foldl_length
    intro a'' ch
    exact length_addAt _ _ _
  · intro k hk a' b' ha'
    refine foldl_append_left _ _ (frames * c) ?_ ?_ a' b' ha'
    · intro a'' ch
      exact length_addAt _ _ _
    · intro ch hch a'' b'' ha''
      apply addAt_append_left
      rw [ha'']
      have hk' : k + 1 ≤ frames := List.mem_range.mp hk
      have hch' : ch < c := List.mem_range.mp hch
      calc k * c + ch < k * c + c := by omega
        _ = (k + 1) * c := by ring
        _ ≤ frames * c := Nat.mul_le_mul_right _ hk'

theorem mixMonoToStereo_append (range : List ℚ) (vol : ℚ) (frames : Nat) (a b : List ℚ)
    (ha : a.length = frames * 2) :
    mixMonoToStereo range vol 1 2 frames (a ++ b)
      = mixMonoToStereo range vol 1 2 frames a ++ b := by
  unfold mixMonoToStereo
  refine foldl_append_left _ _ (frames * 2) ?_ ?_ a b ha
  · intro a' k
    simp [length_addAt]
  · intro k hk a' b' ha'
    have hk' : k < frames := List.mem_range.mp hk
    simp only []
    rw [addAt_append_left _ _ _ _ (by omega), addAt_append_left _ _ _ _ (by rw [length_addAt]; omega)]

theorem mixStereoToMono_append (range : List ℚ) (vol : ℚ) (frames : Nat) (a b : List ℚ)
    (ha : a.length = frames * 1) :
    mixStereoToMono range vol 2 1 frames (a ++ b)
      = mixStereoToMono range vol 2 1 frames a ++ b := by
  unfold mixStereoToMono
  refine foldl_append_left _ _ (frames * 1) ?_ ?_ a b ha
  · intro a' k
    simp [length_addAt]
  · intro k hk a' b' ha'
    have hk' : k < frames := List.mem_range.mp hk
    simp only []
    rw [addAt_append_left _ _ _ _ (by omega)]

theorem fill_n_append (a b : List ℚ) (x : ℚ) :
    fill_n (a ++ b) a.length x = fill_n a a.length x ++ b := by
  simp [fill_n]

/-- Rendering touches only the samples of the frames it plays: on a span `a ++ b` whose part
`a` consists of exactly the played frames, the part `b` is left alone and `a` is rendered as if
it were the whole span. -/
theorem playVoice_append (v : QSoundEffectVoice) (a b : List ℚ)
    (hsup : channelsSupported v.m_sample.channelCount v.m_engineChannelCount)
    (ha : a.length = framesToPlay v (a ++ b).length * v.m_engineChannelCount) :
    (playVoice v (a ++ b)).2 = (playVoice v a).2 ++ b := by
  obtain ⟨hcs, hce, hconv⟩ := hsup
  have hfr : framesToPlay v a.length = framesToPlay v (a ++ b).length := by
    have h1 : a.length / v.m_engineChannelCount = framesToPlay v (a ++ b).length := by
      rw [ha, Nat.mul_div_cancel _ hce]
    unfold framesToPlay at h1 ⊢
    rw [h1]
    omega
  simp only [playVoice, hfr]
  split
  · rw [← ha]
    exact fill_n_append a b 0
  · rcases hconv with h | ⟨h1, h2⟩ | ⟨h1, h2⟩
    · have : conversionType v.m_sample.channelCount v.m_engineChannelCount
          = ConversionType.SameChannels := by simp [conversionType, h]
      simp only [this]
      rw [h]
      exact mixSameChannels_append _ _ _ _ a b ha
    · have : conversionType v.m_sample.channelCount v.m_engineChannelCount
          = ConversionType.MonoToStereo := by simp [conversionType, h1, h2]
      simp only [this]
      rw [h1, h2]
      rw [h2] at ha
      exact mixMonoToStereo_append _ _ _ a b ha
    · have : conversionType v.m_sample.channelCount v.m_engineChannelCount
          = ConversionType.StereoToMono := by simp [conversionType, h1, h2]
      simp only [this]
      rw [h1, h2]
      rw [h2] at ha
      exact mixStereoToMono_append _ _ _ a b ha

theorem play_playing (fuel : Nat) (v : QSoundEffectVoice) (buf : List ℚ)
    (h : v.m_currentFrame + framesToPlay v buf.length ≠ v.m_totalFrames) :
    play (fuel + 1) v buf
      = some (VoicePlayResult.Playing,
          { v with m_currentFrame := v.m_currentFrame + framesToPlay v buf.length },
          (playVoice v buf).2) := by
  simp only [play, playVoice_fst, h, if_false]

theorem play_finished (fuel : Nat) (v : QSoundEffectVoice) (buf : List ℚ)
    (h : v.m_currentFrame + framesToPlay v buf.length = v.m_totalFrames)
    (hi : v.m_loopsRemaining ≠ Infinite) (hl : v.m_loopsRemaining ≤ 1) :
    play (fuel + 1) v buf
      = some (VoicePlayResult.Finished,
          { v with m_currentFrame := v.m_totalFrames,
                   m_loopsRemaining := v.m_loopsRemaining - 1 },
          (playVoice v buf).2) := by
  have hl' : ¬ v.m_loopsRemaining > 1 := by omega
  simp [play, playVoice_fst, h, hi, hl']

theorem play_wrap (fuel : Nat) (v : QSoundEffectVoice) (buf : List ℚ)
    (h : v.m_currentFrame + framesToPlay v buf.length = v.m_totalFrames)
    (hi : v.m_loopsRemaining ≠ Infinite) (hl : 1 < v.m_loopsRemaining) :
    play (fuel + 1) v buf
      = (play fuel
          { v with m_loopsRemaining := v.m_loopsRemaining - 1,
                   m_currentLoopChanged := true,
                   m_currentFrame := 0 }
          (drop (playVoice v buf).2 (framesToPlay v buf.length * v.m_engineChannelCount))).map
        (fun r => (r.1, r.2.1,
          List.take (framesToPlay v buf.length * v.m_engineChannelCount) (playVoice v buf).2
            ++ r.2.2)) := by
  simp only [play, playVoice_fst, h, hi, hl, if_true, decide_False, decide_True, if_false,
    Bool.false_eq_true, gt_iff_lt]
  cases play fuel _ _ <;> rfl

theorem play_wrap_infinite (fuel : Nat) (v : QSoundEffectVoice) (buf : List ℚ)
    (h : v.m_currentFrame + framesToPlay v buf.length = v.m_totalFrames)
    (hi : v.m_loopsRemaining = Infinite) :
    play (fuel + 1) v buf
      = (play fuel { v with m_currentFrame := 0 }
          (drop (playVoice v buf).2 (framesToPlay v buf.length * v.m_engineChannelCount))).map
        (fun r => (r.1, r.2.1,
          List.take (framesToPlay v buf.length * v.m_engineChannelCount) (playVoice v buf).2
            ++ r.2.2)) := by
  simp only [play, playVoice_fst, h, hi, if_true, decide_True]
  cases play fuel _ _ <;> rfl

theorem playVoice_update (v : QSoundEffectVoice) (l : Int) (f : Bool) (buf : List ℚ) :
    playVoice { v with m_loopsRemaining := l, m_currentLoopChanged := f } buf
      = playVoice v buf := rfl

theorem renderTimes_update (v : QSoundEffectVoice) (l : Int) (f : Bool) (c k : Nat)
    (buf : List ℚ) :
    renderTimes { v with m_loopsRemaining := l, m_currentLoopChanged := f, m_currentFrame := c }
        k buf
      = renderTimes v k buf := by
  induction k generalizing buf with
  | zero => rfl
  | succ k ih =>
    simp only [renderTimes]
    rw [ih]
    rfl

/-- First pass of a voice whose cursor is at frame 0 into a span that holds at least one whole
run of the sample. -/
theorem playVoice_first_pass (v : QSoundEffectVoice) (buf : List ℚ)
    (hc : v.m_currentFrame = 0)
    (hdata : v.m_sample.data.length = v.m_totalFrames * v.m_sample.channelCount)
    (hsup : channelsSupported v.m_sample.channelCount v.m_engineChannelCount)
    (hB : v.m_totalFrames ≤ buf.length / v.m_engineChannelCount) :
    framesToPlay v buf.length = v.m_totalFrames ∧
    (playVoice v buf).2
      = (playVoice { v with m_currentFrame := 0 }
            (buf.take (v.m_totalFrames * v.m_engineChannelCount))).2
          ++ buf.drop (v.m_totalFrames * v.m_engineChannelCount) := by
  have hF : framesToPlay v buf.length = v.m_totalFrames := by
    rw [framesToPlay_eq v _ hdata hsup.1, hc]
    simp only [Nat.sub_zero]
    omega
  refine ⟨hF, ?_⟩
  have hv : ({ v with m_currentFrame := 0 } : QSoundEffectVoice) = v := by
    cases v
    simp only at hc
    subst hc
    rfl
  rw [hv]
  have hle : v.m_totalFrames * v.m_engineChannelCount ≤ buf.length := by
    calc v.m_totalFrames * v.m_engineChannelCount
        ≤ (buf.length / v.m_engineChannelCount) * v.m_engineChannelCount :=
          Nat.mul_le_mul_right _ hB
      _ ≤ buf.length := Nat.div_mul_le_self _ _
  have hsplit : buf = buf.take (v.m_totalFrames * v.m_engineChannelCount)
      ++ buf.drop (v.m_totalFrames * v.m_engineChannelCount) := (List.take_append_drop _ _).symm
  have key := playVoice_append v (buf.take (v.m_totalFrames * v.m_engineChannelCount))
    (buf.drop (v.m_totalFrames * v.m_engineChannelCount)) hsup
    (by rw [List.take_append_drop, hF, List.length_take]; omega)
  rw [List.take_append_drop] at key
  exact key

theorem play_loops_aux : ∀ (n fuel : Nat) (v : QSoundEffectVoice) (buf : List ℚ),
    0 < v.m_totalFrames → v.m_currentFrame = 0 → 1 ≤ n → v.m_loopsRemaining = (n : Int) →
    v.m_sample.data.length = v.m_totalFrames * v.m_sample.channelCount →
    channelsSupported v.m_sample.channelCount v.m_engineChannelCount →
    n ≤ fuel →
    ∃ v', play fuel v buf
        = some (if buf.length / v.m_engineChannelCount < n * v.m_totalFrames
                  then VoicePlayResult.Playing else VoicePlayResult.Finished,
                v',
                renderTimes v (min n (buf.length / v.m_engineChannelCount / v.m_totalFrames + 1))
                  buf) ∧
      v'.m_currentFrame
        = (if buf.length / v.m_engineChannelCount < n * v.m_totalFrames
            then buf.length / v.m_engineChannelCount % v.m_totalFrames else v.m_totalFrames) ∧
      v'.m_loopsRemaining
        = (if buf.length / v.m_engineChannelCount < n * v.m_totalFrames
            then (n : Int) - ((buf.length / v.m_engineChannelCount / v.m_totalFrames : Nat) : Int)
            else 0) := by
  intro n
  induction n with
  | zero => intro fuel v buf _ _ hn; omega
  | succ m ih =>
    intro fuel v buf hT hc _ hloops hdata hsup hfuel
    obtain ⟨f, rfl⟩ : ∃ f, fuel = f + 1 := ⟨fuel - 1, by omega⟩
    have hcs := hsup.1
    have hce := hsup.2.1
    have hF := framesToPlay_eq v buf.length hdata hcs
    rw [hc, Nat.sub_zero] at hF
    have hv0 : ({ v with m_currentFrame := 0 } : QSoundEffectVoice) = v := by
      cases v
      simp only at hc
      subst hc
      rfl
    by_cases hB : buf.length / v.m_engineChannelCount < v.m_totalFrames
    · -- the span ends before the sample does
      have hFB : framesToPlay v buf.length = buf.length / v.m_engineChannelCount := by
        rw [hF]; omega
      have hne : v.m_currentFrame + framesToPlay v buf.length ≠ v.m_totalFrames := by
        rw [hc, hFB]; omega
      have hlt : buf.length / v.m_engineChannelCount < (m + 1) * v.m_totalFrames := by
        calc buf.length / v.m_engineChannelCount < v.m_totalFrames := hB
          _ = 1 * v.m_totalFrames := (Nat.one_mul _).symm
          _ ≤ (m + 1) * v.m_totalFrames := Nat.mul_le_mul_right _ (by omega)
      have hdiv : buf.length / v.m_engineChannelCount / v.m_totalFrames = 0 :=
        Nat.div_eq_of_lt hB
      have hlen : buf.length ≤ v.m_totalFrames * v.m_engineChannelCount :=
        Nat.le_of_lt ((Nat.div_lt_iff_lt_mul hce).mp hB)
      rw [play_playing f v buf hne]
      refine ⟨{ v with m_currentFrame := v.m_currentFrame + framesToPlay v buf.length },
        ?_, ?_, ?_⟩
      · rw [if_pos hlt, hdiv]
        have hmin : min (m + 1) (0 + 1) = 1 := by omega
        rw [hmin]
        simp only [renderTimes, hv0, List.take_of_length_le hlen, List.drop_of_length_le hlen,
          List.append_nil]
      · rw [if_pos hlt]
        simp only [hc, hFB, Nat.zero_add]
        exact (Nat.mod_eq_of_lt hB).symm
      · rw [if_pos hlt, hdiv]
        simp [hloops]
    · -- the span holds the rest of the sample
      have hB' : v.m_totalFrames ≤ buf.length / v.m_engineChannelCount := Nat.le_of_not_lt hB
      obtain ⟨hFT, hout⟩ := playVoice_first_pass v buf hc hdata hsup hB'
      have hend : v.m_currentFrame + framesToPlay v buf.length = v.m_totalFrames := by
        rw [hc, hFT]; omega
      have hinf : v.m_loopsRemaining ≠ Infinite := by
        rw [hloops]; unfold Infinite; omega
      have hle : v.m_totalFrames * v.m_engineChannelCount ≤ buf.length := by
        calc v.m_totalFrames * v.m_engineChannelCount
            ≤ (buf.length / v.m_engineChannelCount) * v.m_engineChannelCount :=
              Nat.mul_le_mul_right _ hB'
          _ ≤ buf.length := Nat.div_mul_le_self _ _
      have hdivpos : 1 ≤ buf.length / v.m_engineChannelCount / v.m_totalFrames :=
        (Nat.le_div_iff_mul_le hT).mpr (by omega)
      by_cases hm : m = 0
      · subst hm
        have hnlt : ¬ buf.length / v.m_engineChannelCount < (0 + 1) * v.m_totalFrames := by
          rw [Nat.zero_add, Nat.one_mul]; omega
        rw [play_finished f v buf hend hinf (by rw [hloops]; simp)]
        refine ⟨{ v with m_currentFrame := v.m_totalFrames,
                         m_loopsRemaining := v.m_loopsRemaining - 1 }, ?_, ?_, ?_⟩
        · rw [if_neg hnlt]
          have hmin : min (0 + 1) (buf.length / v.m_engineChannelCount / v.m_totalFrames + 1)
              = 1 := by omega
          rw [hmin]
          simp only [renderTimes]
          rw [hout]
        · rw [if_neg hnlt]
        · rw [if_neg hnlt]
          simp [hloops]
      · have hl : 1 < v.m_loopsRemaining := by rw [hloops]; omega
        rw [play_wrap f v buf hend hinf hl]
        have hlenA : ((playVoice { v with m_currentFrame := 0 }
            (buf.take (v.m_totalFrames * v.m_engineChannelCount))).2).length
              = v.m_totalFrames * v.m_engineChannelCount := by
          rw [playVoice_length, List.length_take]; omega
        have hdrop : drop (playVoice v buf).2
            (framesToPlay v buf.length * v.m_engineChannelCount)
              = buf.drop (v.m_totalFrames * v.m_engineChannelCount) := by
          rw [hFT, hout]
          unfold drop
          exact List.drop_left' hlenA
        have htake : List.take (framesToPlay v buf.length * v.m_engineChannelCount)
            (playVoice v buf).2
              = (playVoice { v with m_currentFrame := 0 }
                  (buf.take (v.m_totalFrames * v.m_engineChannelCount))).2 := by
          rw [hFT, hout]
          exact List.take_left' hlenA
        rw [hdrop, htake]
        have hlen' : (buf.drop (v.m_totalFrames * v.m_engineChannelCount)).length
            / v.m_engineChannelCount
              = buf.length / v.m_engineChannelCount - v.m_totalFrames := by
          rw [List.length_drop, Nat.mul_comm]
          exact Nat.sub_mul_div _ _ _ (by rw [Nat.mul_comm]; exact hle)
        obtain ⟨v', hplay, hcur, hloop⟩ := ih f
          { v with m_loopsRemaining := v.m_loopsRemaining - 1, m_currentLoopChanged := true,
                   m_currentFrame := 0 }
          (buf.drop (v.m_totalFrames * v.m_engineChannelCount)) hT rfl (by omega)
          (by simp only [hloops]; push_cast; omega) hdata hsup (by omega)
        simp only [hlen', renderTimes_update] at hplay hcur hloop
        have hiff : (buf.length / v.m_engineChannelCount - v.m_totalFrames < m * v.m_totalFrames)
            ↔ (buf.length / v.m_engineChannelCount < (m + 1) * v.m_totalFrames) := by
          rw [Nat.succ_mul]; omega
        have hdiv : buf.length / v.m_engineChannelCount / v.m_totalFrames
            = (buf.length / v.m_engineChannelCount - v.m_totalFrames) / v.m_totalFrames + 1 :=
          Nat.div_eq_sub_div hT hB'
        have hmod : (buf.length / v.m_engineChannelCount - v.m_totalFrames) % v.m_totalFrames
            = buf.length / v.m_engineChannelCount % v.m_totalFrames :=
          (Nat.mod_eq_sub_mod hB').symm
        rw [hplay]
        refine ⟨v', ?_, ?_, ?_⟩
        · simp only [Option.map_some', hiff]
          have hmin : min (m + 1) (buf.length / v.m_engineChannelCount / v.m_totalFrames + 1)
              = min m ((buf.length / v.m_engineChannelCount - v.m_totalFrames)
                  / v.m_totalFrames + 1) + 1 := by
            rw [hdiv]; omega
          rw [hmin]
          simp only [renderTimes]
        · rw [hcur, hmod]
          simp only [hiff]
        · rw [hloop]
          simp only [hiff, hdiv]
          push_cast
          split <;> omega

theorem play_length : ∀ (fuel : Nat) (v : QSoundEffectVoice) (buf : List ℚ)
    (r : VoicePlayResult × QSoundEffectVoice × List ℚ),
    play fuel v buf = some r → r.2.2.length = buf.length := by
  intro fuel
  induction fuel with
  | zero => intro v buf r h; simp [play] at h
  | succ f ih =>
    intro v buf r h
    by_cases hend : v.m_currentFrame + framesToPlay v buf.length = v.m_totalFrames
    · have hwrap : ∀ v1 : QSoundEffectVoice,
          (play f v1 (drop (playVoice v buf).2
              (framesToPlay v buf.length * v.m_engineChannelCount))).map
            (fun r => (r.1, r.2.1,
              List.take (framesToPlay v buf.length * v.m_engineChannelCount) (playVoice v buf).2
                ++ r.2.2)) = some r → r.2.2.length = buf.length := by
        intro v1 h1
        cases hp : play f v1 (drop (playVoice v buf).2
            (framesToPlay v buf.length * v.m_engineChannelCount)) with
        | none => rw [hp] at h1; simp at h1
        | some r1 =>
          rw [hp] at h1
          simp only [Option.map_some', Option.some.injEq] at h1
          have hl := ih _ _ _ hp
          rw [← h1]
          simp only [List.length_append, List.length_take, hl, drop, List.length_drop,
            playVoice_length]
          have := framesToPlay_mul_le v buf.length
          omega
      by_cases hi : v.m_loopsRemaining = Infinite
      · rw [play_wrap_infinite f v buf hend hi] at h
        exact hwrap _ h
      · by_cases hl : 1 < v.m_loopsRemaining
        · rw [play_wrap f v buf hend hi hl] at h
          exact hwrap _ h
        · rw [play_finished f v buf hend hi (by omega)] at h
          simp only [Option.some.injEq] at h
          rw [← h]
          exact playVoice_length v buf
    · rw [play_playing f v buf hend] at h
      simp only [Option.some.injEq] at h
      rw [← h]
      exact playVoice_length v buf

/-- The function `play` returns for every voice over a non-empty sample: a fuel of two more than the number
of samples in the span is enough. -/
theorem play_isSome : ∀ (fuel : Nat) (v : QSoundEffectVoice) (buf : List ℚ),
    0 < v.m_totalFrames → 1 ≤ v.m_engineChannelCount →
    (buf.length + 2 ≤ fuel ∨ (v.m_currentFrame < v.m_totalFrames ∧ buf.length + 1 ≤ fuel)) →
    ∃ r, play fuel v buf = some r := by
  intro fuel
  induction fuel with
  | zero => intro v buf _ _ h; omega
  | succ f ih =>
    intro v buf hT hce hfuel
    by_cases hend : v.m_currentFrame + framesToPlay v buf.length = v.m_totalFrames
    · have hle := framesToPlay_mul_le v buf.length
      have hrec : ∀ v1 : QSoundEffectVoice, v1.m_totalFrames = v.m_totalFrames →
          v1.m_engineChannelCount = v.m_engineChannelCount → v1.m_currentFrame = 0 →
          ∃ r, (play f v1 (drop (playVoice v buf).2
              (framesToPlay v buf.length * v.m_engineChannelCount))).map
            (fun r => (r.1, r.2.1,
              List.take (framesToPlay v buf.length * v.m_engineChannelCount) (playVoice v buf).2
                ++ r.2.2)) = some r := by
        intro v1 h1 h2 h3
        have hlen : (drop (playVoice v buf).2
            (framesToPlay v buf.length * v.m_engineChannelCount)).length
              = buf.length - framesToPlay v buf.length * v.m_engineChannelCount := by
          simp [drop, playVoice_length]
        obtain ⟨r1, hr1⟩ := ih v1 (drop (playVoice v buf).2
            (framesToPlay v buf.length * v.m_engineChannelCount)) (by omega) (by omega)
          (by
            right
            refine ⟨by omega, ?_⟩
            rw [hlen]
            rcases hfuel with h | ⟨hc, h⟩
            · omega
            · have hpos : 1 ≤ framesToPlay v buf.length := by omega
              have : 1 * 1 ≤ framesToPlay v buf.length * v.m_engineChannelCount :=
                Nat.mul_le_mul hpos hce
              omega)
        exact ⟨_, by rw [hr1]; rfl⟩
      by_cases hi : v.m_loopsRemaining = Infinite
      · rw [play_wrap_infinite f v buf hend hi]
        exact hrec _ rfl rfl rfl
      · by_cases hl : 1 < v.m_loopsRemaining
        · rw [play_wrap f v buf hend hi hl]
          exact hrec _ rfl rfl rfl
        · rw [play_finished f v buf hend hi (by omega)]
          exact ⟨_, rfl⟩
    · rw [play_playing f v buf hend]
      exact ⟨_, rfl⟩

theorem ladd_take_append (x rest b : List ℚ) (n : Nat) (hx : x.length = (b.take n).length) :
    ladd x (b.take n) ++ ladd rest (b.drop n) = ladd (x ++ rest) b := by
  unfold ladd
  rw [← List.zipWith_append _ _ _ _ _ hx, List.take_append_drop]

/-- An audible voice only adds to the span, whatever the number of loops it runs through:
`play` on the pointwise sum `a + b` gives the result of `play` on `a`, with `b` added to the
span. -/
theorem play_ladd : ∀ (fuel : Nat) (v : QSoundEffectVoice) (a b : List ℚ),
    v.m_muted = false → v.m_volume ≠ 0 → a.length = b.length →
    play fuel v (ladd a b)
      = (play fuel v a).map (fun r => (r.1, r.2.1, ladd r.2.2 b)) := by
  intro fuel
  induction fuel with
  | zero => intro v a b _ _ _; rfl
  | succ f ih =>
    intro v a b hm hv hlen
    have hl : (ladd a b).length = a.length := ladd_length a b hlen
    have hpv := playVoice_ladd v a b hm hv hlen
    have hrec : ∀ v1 : QSoundEffectVoice, v1.m_muted = false → v1.m_volume ≠ 0 →
        (play f v1 (drop (playVoice v (ladd a b)).2
            (framesToPlay v a.length * v.m_engineChannelCount))).map
          (fun r => (r.1, r.2.1,
            List.take (framesToPlay v a.length * v.m_engineChannelCount)
              (playVoice v (ladd a b)).2 ++ r.2.2))
        = ((play f v1 (drop (playVoice v a).2
            (framesToPlay v a.length * v.m_engineChannelCount))).map
          (fun r => (r.1, r.2.1,
            List.take (framesToPlay v a.length * v.m_engineChannelCount)
              (playVoice v a).2 ++ r.2.2))).map (fun r => (r.1, r.2.1, ladd r.2.2 b)) := by
      intro v1 hm1 hv1
      have hd : drop (playVoice v (ladd a b)).2
          (framesToPlay v a.length * v.m_engineChannelCount)
            = ladd (drop (playVoice v a).2 (framesToPlay v a.length * v.m_engineChannelCount))
                (b.drop (framesToPlay v a.length * v.m_engineChannelCount)) := by
        rw [hpv]
        simp only [drop, ladd, List.drop_zipWith]
      rw [hd, ih v1 _ _ hm1 hv1 (by simp [drop, playVoice_length, hlen])]
      rw [hpv]
      cases play f v1 (drop (playVoice v a).2
          (framesToPlay v a.length * v.m_engineChannelCount)) with
      | none => rfl
      | some r =>
        simp only [Option.map_some', Option.some.injEq, Prod.mk.injEq, true_and]
        have ht : List.take (framesToPlay v a.length * v.m_engineChannelCount)
            (ladd (playVoice v a).2 b)
              = ladd (List.take (framesToPlay v a.length * v.m_engineChannelCount)
                  (playVoice v a).2)
                (b.take (framesToPlay v a.length * v.m_engineChannelCount)) := by
          simp only [ladd, List.take_zipWith]
        rw [ht]
        exact ladd_take_append _ _ _ _ (by simp [playVoice_length, hlen])
    by_cases hend : v.m_currentFrame + framesToPlay v a.length = v.m_totalFrames
    · have hend' : v.m_currentFrame + framesToPlay v (ladd a b).length = v.m_totalFrames := by
        rw [hl]; exact hend
      by_cases hi : v.m_loopsRemaining = Infinite
      · rw [play_wrap_infinite f v _ hend' hi, play_wrap_infinite f v _ hend hi, hl]
        exact hrec _ hm hv
      · by_cases hlp : 1 < v.m_loopsRemaining
        · rw [play_wrap f v _ hend' hi hlp, play_wrap f v _ hend hi hlp, hl]
          exact hrec _ hm hv
        · rw [play_finished f v _ hend' hi (by omega), play_finished f v _ hend hi (by omega)]
          simp only [Option.map_some', hpv]
    · have hend' : v.m_currentFrame + framesToPlay v (ladd a b).length ≠ v.m_totalFrames := by
        rw [hl]; exact hend
      rw [play_playing f v _ hend', play_playing f v _ hend]
      simp only [Option.map_some', hpv, hl]

theorem ladd_zeros (b : List ℚ) : ladd (List.replicate b.length 0) b = b := by
  induction b with
  | nil => rfl
  | cons h t ih =>
    simp only [ladd] at ih
    simp [ladd, List.replicate_succ, ih]

theorem getD_ladd (a b : List ℚ) (j : Nat) (h : a.length = b.length) :
    (ladd a b).getD j 0 = a.getD j 0 + b.getD j 0 := by
  induction a generalizing b j with
  | nil =>
    have : b = [] := List.eq_nil_of_length_eq_zero (by simpa using h.symm)
    simp [ladd, this]
  | cons x t ih =>
    cases b with
    | nil => simp at h
    | cons y t' =>
      cases j with
      | zero => simp [ladd]
      | succ j =>
        have := ih t' j (by simpa using h)
        simp only [ladd, List.getD_eq_getElem?_getD] at this
        simp [ladd, this]

theorem eq_of_getD_eq : ∀ (a b : List ℚ), a.length = b.length →
    (∀ j, a.getD j 0 = b.getD j 0) → a = b := by
  intro a
  induction a with
  | nil =>
    intro b h _
    exact (List.eq_nil_of_length_eq_zero (by simpa using h.symm)).symm
  | cons x t ih =>
    intro b h hj
    cases b with
    | nil => simp at h
    | cons y t' =>
      have h0 := hj 0
      simp only [List.getD_cons_zero] at h0
      have ht := ih t' (by simpa using h) (fun j => by simpa using hj (j + 1))
      rw [h0, ht]

/-- Playing audible voices one after the other into a span adds, at every sample, what each
voice writes when it renders alone into a zero-initialised span of the same size. -/
theorem mixVoices_getD : ∀ (vs : List QSoundEffectVoice) (fuel : Nat) (buf : List ℚ),
    (∀ v ∈ vs, v.m_muted = false ∧ v.m_volume ≠ 0) →
    (∀ v ∈ vs, 0 < v.m_totalFrames ∧ 1 ≤ v.m_engineChannelCount) →
    buf.length + 2 ≤ fuel →
    ∃ out, mixVoices fuel vs buf = some out ∧ out.length = buf.length ∧
      ∀ j, out.getD j 0
        = buf.getD j 0 + (vs.map (fun v => (soloOutput fuel v buf.length).getD j 0)).sum := by
  intro vs
  induction vs with
  | nil => intro fuel buf _ _ _; exact ⟨buf, rfl, rfl, by simp⟩
  | cons v vs ih =>
    intro fuel buf haud hwf hfuel
    have hv := haud v (List.mem_cons_self _ _)
    have hw := hwf v (List.mem_cons_self _ _)
    obtain ⟨r, hr⟩ := play_isSome fuel v (List.replicate buf.length 0) hw.1 hw.2
      (Or.inl (by simpa using hfuel))
    have hrl : r.2.2.length = buf.length := by
      have := play_length fuel v _ r hr
      simpa using this
    have hplay : play fuel v buf = some (r.1, r.2.1, ladd r.2.2 buf) := by
      have h := play_ladd fuel v (List.replicate buf.length 0) buf hv.1 hv.2 (by simp)
      rw [ladd_zeros, hr] at h
      exact h
    have hsolo : soloOutput fuel v buf.length = r.2.2 := by
      simp only [soloOutput, hr]
    have hll : (ladd r.2.2 buf).length = buf.length := by
      rw [ladd_length _ _ hrl, hrl]
    obtain ⟨out, hout, hlen, hget⟩ := ih fuel (ladd r.2.2 buf)
      (fun w hw' => haud w (List.mem_cons_of_mem _ hw'))
      (fun w hw' => hwf w (List.mem_cons_of_mem _ hw'))
      (by rw [hll]; exact hfuel)
    refine ⟨out, ?_, by rw [hlen, hll], ?_⟩
    · simp only [mixVoices, hplay]
      exact hout
    · intro j
      rw [hget j, getD_ladd _ _ j hrl, hll, List.map_cons, List.sum_cons, hsolo]
      ring

/-- Loop of the `MonoToStereo` case, sample by sample: output samples `2k` and `2k+1` of every
played frame `k` receive the value of source frame `k` times the volume, nothing else
changes. -/
theorem mixMonoToStereo_getD (range : List ℚ) (vol : ℚ) (frames : Nat) (buf : List ℚ) (j : Nat)
    (h : frames * 2 ≤ buf.length) :
    (mixMonoToStereo range vol 1 2 frames buf).getD j 0
      = buf.getD j 0 + (if j < frames * 2 then range.getD (j / 2) 0 * vol else 0) := by
  unfold mixMonoToStereo
  induction frames with
  | zero => simp
  | succ k ih =>
    have ih' := ih (by omega)
    rw [List.range_succ, List.foldl_append]
    simp only [List.foldl_cons, List.foldl_nil]
    rw [getD_addAt, getD_addAt, ih']
    have hlen : ((List.range k).foldl
        (fun out frame =>
          let val := range.getD (frame * 1) 0 * vol
          addAt (addAt out (frame * 2) val) (frame * 2 + 1) val) buf).length = buf.length := by
      apply foldl_length
      intro a k
      simp [length_addAt]
    rw [length_addAt, hlen]
    by_cases h1 : j = k * 2 + 1
    · subst h1
      have hd' : (k * 2 + 1) / 2 = k := by omega
      simp only [hd', Nat.mul_one]
      split_ifs <;> (try simp only [true_and] at *) <;> first | omega | ring1
    · by_cases h2 : j = k * 2
      · subst h2
        have hd : k * 2 / 2 = k := by omega
        simp only [hd, Nat.mul_one]
        split_ifs <;> (try simp only [true_and] at *) <;> first | omega | ring1
      · split_ifs <;> (try simp only [true_and] at *) <;> omega

/-- Loop of the `StereoToMono` case, sample by sample: output sample `k` of every played frame
`k` receives the sum of the two channel values of source frame `k` times `0.5 * volume`,
nothing else changes. -/
theorem mixStereoToMono_getD (range : List ℚ) (vol : ℚ) (frames : Nat) (buf : List ℚ) (j : Nat)
    (h : frames * 1 ≤ buf.length) :
    (mixStereoToMono range vol 2 1 frames buf).getD j 0
      = buf.getD j 0
        + (if j < frames
            then (range.getD (j * 2) 0 + range.getD (j * 2 + 1) 0) * ((1 / 2 : ℚ) * vol)
            else 0) := by
  unfold mixStereoToMono
  induction frames with
  | zero => simp
  | succ k ih =>
    have ih' := ih (by omega)
    simp only [] at ih' ⊢
    rw [List.range_succ, List.foldl_append]
    simp only [List.foldl_cons, List.foldl_nil]
    rw [getD_addAt, ih']
    have hlen : ((List.range k).foldl
        (fun out frame =>
          addAt out (frame * 1)
            ((range.getD (frame * 2) 0 + range.getD (frame * 2 + 1) 0) * ((1 / 2 : ℚ) * vol)))
        buf).length = buf.length := by
      apply foldl_length
      intro a k
      simp [length_addAt]
    rw [hlen]
    by_cases h1 : j = k
    · subst h1
      simp only [Nat.mul_one]
      split_ifs <;> (try simp only [true_and] at *) <;> first | omega | ring1
    · split_ifs <;> (try simp only [true_and] at *) <;> omega

/-- C1 (code defect).  A muted voice does not add zero to the span, it overwrites it: played
into the span `[3, 4, 5]` that already holds the output of other voices, the muted two-frame
voice leaves `[0, 0, 5]`, where only adding would leave `[3, 4, 5]`. -/
theorem play_muted_voice_overwrites_span :
    play 1 mutedVoice [3, 4, 5]
      = some (VoicePlayResult.Finished,
          { mutedVoice with m_currentFrame := 2, m_loopsRemaining := 0 }, [0, 0, 5]) := by
  simp [play, playVoice, mutedVoice, framesToPlay, playbackRange, take, drop, fill_n, Infinite]

/-- C5 (code defect).  An unmuted mono voice with volume `0` on a stereo engine does not add
`0 * x` to the two output samples of the played frame, it overwrites them: played into the
span `[3, 4]` it leaves `[0, 0]`, where adding `0 * x` would leave `[3, 4]`. -/
theorem play_zero_volume_mono_overwrites_stereo_span :
    play 1 zeroVolumeMonoVoice [3, 4]
      = some (VoicePlayResult.Finished,
          { zeroVolumeMonoVoice with m_currentFrame := 1, m_loopsRemaining := 0 }, [0, 0]) := by
  simp [play, playVoice, zeroVolumeMonoVoice, framesToPlay, playbackRange, take, drop, fill_n,
    Infinite]

/-- C6 (code defect).  An unmuted stereo voice with volume `0` on a mono engine does not add
`(l + r) * 0.5 * 0` to the output sample of the played frame, it overwrites it: played into
the span `[5]` it leaves `[0]`, where adding the scaled average would leave `[5]`. -/
theorem play_zero_volume_stereo_overwrites_mono_span :
    play 1 zeroVolumeStereoVoice [5]
      = some (VoicePlayResult.Finished,
          { zeroVolumeStereoVoice with m_currentFrame := 1, m_loopsRemaining := 0 }, [0]) := by
  simp [play, playVoice, zeroVolumeStereoVoice, framesToPlay, playbackRange, take, drop, fill_n,
    Infinite]

/-- C2.  A voice over `T > 0` frames with its cursor at frame 0 and a finite loop count
`n ≥ 1`, played by one call into a span of `B` frames: for `B < n * T` the result is `Playing`
with the cursor at `B mod T` and `n - B / T` loops remaining; for `B ≥ n * T` the result is
`Finished` with the cursor at `T` and no loop remaining, and the span holds the sample rendered
exactly `n` times, the samples after these `n * T` frames being untouched. -/
theorem play_finite_loops (v : QSoundEffectVoice) (buf : List ℚ) (n fuel : Nat)
    (hT : 0 < v.m_totalFrames) (hc : v.m_currentFrame = 0) (hn : 1 ≤ n)
    (hloops : v.m_loopsRemaining = (n : Int))
    (hdata : v.m_sample.data.length = v.m_totalFrames * v.m_sample.channelCount)
    (hsup : channelsSupported v.m_sample.channelCount v.m_engineChannelCount)
    (hfuel : n ≤ fuel) :
    (buf.length / v.m_engineChannelCount < n * v.m_totalFrames →
      ∃ v', play fuel v buf
          = some (VoicePlayResult.Playing, v',
              renderTimes v (buf.length / v.m_engineChannelCount / v.m_totalFrames + 1) buf) ∧
        v'.m_currentFrame = buf.length / v.m_engineChannelCount % v.m_totalFrames ∧
        v'.m_loopsRemaining
          = (n : Int) - ((buf.length / v.m_engineChannelCount / v.m_totalFrames : Nat) : Int)) ∧
    (n * v.m_totalFrames ≤ buf.length / v.m_engineChannelCount →
      ∃ v', play fuel v buf = some (VoicePlayResult.Finished, v', renderTimes v n buf) ∧
        v'.m_currentFrame = v.m_totalFrames ∧ v'.m_loopsRemaining = 0) := by
  obtain ⟨v', hplay, hcur, hloop⟩ := play_loops_aux n fuel v buf hT hc hn hloops hdata hsup hfuel
  constructor
  · intro hB
    have hdiv : buf.length / v.m_engineChannelCount / v.m_totalFrames < n :=
      (Nat.div_lt_iff_lt_mul hT).mpr hB
    have hmin : min n (buf.length / v.m_engineChannelCount / v.m_totalFrames + 1)
        = buf.length / v.m_engineChannelCount / v.m_totalFrames + 1 := by omega
    rw [if_pos hB] at hplay hcur hloop
    rw [hmin] at hplay
    exact ⟨v', hplay, hcur, hloop⟩
  · intro hB
    have hdiv : n ≤ buf.length / v.m_engineChannelCount / v.m_totalFrames :=
      (Nat.le_div_iff_mul_le hT).mpr hB
    have hmin : min n (buf.length / v.m_engineChannelCount / v.m_totalFrames + 1) = n := by
      omega
    rw [if_neg (by omega)] at hplay hcur hloop
    rw [hmin] at hplay
    exact ⟨v', hplay, hcur, hloop⟩

/-- Witness of `play_finite_loops`: two loops over a two-frame sample into a span of three
frames. -/
theorem play_finite_loops_witness :
    (0 < twoLoopVoice.m_totalFrames ∧ twoLoopVoice.m_currentFrame = 0 ∧ 1 ≤ 2 ∧
      twoLoopVoice.m_loopsRemaining = ((2 : Nat) : Int) ∧
      twoLoopVoice.m_sample.data.length
        = twoLoopVoice.m_totalFrames * twoLoopVoice.m_sample.channelCount ∧
      channelsSupported twoLoopVoice.m_sample.channelCount twoLoopVoice.m_engineChannelCount ∧
      2 ≤ 2) ∧
    ((([0, 0, 0] : List ℚ).length / twoLoopVoice.m_engineChannelCount
          < 2 * twoLoopVoice.m_totalFrames →
      ∃ v', play 2 twoLoopVoice [0, 0, 0]
          = some (VoicePlayResult.Playing, v',
              renderTimes twoLoopVoice
                (([0, 0, 0] : List ℚ).length / twoLoopVoice.m_engineChannelCount
                  / twoLoopVoice.m_totalFrames + 1) [0, 0, 0]) ∧
        v'.m_currentFrame
          = ([0, 0, 0] : List ℚ).length / twoLoopVoice.m_engineChannelCount
              % twoLoopVoice.m_totalFrames ∧
        v'.m_loopsRemaining
          = ((2 : Nat) : Int)
            - ((([0, 0, 0] : List ℚ).length / twoLoopVoice.m_engineChannelCount
                / twoLoopVoice.m_totalFrames : Nat) : Int)) ∧
    (2 * twoLoopVoice.m_totalFrames
        ≤ ([0, 0, 0] : List ℚ).length / twoLoopVoice.m_engineChannelCount →
      ∃ v', play 2 twoLoopVoice [0, 0, 0]
          = some (VoicePlayResult.Finished, v', renderTimes twoLoopVoice 2 [0, 0, 0]) ∧
        v'.m_currentFrame = twoLoopVoice.m_totalFrames ∧ v'.m_loopsRemaining = 0)) :=
  ⟨⟨by decide, rfl, by decide, rfl, rfl, by decide, by decide⟩,
    play_finite_loops twoLoopVoice [0, 0, 0] 2 2 (by decide) rfl (by decide) rfl rfl
      (by decide) (by decide)⟩

/-- C3 (counterexample).  A fresh voice (cursor at frame 0) over a 1000-frame sample with loop
count 3, played by one call into a span of 600 frames, reports `Playing` with the cursor at
frame 600 and the loop count still 3, not the cursor 400 and the loop count 2. -/
theorem play_three_loops_from_start :
    (play 2 threeLoopVoice (List.replicate 600 0)).map
        (fun r => (r.1, r.2.1.m_currentFrame, r.2.1.m_loopsRemaining))
      = some (VoicePlayResult.Playing, 600, 3) ∧
    (play 2 threeLoopVoice (List.replicate 600 0)).map
        (fun r => (r.1, r.2.1.m_currentFrame, r.2.1.m_loopsRemaining))
      ≠ some (VoicePlayResult.Playing, 400, 2) := by
  have hd : threeLoopVoice.m_sample.data.length
      = threeLoopVoice.m_totalFrames * threeLoopVoice.m_sample.channelCount :=
    List.length_replicate _ _
  have hF : framesToPlay threeLoopVoice (List.replicate 600 (0 : ℚ)).length = 600 := by
    rw [framesToPlay_eq threeLoopVoice _ hd (by decide), List.length_replicate]
    decide
  have h : threeLoopVoice.m_currentFrame
      + framesToPlay threeLoopVoice (List.replicate 600 (0 : ℚ)).length
        ≠ threeLoopVoice.m_totalFrames := by
    rw [hF]
    decide
  rw [play_playing 1 threeLoopVoice _ h, hF]
  constructor
  · rfl
  · simp only [Option.map_some', ne_eq, Option.some.injEq, Prod.mk.injEq, true_and, not_and]
    intro h1
    exact absurd h1 (by decide)

/-- C3 (amended).  A voice over a 1000-frame sample with loop count 3 and its cursor at frame
`c ≤ 1000`, played by one call into a span of 600 frames, reports `Playing` with the cursor at
`(c + 600) mod 1000`; the loop count stays 3 when `c < 400` and is decremented exactly once,
to 2, when `c ≥ 400`.  So a fresh voice ends at frame 600 with loop count 3, and the cursor
400 with loop count 2 is what a voice that started at frame 800 reports. -/
theorem play_1000_frames_into_600 (v : QSoundEffectVoice) (buf : List ℚ) (fuel : Nat)
    (hT : v.m_totalFrames = 1000) (hl : v.m_loopsRemaining = 3)
    (hc : v.m_currentFrame ≤ 1000)
    (hdata : v.m_sample.data.length = 1000 * v.m_sample.channelCount)
    (hsup : channelsSupported v.m_sample.channelCount v.m_engineChannelCount)
    (hbuf : buf.length = 600 * v.m_engineChannelCount) (hfuel : 2 ≤ fuel) :
    ∃ v' out, play fuel v buf = some (VoicePlayResult.Playing, v', out) ∧
      v'.m_currentFrame = (v.m_currentFrame + 600) % 1000 ∧
      v'.m_loopsRemaining = (if v.m_currentFrame < 400 then 3 else 2) := by
  obtain ⟨f, rfl⟩ : ∃ f, fuel = f + 2 := ⟨fuel - 2, by omega⟩
  have hcs := hsup.1
  have hce := hsup.2.1
  have hF : framesToPlay v buf.length = min (1000 - v.m_currentFrame) 600 := by
    rw [framesToPlay_eq v _ (by rw [hT]; exact hdata) hcs, hT, hbuf, Nat.mul_div_cancel _ hce]
  by_cases h400 : v.m_currentFrame < 400
  · have hF' : framesToPlay v buf.length = 600 := by rw [hF]; omega
    have hne : v.m_currentFrame + framesToPlay v buf.length ≠ v.m_totalFrames := by
      rw [hF', hT]; omega
    rw [play_playing (f + 1) v buf hne]
    refine ⟨_, _, rfl, ?_, ?_⟩
    · simp only [hF']
      omega
    · simp only [hl, if_pos h400]
  · have hF' : framesToPlay v buf.length = 1000 - v.m_currentFrame := by rw [hF]; omega
    have hend : v.m_currentFrame + framesToPlay v buf.length = v.m_totalFrames := by
      rw [hF', hT]; omega
    have hinf : v.m_loopsRemaining ≠ Infinite := by rw [hl]; unfold Infinite; omega
    rw [play_wrap (f + 1) v buf hend hinf (by rw [hl]; omega)]
    have hlen : (drop (playVoice v buf).2
        (framesToPlay v buf.length * v.m_engineChannelCount)).length
          = (v.m_currentFrame - 400) * v.m_engineChannelCount := by
      have h600 : 600 - (1000 - v.m_currentFrame) = v.m_currentFrame - 400 := by omega
      simp only [drop, List.length_drop, playVoice_length]
      rw [hF', hbuf, ← Nat.sub_mul, h600]
    have hF2 : ∀ b : List ℚ, b.length = (v.m_currentFrame - 400) * v.m_engineChannelCount →
        framesToPlay
          { v with m_loopsRemaining := v.m_loopsRemaining - 1, m_currentLoopChanged := true,
                   m_currentFrame := 0 } b.length
          = v.m_currentFrame - 400 := by
      intro b hb
      rw [framesToPlay_eq
        { v with m_loopsRemaining := v.m_loopsRemaining - 1, m_currentLoopChanged := true,
                 m_currentFrame := 0 } b.length (by simp only [hT]; exact hdata) hcs, hb]
      simp only [hT, Nat.mul_div_cancel _ hce]
      omega
    have hne2 : (0 : Nat) + (v.m_currentFrame - 400) ≠ v.m_totalFrames := by
      rw [hT]; omega
    rw [play_playing f _ _ (by simp only [hF2 _ hlen]; exact hne2)]
    refine ⟨_, _, rfl, ?_, ?_⟩
    · simp only [hF2 _ hlen]
      omega
    · simp only [hl, if_neg h400]
      norm_num

/-- Witness of `play_1000_frames_into_600`: the fresh voice `threeLoopVoice`. -/
theorem play_1000_frames_into_600_witness :
    (threeLoopVoice.m_totalFrames = 1000 ∧ threeLoopVoice.m_loopsRemaining = 3 ∧
      threeLoopVoice.m_currentFrame ≤ 1000 ∧
      threeLoopVoice.m_sample.data.length = 1000 * threeLoopVoice.m_sample.channelCount ∧
      channelsSupported threeLoopVoice.m_sample.channelCount
        threeLoopVoice.m_engineChannelCount ∧
      (List.replicate 600 (0 : ℚ)).length = 600 * threeLoopVoice.m_engineChannelCount ∧
      2 ≤ 2) ∧
    ∃ v' out, play 2 threeLoopVoice (List.replicate 600 0)
        = some (VoicePlayResult.Playing, v', out) ∧
      v'.m_currentFrame = (threeLoopVoice.m_currentFrame + 600) % 1000 ∧
      v'.m_loopsRemaining = (if threeLoopVoice.m_currentFrame < 400 then 3 else 2) :=
  ⟨⟨rfl, rfl, by decide, List.length_replicate _ _, by decide, List.length_replicate _ _,
      by decide⟩,
    play_1000_frames_into_600 threeLoopVoice (List.replicate 600 0) 2 rfl rfl (by decide)
      (List.length_replicate _ _) (by decide) (List.length_replicate _ _) (by decide)⟩

/-- C4.  For a voice whose sample data holds `T` frames, with cursor `c ≤ T`, source channel
count 1 or 2 and engine channel count 1 or 2, `playVoice` on a span of `N` samples returns
`min (T - c) (N / engineCh)` frames: the minimum is taken over frames, not over samples. -/
theorem playVoice_frames_min (v : QSoundEffectVoice) (buf : List ℚ)
    (hcs : v.m_sample.channelCount = 1 ∨ v.m_sample.channelCount = 2)
    (hce : v.m_engineChannelCount = 1 ∨ v.m_engineChannelCount = 2)
    (_hc : v.m_currentFrame ≤ v.m_totalFrames)
    (hdata : v.m_sample.data.length = v.m_totalFrames * v.m_sample.channelCount) :
    (playVoice v buf).1
      = min (v.m_totalFrames - v.m_currentFrame) (buf.length / v.m_engineChannelCount) := by
  rw [playVoice_fst]
  exact framesToPlay_eq v buf.length hdata (by omega)

/-- Witness of `playVoice_frames_min`: a three-frame stereo sample (six samples) into a mono
span of four samples plays three frames. -/
theorem playVoice_frames_min_witness :
    ((stereoVoice.m_sample.channelCount = 1 ∨ stereoVoice.m_sample.channelCount = 2) ∧
      (stereoVoice.m_engineChannelCount = 1 ∨ stereoVoice.m_engineChannelCount = 2) ∧
      stereoVoice.m_currentFrame ≤ stereoVoice.m_totalFrames ∧
      stereoVoice.m_sample.data.length
        = stereoVoice.m_totalFrames * stereoVoice.m_sample.channelCount) ∧
    (playVoice stereoVoice [0, 0, 0, 0]).1
      = min (stereoVoice.m_totalFrames - stereoVoice.m_currentFrame)
          (([0, 0, 0, 0] : List ℚ).length / stereoVoice.m_engineChannelCount) :=
  ⟨⟨Or.inr rfl, Or.inl rfl, by decide, rfl⟩,
    playVoice_frames_min stereoVoice [0, 0, 0, 0] (Or.inr rfl) (Or.inl rfl) (by decide) rfl⟩

/-- An audible mono voice on a stereo engine: output samples `2k` and `2k+1` of every played
frame `k` receive the value of the `k`-th frame of the playback range times the volume, and no
other sample changes. -/
theorem playVoice_monoToStereo_getD (v : QSoundEffectVoice) (buf : List ℚ) (j : Nat)
    (hm : v.m_muted = false) (hv : v.m_volume ≠ 0)
    (hcs : v.m_sample.channelCount = 1) (hce : v.m_engineChannelCount = 2) :
    (playVoice v buf).2.getD j 0
      = buf.getD j 0
        + (if j < framesToPlay v buf.length * 2
            then (playbackRange v).getD (j / 2) 0 * v.m_volume else 0) := by
  have hle := framesToPlay_mul_le v buf.length
  rw [hce] at hle
  have hconv : conversionType v.m_sample.channelCount v.m_engineChannelCount
      = ConversionType.MonoToStereo := by simp [conversionType, hcs, hce]
  simp only [playVoice, hm, hv, hconv, Bool.false_eq_true, or_self, if_false]
  rw [hcs, hce]
  exact mixMonoToStereo_getD _ _ _ _ _ hle

/-- An audible stereo voice on a mono engine: output sample `k` of every played frame `k`
receives the sum of the two channel values of the `k`-th frame of the playback range times
`0.5 * volume`, and no other sample changes. -/
theorem playVoice_stereoToMono_getD (v : QSoundEffectVoice) (buf : List ℚ) (j : Nat)
    (hm : v.m_muted = false) (hv : v.m_volume ≠ 0)
    (hcs : v.m_sample.channelCount = 2) (hce : v.m_engineChannelCount = 1) :
    (playVoice v buf).2.getD j 0
      = buf.getD j 0
        + (if j < framesToPlay v buf.length
            then ((playbackRange v).getD (j * 2) 0 + (playbackRange v).getD (j * 2 + 1) 0)
              * ((1 / 2 : ℚ) * v.m_volume)
            else 0) := by
  have hle := framesToPlay_mul_le v buf.length
  rw [hce] at hle
  have hconv : conversionType v.m_sample.channelCount v.m_engineChannelCount
      = ConversionType.StereoToMono := by simp [conversionType, hcs, hce]
  simp only [playVoice, hm, hv, hconv, Bool.false_eq_true, or_self, if_false]
  rw [hcs, hce]
  exact mixStereoToMono_getD _ _ _ _ _ hle

/-- C7.  Audible voices (not muted, volume not zero) over non-empty samples, played one after
the other into one zero-initialised span: the span then holds, at every sample, the sum of what
each voice writes when it is played alone into a zero-initialised span of the same size, and
playing the voices in any other order gives the same span. -/
theorem mixVoices_linear (vs : List QSoundEffectVoice) (n fuel : Nat)
    (haud : ∀ v ∈ vs, v.m_muted = false ∧ v.m_volume ≠ 0)
    (hwf : ∀ v ∈ vs, 0 < v.m_totalFrames ∧ 1 ≤ v.m_engineChannelCount)
    (hfuel : n + 2 ≤ fuel) :
    ∃ out, mixVoices fuel vs (List.replicate n 0) = some out ∧
      (∀ j, out.getD j 0 = (vs.map (fun v => (soloOutput fuel v n).getD j 0)).sum) ∧
      (∀ vs', List.Perm vs' vs → mixVoices fuel vs' (List.replicate n 0) = some out) := by
  have hz : ∀ j, (List.replicate n (0 : ℚ)).getD j 0 = 0 := by
    intro j
    simp only [List.getD_eq_getElem?_getD, List.getElem?_replicate]
    split <;> rfl
  obtain ⟨out, hout, hlen, hget⟩ := mixVoices_getD vs fuel (List.replicate n 0) haud hwf
    (by simpa using hfuel)
  simp only [List.length_replicate, hz, zero_add] at hlen hget
  refine ⟨out, hout, hget, ?_⟩
  intro vs' hperm
  obtain ⟨out', hout', hlen', hget'⟩ := mixVoices_getD vs' fuel (List.replicate n 0)
    (fun v hv => haud v (hperm.mem_iff.mp hv)) (fun v hv => hwf v (hperm.mem_iff.mp hv))
    (by simpa using hfuel)
  simp only [List.length_replicate, hz, zero_add] at hlen' hget'
  rw [hout']
  congr 1
  apply eq_of_getD_eq _ _ (by rw [hlen, hlen'])
  intro j
  rw [hget j, hget' j]
  exact List.Perm.sum_eq (List.Perm.map _ hperm)

/-- Witness of `mixVoices_linear`: a full-volume and a half-volume voice into three samples. -/
theorem mixVoices_linear_witness :
    ((∀ v ∈ [twoLoopVoice, halfVolumeVoice], v.m_muted = false ∧ v.m_volume ≠ 0) ∧
      (∀ v ∈ [twoLoopVoice, halfVolumeVoice],
        0 < v.m_totalFrames ∧ 1 ≤ v.m_engineChannelCount) ∧
      3 + 2 ≤ 5) ∧
    ∃ out, mixVoices 5 [twoLoopVoice, halfVolumeVoice] (List.replicate 3 0) = some out ∧
      (∀ j, out.getD j 0
        = ([twoLoopVoice, halfVolumeVoice].map
            (fun v => (soloOutput 5 v 3).getD j 0)).sum) ∧
      (∀ vs', List.Perm vs' [twoLoopVoice, halfVolumeVoice] →
        mixVoices 5 vs' (List.replicate 3 0) = some out) :=
  have haud : ∀ v ∈ [twoLoopVoice, halfVolumeVoice], v.m_muted = false ∧ v.m_volume ≠ 0 := by
    intro v hv
    simp only [List.mem_cons, List.mem_singleton, List.not_mem_nil, or_false] at hv
    rcases hv with rfl | rfl
    · exact ⟨rfl, by simp [twoLoopVoice]⟩
    · exact ⟨rfl, by simp [halfVolumeVoice]⟩
  have hwf : ∀ v ∈ [twoLoopVoice, halfVolumeVoice],
      0 < v.m_totalFrames ∧ 1 ≤ v.m_engineChannelCount := by
    intro v hv
    simp only [List.mem_cons, List.mem_singleton, List.not_mem_nil, or_false] at hv
    rcases hv with rfl | rfl
    · exact ⟨by decide, by decide⟩
    · exact ⟨by decide, by decide⟩
  ⟨⟨haud, hwf, by decide⟩,
    mixVoices_linear [twoLoopVoice, halfVolumeVoice] 3 5 haud hwf (by decide)⟩

theorem framesToPlay_mute (v : QSoundEffectVoice) (mu : Bool) (vol : ℚ) (n : Nat) :
    framesToPlay { v with m_muted := mu, m_volume := vol } n = framesToPlay v n := rfl

/-- The result, the cursor and the loop counter that `play` leaves do not depend on the muted
flag, on the volume or on the contents of the span. -/
theorem play_state_mute : ∀ (fuel : Nat) (v : QSoundEffectVoice) (mu : Bool) (vol : ℚ)
    (b1 b2 : List ℚ), b1.length = b2.length →
    (play fuel { v with m_muted := mu, m_volume := vol } b2).map
        (fun r => (r.1, r.2.1.m_currentFrame, r.2.1.m_loopsRemaining))
      = (play fuel v b1).map (fun r => (r.1, r.2.1.m_currentFrame, r.2.1.m_loopsRemaining)) := by
  intro fuel
  induction fuel with
  | zero => intro v mu vol b1 b2 _; rfl
  | succ f ih =>
    intro v mu vol b1 b2 hlen
    have hF : framesToPlay { v with m_muted := mu, m_volume := vol } b2.length
        = framesToPlay v b1.length := by rw [framesToPlay_mute, hlen]
    have hdl : (drop (playVoice v b1).2
          (framesToPlay v b1.length * v.m_engineChannelCount)).length
        = (drop (playVoice { v with m_muted := mu, m_volume := vol } b2).2
          (framesToPlay v b1.length * v.m_engineChannelCount)).length := by
      simp only [drop, List.length_drop, playVoice_length, hlen]
    by_cases hend : v.m_currentFrame + framesToPlay v b1.length = v.m_totalFrames
    · have hend' : ({ v with m_muted := mu, m_volume := vol } : QSoundEffectVoice).m_currentFrame
          + framesToPlay { v with m_muted := mu, m_volume := vol } b2.length
            = ({ v with m_muted := mu, m_volume := vol } : QSoundEffectVoice).m_totalFrames := by
        rw [hF]; exact hend
      by_cases hi : v.m_loopsRemaining = Infinite
      · rw [play_wrap_infinite f v b1 hend hi, play_wrap_infinite f _ b2 hend' hi, hF]
        simp only [Option.map_map]
        exact ih { v with m_currentFrame := 0 } mu vol _ _ hdl
      · by_cases hl : 1 < v.m_loopsRemaining
        · rw [play_wrap f v b1 hend hi hl, play_wrap f _ b2 hend' hi hl, hF]
          simp only [Option.map_map]
          exact ih { v with m_loopsRemaining := v.m_loopsRemaining - 1,
                            m_currentLoopChanged := true, m_currentFrame := 0 } mu vol _ _ hdl
        · rw [play_finished f v b1 hend hi (by omega),
            play_finished f _ b2 hend' hi (by simpa using Int.not_lt.mp hl)]
          rfl
    · have hend' : ({ v with m_muted := mu, m_volume := vol } : QSoundEffectVoice).m_currentFrame
          + framesToPlay { v with m_muted := mu, m_volume := vol } b2.length
            ≠ ({ v with m_muted := mu, m_volume := vol } : QSoundEffectVoice).m_totalFrames := by
        rw [hF]; exact hend
      rw [play_playing f v b1 hend, play_playing f _ b2 hend']
      simp only [Option.map_some', hF]

/-- C19.  A voice and the same voice with another muted flag and another volume, played into
output spans of the same size (whatever they hold), return the same result and are left with
the same cursor and the same remaining loop count; for a voice over a non-empty sample the
call returns. -/
theorem play_cursor_independent_of_mute (v : QSoundEffectVoice) (muted : Bool) (volume : ℚ)
    (buf1 buf2 : List ℚ) (fuel : Nat) (hlen : buf1.length = buf2.length) :
    (play fuel { v with m_muted := muted, m_volume := volume } buf2).map
        (fun r => (r.1, r.2.1.m_currentFrame, r.2.1.m_loopsRemaining))
      = (play fuel v buf1).map (fun r => (r.1, r.2.1.m_currentFrame, r.2.1.m_loopsRemaining)) ∧
    (0 < v.m_totalFrames → 1 ≤ v.m_engineChannelCount → buf1.length + 2 ≤ fuel →
      ∃ r1 r2, play fuel v buf1 = some r1 ∧
        play fuel { v with m_muted := muted, m_volume := volume } buf2 = some r2 ∧
        r1.1 = r2.1 ∧ r1.2.1.m_currentFrame = r2.2.1.m_currentFrame ∧
        r1.2.1.m_loopsRemaining = r2.2.1.m_loopsRemaining) := by
  have h := play_state_mute fuel v muted volume buf1 buf2 hlen
  refine ⟨h, ?_⟩
  intro hT hce hfuel
  obtain ⟨r1, hr1⟩ := play_isSome fuel v buf1 hT hce (Or.inl hfuel)
  obtain ⟨r2, hr2⟩ := play_isSome fuel { v with m_muted := muted, m_volume := volume } buf2
    hT hce (Or.inl (by rw [← hlen]; exact hfuel))
  rw [hr1, hr2] at h
  simp only [Option.map_some', Option.some.injEq, Prod.mk.injEq] at h
  exact ⟨r1, r2, hr1, hr2, h.1.symm, h.2.1.symm, h.2.2.symm⟩

theorem play_cursor_independent_of_mute_witness :
    ([0, 0, 0] : List ℚ).length = ([7, 8, 9] : List ℚ).length ∧
    (play 5 { twoLoopVoice with m_muted := true, m_volume := 0 } [7, 8, 9]).map
        (fun r => (r.1, r.2.1.m_currentFrame, r.2.1.m_loopsRemaining))
      = (play 5 twoLoopVoice [0, 0, 0]).map
        (fun r => (r.1, r.2.1.m_currentFrame, r.2.1.m_loopsRemaining)) :=
  ⟨rfl, (play_cursor_independent_of_mute twoLoopVoice true 0 [0, 0, 0] [7, 8, 9] 5 rfl).1⟩

/-- For a voice over a non-empty sample whose cursor is inside the sample and whose loop
counter is `Infinite` or at least one, a result of `play` is either `Playing` with the cursor
inside the sample or `Finished` with the cursor at the end of the sample and no loop left. -/
theorem play_result_state : ∀ (fuel : Nat) (v : QSoundEffectVoice) (buf : List ℚ)
    (r : VoicePlayResult × QSoundEffectVoice × List ℚ),
    0 < v.m_totalFrames → v.m_currentFrame < v.m_totalFrames →
    (v.m_loopsRemaining = Infinite ∨ 1 ≤ v.m_loopsRemaining) →
    v.m_sample.data.length = v.m_totalFrames * v.m_sample.channelCount →
    1 ≤ v.m_sample.channelCount →
    play fuel v buf = some r →
    r.2.1.m_totalFrames = v.m_totalFrames ∧
    ((r.1 = VoicePlayResult.Playing ∧ r.2.1.m_currentFrame < v.m_totalFrames) ∨
      (r.1 = VoicePlayResult.Finished ∧ r.2.1.m_currentFrame = v.m_totalFrames ∧
        r.2.1.m_loopsRemaining = 0)) := by
  intro fuel
  induction fuel with
  | zero => intro v buf r _ _ _ _ _ h; simp [play] at h
  | succ f ih =>
    intro v buf r hT hc hl hdata hcs h
    have hF := framesToPlay_eq v buf.length hdata hcs
    have hle : v.m_currentFrame + framesToPlay v buf.length ≤ v.m_totalFrames := by
      rw [hF]; omega
    have hrec : ∀ v1 : QSoundEffectVoice, v1.m_totalFrames = v.m_totalFrames →
        v1.m_currentFrame = 0 → v1.m_sample = v.m_sample →
        (v1.m_loopsRemaining = Infinite ∨ 1 ≤ v1.m_loopsRemaining) →
        (play f v1 (drop (playVoice v buf).2
            (framesToPlay v buf.length * v.m_engineChannelCount))).map
          (fun r => (r.1, r.2.1,
            List.take (framesToPlay v buf.length * v.m_engineChannelCount) (playVoice v buf).2
              ++ r.2.2)) = some r →
        r.2.1.m_totalFrames = v.m_totalFrames ∧
        ((r.1 = VoicePlayResult.Playing ∧ r.2.1.m_currentFrame < v.m_totalFrames) ∨
          (r.1 = VoicePlayResult.Finished ∧ r.2.1.m_currentFrame = v.m_totalFrames ∧
            r.2.1.m_loopsRemaining = 0)) := by
      intro v1 h1 h2 h3 h4 hp
      cases hq : play f v1 (drop (playVoice v buf).2
          (framesToPlay v buf.length * v.m_engineChannelCount)) with
      | none => rw [hq] at hp; simp at hp
      | some r1 =>
        rw [hq] at hp
        simp only [Option.map_some', Option.some.injEq] at hp
        have := ih v1 _ r1 (by omega) (by omega) h4 (by rw [h3, h1]; exact hdata)
          (by rw [h3]; exact hcs) hq
        rw [h1] at this
        rw [← hp]
        exact this
    by_cases hend : v.m_currentFrame + framesToPlay v buf.length = v.m_totalFrames
    · by_cases hi : v.m_loopsRemaining = Infinite
      · rw [play_wrap_infinite f v buf hend hi] at h
        exact hrec { v with m_currentFrame := 0 } rfl rfl rfl (Or.inl hi) h
      · by_cases hlp : 1 < v.m_loopsRemaining
        · rw [play_wrap f v buf hend hi hlp] at h
          refine hrec { v with m_loopsRemaining := v.m_loopsRemaining - 1,
                               m_currentLoopChanged := true, m_currentFrame := 0 }
            rfl rfl rfl (Or.inr ?_) h
          show 1 ≤ v.m_loopsRemaining - 1
          omega
        · rw [play_finished f v buf hend hi (by omega)] at h
          simp only [Option.some.injEq] at h
          rw [← h]
          refine ⟨rfl, Or.inr ⟨rfl, rfl, ?_⟩⟩
          show v.m_loopsRemaining - 1 = 0
          rcases hl with hl | hl
          · exact absurd hl hi
          · omega
    · rw [play_playing f v buf hend] at h
      simp only [Option.some.injEq] at h
      rw [← h]
      refine ⟨rfl, Or.inl ⟨rfl, ?_⟩⟩
      show v.m_currentFrame + framesToPlay v buf.length < v.m_totalFrames
      omega

/-- C20.  For a voice over `T > 0` frames with its cursor `c < T` and a remaining loop count
that is `Infinite` or at least 1, `play` on any span returns, and afterwards: the result is
`Playing` exactly when the cursor is before the end of the sample and `isActive()` holds; the
result is `Finished` exactly when the cursor is at the end of the sample, no loop remains and
`isActive()` does not hold; in every case the cursor does not exceed the total frame count. -/
theorem play_result_iff_isActive (v : QSoundEffectVoice) (buf : List ℚ) (fuel : Nat)
    (hT : 0 < v.m_totalFrames) (hc : v.m_currentFrame < v.m_totalFrames)
    (hl : v.m_loopsRemaining = Infinite ∨ 1 ≤ v.m_loopsRemaining)
    (hdata : v.m_sample.data.length = v.m_totalFrames * v.m_sample.channelCount)
    (hcs : 1 ≤ v.m_sample.channelCount) (hce : 1 ≤ v.m_engineChannelCount)
    (hfuel : buf.length + 1 ≤ fuel) :
    ∃ r, play fuel v buf = some r ∧
      (r.1 = VoicePlayResult.Playing ↔
        (r.2.1.m_currentFrame < r.2.1.m_totalFrames ∧ isActive r.2.1 = true)) ∧
      (r.1 = VoicePlayResult.Finished ↔
        (r.2.1.m_currentFrame = r.2.1.m_totalFrames ∧ r.2.1.m_loopsRemaining = 0 ∧
          isActive r.2.1 = false)) ∧
      r.2.1.m_currentFrame ≤ r.2.1.m_totalFrames := by
  obtain ⟨r, hr⟩ := play_isSome fuel v buf hT hce (Or.inr ⟨hc, hfuel⟩)
  obtain ⟨hTr, hcases⟩ := play_result_state fuel v buf r hT hc hl hdata hcs hr
  refine ⟨r, hr, ?_⟩
  rw [hTr]
  rcases hcases with ⟨h1, h2⟩ | ⟨h1, h2, h3⟩
  · have hact : isActive r.2.1 = true := by
      simp only [isActive, hTr]
      rw [if_pos (by omega)]
    refine ⟨⟨fun _ => ⟨h2, hact⟩, fun _ => h1⟩, ⟨fun h => ?_, fun h => ?_⟩, by omega⟩
    · rw [h1] at h; cases h
    · omega
  · have hact : isActive r.2.1 = false := by
      simp only [isActive, hTr, h2, h3]
      simp
    refine ⟨⟨fun h => ?_, fun h => ?_⟩, ⟨fun _ => ⟨h2, h3, hact⟩, fun _ => h1⟩, by omega⟩
    · rw [h1] at h; cases h
    · omega

theorem play_result_iff_isActive_witness :
    0 < twoLoopVoice.m_totalFrames ∧ twoLoopVoice.m_currentFrame < twoLoopVoice.m_totalFrames ∧
    ∃ r, play 4 twoLoopVoice [0, 0, 0] = some r ∧
      (r.1 = VoicePlayResult.Playing ↔
        (r.2.1.m_currentFrame < r.2.1.m_totalFrames ∧ isActive r.2.1 = true)) ∧
      (r.1 = VoicePlayResult.Finished ↔
        (r.2.1.m_currentFrame = r.2.1.m_totalFrames ∧ r.2.1.m_loopsRemaining = 0 ∧
          isActive r.2.1 = false)) ∧
      r.2.1.m_currentFrame ≤ r.2.1.m_totalFrames :=
  ⟨by decide, by decide,
    play_result_iff_isActive twoLoopVoice [0, 0, 0] 4 (by decide) (by decide)
      (Or.inr (by decide)) rfl (by decide) (by decide) (by decide)⟩

/-- The calls of `play` under a positive fuel start with the call from outside. -/
theorem playCalls_head (fuel : Nat) (v : QSoundEffectVoice) (buf : List ℚ) :
    ∃ rest, playCalls (fuel + 1) v buf = (v, buf) :: rest := by
  simp only [playCalls]
  split_ifs <;> exact ⟨_, rfl⟩

/-- The span a call of `play` hands to its recursive call is strictly shorter than its own
when the cursor was before the end of the sample. -/
theorem play_rest_shorter (v : QSoundEffectVoice) (buf : List ℚ)
    (hc : v.m_currentFrame < v.m_totalFrames) (hce : 1 ≤ v.m_engineChannelCount)
    (hend : v.m_currentFrame + framesToPlay v buf.length = v.m_totalFrames) :
    (drop (playVoice v buf).2 ((playVoice v buf).1 * v.m_engineChannelCount)).length
      < buf.length := by
  have hle := framesToPlay_mul_le v buf.length
  have hF : 1 ≤ framesToPlay v buf.length := by omega
  have hpos : 1 ≤ framesToPlay v buf.length * v.m_engineChannelCount :=
    Nat.mul_le_mul hF hce
  simp only [drop, List.length_drop, playVoice_length, playVoice_fst]
  omega

/-- Every recursive call of `play` receives a strictly shorter span than its caller, and there
are at most as many recursive calls as the span has samples. -/
theorem playCalls_shrink : ∀ (fuel : Nat) (v : QSoundEffectVoice) (buf : List ℚ),
    v.m_currentFrame < v.m_totalFrames → 1 ≤ v.m_engineChannelCount →
    List.Chain' (fun caller callee => callee.2.length < caller.2.length)
        (playCalls fuel v buf) ∧
      (playCalls fuel v buf).length ≤ buf.length + 1 := by
  intro fuel
  induction fuel with
  | zero =>
    intro v buf _ _
    exact ⟨List.chain'_nil, Nat.zero_le _⟩
  | succ f ih =>
    intro v buf hc hce
    by_cases hend : v.m_currentFrame + framesToPlay v buf.length = v.m_totalFrames
    · have hshort := play_rest_shorter v buf hc hce hend
      have hsingle : List.Chain' (fun caller callee : QSoundEffectVoice × List ℚ =>
          callee.2.length < caller.2.length) [(v, buf)] ∧
          ([(v, buf)] : List (QSoundEffectVoice × List ℚ)).length ≤ buf.length + 1 :=
        ⟨List.chain'_singleton _, by simp⟩
      have hrec : ∀ v1 : QSoundEffectVoice, v1.m_totalFrames = v.m_totalFrames →
          v1.m_engineChannelCount = v.m_engineChannelCount → v1.m_currentFrame = 0 →
          List.Chain' (fun caller callee : QSoundEffectVoice × List ℚ =>
              callee.2.length < caller.2.length)
            ((v, buf) :: playCalls f v1
              (drop (playVoice v buf).2 ((playVoice v buf).1 * v.m_engineChannelCount))) ∧
          ((v, buf) :: playCalls f v1
              (drop (playVoice v buf).2
                ((playVoice v buf).1 * v.m_engineChannelCount))).length ≤ buf.length + 1 := by
        intro v1 h1 h2 h3
        obtain ⟨i1, i2⟩ := ih v1
          (drop (playVoice v buf).2 ((playVoice v buf).1 * v.m_engineChannelCount))
          (by rw [h3, h1]; omega) (by rw [h2]; exact hce)
        refine ⟨?_, by rw [List.length_cons]; omega⟩
        cases f with
        | zero => exact List.chain'_singleton _
        | succ g =>
          obtain ⟨rest, hrest⟩ := playCalls_head g v1
            (drop (playVoice v buf).2 ((playVoice v buf).1 * v.m_engineChannelCount))
          rw [hrest] at i1 ⊢
          exact List.Chain'.cons hshort i1
      simp only [playCalls, playVoice_fst] at hrec ⊢
      rw [if_pos hend]
      by_cases hi : v.m_loopsRemaining = Infinite
      · simp only [hi, decide_True, if_true]
        exact hrec _ rfl rfl rfl
      · by_cases hl : 1 < v.m_loopsRemaining
        · simp only [hi, decide_False, Bool.false_eq_true, if_false, gt_iff_lt, hl, decide_True,
            if_true]
          exact hrec _ rfl rfl rfl
        · simp only [hi, decide_False, Bool.false_eq_true, if_false, gt_iff_lt, hl]
          exact hsingle
    · simp only [playCalls, playVoice_fst, hend, if_false]
      exact ⟨List.chain'_singleton _, by simp⟩

/-- C21. For every voice with `T > 0` frames, cursor `c < T` and at least one engine channel:
every recursive call that `play` makes after wrapping the cursor receives an output span
strictly shorter than that of its caller, so a call on a span of `n` samples leads to at most
`n` recursive calls, and `play` returns for every output span once the bound on the recursion
is above the size of the span, whatever the remaining loop count is, `Infinite` included. -/
theorem play_terminates_spans_shrink (v : QSoundEffectVoice) (buf : List ℚ) (fuel : Nat)
    (hT : 0 < v.m_totalFrames) (hc : v.m_currentFrame < v.m_totalFrames)
    (hce : 1 ≤ v.m_engineChannelCount) :
    List.Chain' (fun caller callee => callee.2.length < caller.2.length)
        (playCalls fuel v buf) ∧
      (playCalls fuel v buf).length ≤ buf.length + 1 ∧
      (buf.length + 1 ≤ fuel → ∃ r, play fuel v buf = some r) :=
  ⟨(playCalls_shrink fuel v buf hc hce).1, (playCalls_shrink fuel v buf hc hce).2,
    fun hfuel => play_isSome fuel v buf hT hce (Or.inr ⟨hc, hfuel⟩)⟩

theorem play_terminates_spans_shrink_witness :
    0 < halfVolumeVoice.m_totalFrames ∧
    halfVolumeVoice.m_loopsRemaining = Infinite ∧
    (playCalls 6 halfVolumeVoice [0, 0, 0, 0, 0]).map (fun call => call.2.length) = [5, 3, 1] ∧
    ∃ r, play 6 halfVolumeVoice [0, 0, 0, 0, 0] = some r := by
  refine ⟨by decide, rfl, ?_,
    (play_terminates_spans_shrink halfVolumeVoice [0, 0, 0, 0, 0] 6 (by decide) (by decide)
      (by decide)).2.2 (by decide)⟩
  simp [playCalls, playVoice, framesToPlay, playbackRange, halfVolumeVoice, take, drop,
    conversionType, mixSameChannels, addAt, Infinite, List.range_succ]

namespace QSoundEffectPrivateWithPlayer

/-- The function `setStatus` writes the status and counts a signal when the status changes. -/
theorem setStatus_eq (e : QSoundEffectPrivateWithPlayer) (status : QSoundEffect.Status) :
    setStatus e status
      = { e with m_status := status,
                 statusChanged := if status = e.m_status then e.statusChanged
                                  else e.statusChanged + 1 } := by
  unfold setStatus
  split
  · rename_i h
    cases e
    simp only at h
    subst h
    rfl
  · rfl

/-- The function `setLoopsRemaining` writes the count and counts a signal when the count
changes. -/
theorem setLoopsRemaining_eq (e : QSoundEffectPrivateWithPlayer) (loopsRemaining : Int) :
    setLoopsRemaining e loopsRemaining
      = { e with m_loopsRemaining := loopsRemaining,
                 loopsRemainingChanged :=
                   if loopsRemaining = e.m_loopsRemaining then e.loopsRemainingChanged
                   else e.loopsRemainingChanged + 1 } := by
  unfold setLoopsRemaining
  split
  · rename_i h
    cases e
    simp only at h
    subst h
    rfl
  · rfl

/-- C18, evaluated.  One voice is in flight when the resolved device changes and a player for
the new device is found: afterwards two voices are in flight, with the new ids 1 and 2, both
clones of the one voice; the first has the format of the new sink, the second the format of
the old voice. -/
theorem setResolvedAudioDevice_clones_voice_twice :
    (setResolvedAudioDevice stereoEngineFor oneVoiceEffect { id := some "headset" }).map
        (fun e => (e.m_voices.map (fun voice => (voice.1, voice.2.m_engineChannelCount,
            voice.2.m_currentFrame)), e.m_status, e.nextVoiceId))
      = some ([(1, 2, 1), (2, 1, 1)], QSoundEffect.Status.Ready, 3) := by
  decide

/-- A voice whose id is above all ids of the set goes to the end of the set. -/
theorem voicesInsert_fresh (voices : List (VoiceId × QSoundEffectVoice))
    (entry : VoiceId × QSoundEffectVoice) (h : ∀ x ∈ voices, x.1 < entry.1) :
    voicesInsert voices entry = voices ++ [entry] := by
  have hany : voices.any (fun e => decide (e.1 = entry.1)) = false := by
    rw [List.any_eq_false]
    intro x hx
    simp only [decide_eq_true_eq]
    exact Nat.ne_of_lt (h x hx)
  have hlow : voices.filter (fun e => decide (e.1 < entry.1)) = voices := by
    rw [List.filter_eq_self]
    intro x hx
    simpa using h x hx
  have hhigh : voices.filter (fun e => decide (entry.1 < e.1)) = [] := by
    rw [List.filter_eq_nil_iff]
    intro x hx
    simp only [decide_eq_true_eq]
    exact Nat.lt_asymm (h x hx)
  simp only [voicesInsert, hany, Bool.false_eq_true, if_false, hlow, hhigh, List.append_nil]

/-- One round of a replay loop of `setResolvedAudioDevice` on an effect with a player whose
voice ids are all below the next id of the allocator: one voice more is in flight. -/
theorem playClone_adds_voice (engineFormat : Bool) (e : QSoundEffectPrivateWithPlayer)
    (voice : VoiceId × QSoundEffectVoice) (player : QRtAudioEngine)
    (hplayer : e.m_player = some player) (hids : ∀ x ∈ e.m_voices, x.1 < e.nextVoiceId) :
    ∃ e1, playClone engineFormat e voice = some e1 ∧
      e1.m_player = some player ∧
      (∀ x ∈ e1.m_voices, x.1 < e1.nextVoiceId) ∧
      e1.m_voices.length = e.m_voices.length + 1 ∧
      e1.m_status = e.m_status := by
  have hfresh := voicesInsert_fresh e.m_voices
    (e.nextVoiceId, voice.2.clone (if engineFormat then some player.sinkChannelCount else none))
    hids
  have hmem : ∀ x ∈ e.m_voices ++
      [(e.nextVoiceId,
        voice.2.clone (if engineFormat then some player.sinkChannelCount else none))],
      x.1 < e.nextVoiceId + 1 := by
    intro x hx
    rw [List.mem_append, List.mem_singleton] at hx
    rcases hx with hx | hx
    · exact Nat.lt_succ_of_lt (hids x hx)
    · rw [hx]
      exact Nat.lt_succ_self _
  simp only [playClone, hplayer, play_voice, hfresh, setLoopsRemaining_eq]
  by_cases hl : (e.m_voices ++
      [(e.nextVoiceId,
        voice.2.clone (if engineFormat then some player.sinkChannelCount else none))]).length = 1
  · rw [if_pos hl]
    exact ⟨_, rfl, rfl, hmem, by simp, rfl⟩
  · rw [if_neg hl]
    exact ⟨_, rfl, rfl, hmem, by simp, rfl⟩

/-- A replay loop of `setResolvedAudioDevice` adds one voice for every voice it replays. -/
theorem playClones_adds_voices (engineFormat : Bool) :
    ∀ (voices : List (VoiceId × QSoundEffectVoice)) (e : QSoundEffectPrivateWithPlayer)
      (player : QRtAudioEngine), e.m_player = some player →
      (∀ x ∈ e.m_voices, x.1 < e.nextVoiceId) →
      ∃ e1, playClones engineFormat voices e = some e1 ∧
        e1.m_player = some player ∧
        (∀ x ∈ e1.m_voices, x.1 < e1.nextVoiceId) ∧
        e1.m_voices.length = e.m_voices.length + voices.length ∧
        e1.m_status = e.m_status := by
  intro voices
  induction voices with
  | nil =>
    intro e player hplayer hids
    exact ⟨e, rfl, hplayer, hids, rfl, rfl⟩
  | cons voice rest ih =>
    intro e player hplayer hids
    obtain ⟨e1, h0, h1, h2, h3, h4⟩ := playClone_adds_voice engineFormat e voice player hplayer hids
    obtain ⟨e2, g0, g1, g2, g3, g4⟩ := ih e1 player h1 h2
    refine ⟨e2, ?_, g1, g2, ?_, g4.trans h4⟩
    · simp only [playClones, h0, g0]
    · rw [g3, h3, List.length_cons]
      omega

/-- When the resolved device changes while voices are in flight and a player for the new
device is found, `setResolvedAudioDevice` leaves twice as many voices in flight as there were:
each of its two loops replays every voice. -/
theorem setResolvedAudioDevice_doubles_voices
    (getEngineFor : QAudioDevice → Nat → Option QRtAudioEngine)
    (e : QSoundEffectPrivateWithPlayer) (device : QAudioDevice) (sample : QSample)
    (player : QRtAudioEngine) (hchange : e.m_resolvedAudioDevice ≠ device)
    (hsample : e.m_sample = some sample) (hdevice : device.isNull = false)
    (hplayer : selectEngine getEngineFor device sample = some player) :
    ∃ e1, setResolvedAudioDevice getEngineFor e device = some e1 ∧
      e1.m_voices.length = 2 * e.m_voices.length ∧
      e1.m_status = QSoundEffect.Status.Ready := by
  obtain ⟨e2, h0, h1, h2, h3, _⟩ := playClones_adds_voices true e.m_voices
    { e with m_resolvedAudioDevice := device, m_voices := [], m_voiceFinishedConnection := true,
             m_player := some player }
    player rfl (fun x hx => absurd hx (List.not_mem_nil _))
  obtain ⟨e3, g0, _, _, g3, g4⟩ := playClones_adds_voices false e.m_voices
    (setStatus e2 QSoundEffect.Status.Ready) player (by rw [setStatus_eq]; exact h1)
    (by rw [setStatus_eq]; exact h2)
  refine ⟨e3, ?_, ?_, ?_⟩
  · rw [hsample] at h0
    simp only [setResolvedAudioDevice, hchange, if_false, hsample, updatePlayer, hdevice,
      Bool.false_eq_true, hplayer, Bool.not_true, h0, g0]
  · rw [g3, setStatus_eq]
    simp only [h3, List.length_nil]
    omega
  · rw [g4, setStatus_eq]

/-- C27. The claim fails on the code: a client loads a sample, plays it and sets a source
again.  The second `setSource` hands the player to the release timer and leaves the voice in
the set, so the effect has a voice and no player; `stop`, `setVolume` and `setMuted`
dereference the absent player then. -/
theorem setSource_leaves_voices_without_player :
    (Op.run stereoEngineFor speakerEffect (loadAndPlay ++ [Op.setSource validUrl])).map
        (fun e => (e.m_voices.length, e.m_player, playing e, (stop e).isNone,
          (setVolume e 0).isNone, (setMuted e true).isNone))
      = some (1, none, true, true, true, true) := by
  decide

/-- C28. The claim fails on the code: while one voice is in flight a client selects the
device "headset".  When no engine is found for it, the voice set is cleared and `playing()`
changes from true to false without an emission of `playingChanged`; when an engine is found,
`playing()` is true before and after, and `playingChanged` is emitted once more. -/
theorem setAudioDevice_playingChanged_mismatch :
    ((Op.run speakerOnlyEngineFor speakerEffect loadAndPlay).bind (fun before =>
        (setAudioDevice speakerOnlyEngineFor { id := some "speaker" } before
            { id := some "headset" }).map
          (fun result => (playing before, before.playingChanged, result.1, playing result.2,
            result.2.playingChanged))))
      = some (true, 1, true, false, 1) ∧
    ((Op.run stereoEngineFor speakerEffect loadAndPlay).bind (fun before =>
        (setAudioDevice stereoEngineFor { id := some "speaker" } before
            { id := some "headset" }).map
          (fun result => (playing before, before.playingChanged, result.1, playing result.2,
            result.2.playingChanged))))
      = some (true, 1, true, true, 2) := by
  constructor <;> decide

/-- The function `stop` emits `playingChanged` once when `playing()` changes and not
otherwise. -/
theorem stop_playingChanged (e e1 : QSoundEffectPrivateWithPlayer) (h : stop e = some e1) :
    e1.playingChanged = e.playingChanged + (if playing e1 = playing e then 0 else 1) := by
  unfold stop at h
  split at h
  · cases h
  · cases hv : e.m_voices with
    | nil =>
      simp only [hv, List.length_nil, ne_eq, not_true_eq_false, if_false] at h
      cases h
      simp [playing, hv, setLoopsRemaining_eq]
    | cons voice voices =>
      simp only [hv, List.length_cons, ne_eq, Nat.succ_ne_zero, not_false_eq_true,
        if_true] at h
      cases h
      simp [playing, hv, setLoopsRemaining_eq]

/-- The handler of `voiceFinished` emits `playingChanged` once when `playing()` changes and
not otherwise. -/
theorem voiceFinished_playingChanged (e : QSoundEffectPrivateWithPlayer) (voiceId : VoiceId) :
    (voiceFinished e voiceId).playingChanged
      = e.playingChanged + (if playing (voiceFinished e voiceId) = playing e then 0 else 1) := by
  have hloops : ∀ x : QSoundEffectPrivateWithPlayer,
      (if some voiceId = activeVoice x then setLoopsRemaining x 0 else x).m_voices = x.m_voices
      ∧ (if some voiceId = activeVoice x then setLoopsRemaining x 0 else x).playingChanged
        = x.playingChanged := by
    intro x
    split
    · rw [setLoopsRemaining_eq]
      exact ⟨rfl, rfl⟩
    · exact ⟨rfl, rfl⟩
  unfold voiceFinished
  split
  · simp
  · obtain ⟨hvoices, hcount⟩ := hloops e
    simp only [hvoices, hcount]
    split
    · rename_i hany
      have hne : e.m_voices ≠ [] := by
        intro hnil
        rw [hnil] at hany
        simp at hany
      have hplaying : playing e = true := by
        unfold playing
        cases hv : e.m_voices with
        | nil => exact absurd hv hne
        | cons a l => rfl
      split
      · rename_i hempty
        simp only [playing, hvoices] at hplaying ⊢
        simp only [hempty, Bool.not_true] at *
        simp [hplaying]
      · rename_i hempty
        simp only [playing, hvoices] at hplaying ⊢
        simp only [Bool.not_eq_true] at hempty
        simp [hempty, hplaying, hcount]
    · simp [playing, hvoices, hcount]

/-- The function `setSource` changes neither `playing()` nor the number of emissions of
`playingChanged`. -/
theorem setSource_playingChanged (e : QSoundEffectPrivateWithPlayer) (url : QUrl) :
    (setSource e url).2.playingChanged = e.playingChanged ∧
    playing (setSource e url).2 = playing e := by
  unfold setSource playing
  simp only
  split_ifs <;> simp [setStatus_eq]

end QSoundEffectPrivateWithPlayer

end QtMultimediaPrivate

theorem std.clamp_eq (v lo hi : Int) (h : lo ≤ hi) : std.clamp v lo hi = max lo (min v hi) := by
  unfold std.clamp
  split_ifs <;> omega

/-- C8.  When the probed ranges are well formed (minimum ≤ maximum), the preferred format has
channel count `clamp(2, min, max)` and sample rate `clamp(48000, min, max)`; both lie inside the
probed ranges; a channel range of 1..2 gives 2 channels and a rate range of 44100..44100 gives
44100 Hz. -/
theorem preferredFormat_clamped (base : QOpenSLESDeviceInfo) (isDefaultDevice : Bool)
    (channels sampleRates : List Int) (formats : List QAudioFormat.SampleFormat)
    (hch : (QOpenSLESDeviceInfo.construct base isDefaultDevice channels sampleRates
              formats).minimumChannelCount
            ≤ (QOpenSLESDeviceInfo.construct base isDefaultDevice channels sampleRates
              formats).maximumChannelCount)
    (hrate : (QOpenSLESDeviceInfo.construct base isDefaultDevice channels sampleRates
              formats).minimumSampleRate
            ≤ (QOpenSLESDeviceInfo.construct base isDefaultDevice channels sampleRates
              formats).maximumSampleRate) :
    let d := QOpenSLESDeviceInfo.construct base isDefaultDevice channels sampleRates formats
    d.preferredFormat.channelCount = max d.minimumChannelCount (min 2 d.maximumChannelCount) ∧
    d.preferredFormat.sampleRate = max d.minimumSampleRate (min 48000 d.maximumSampleRate) ∧
    d.minimumChannelCount ≤ d.preferredFormat.channelCount ∧
    d.preferredFormat.channelCount ≤ d.maximumChannelCount ∧
    d.minimumSampleRate ≤ d.preferredFormat.sampleRate ∧
    d.preferredFormat.sampleRate ≤ d.maximumSampleRate ∧
    (d.minimumChannelCount = 1 → d.maximumChannelCount = 2 →
      d.preferredFormat.channelCount = 2) ∧
    (d.minimumSampleRate = 44100 → d.maximumSampleRate = 44100 →
      d.preferredFormat.sampleRate = 44100) := by
  intro d
  have h1 : d.preferredFormat.channelCount
      = std.clamp 2 d.minimumChannelCount d.maximumChannelCount := rfl
  have h2 : d.preferredFormat.sampleRate
      = std.clamp 48000 d.minimumSampleRate d.maximumSampleRate := rfl
  have hch' : d.minimumChannelCount ≤ d.maximumChannelCount := hch
  have hrate' : d.minimumSampleRate ≤ d.maximumSampleRate := hrate
  rw [std.clamp_eq _ _ _ hch'] at h1
  rw [std.clamp_eq _ _ _ hrate'] at h2
  refine ⟨h1, h2, ?_, ?_, ?_, ?_, ?_, ?_⟩ <;> omega

/-- Witness of `preferredFormat_clamped`: channel counts 1 and 2, the single rate 44100. -/
theorem preferredFormat_clamped_witness :
    (QOpenSLESDeviceInfo.construct QOpenSLESDeviceInfo.blank true [1, 2] [44100]
        [QAudioFormat.SampleFormat.Int16]).preferredFormat.channelCount = 2 ∧
    (QOpenSLESDeviceInfo.construct QOpenSLESDeviceInfo.blank true [1, 2] [44100]
        [QAudioFormat.SampleFormat.Int16]).preferredFormat.sampleRate = 44100 :=
  have h := preferredFormat_clamped QOpenSLESDeviceInfo.blank true [1, 2] [44100]
    [QAudioFormat.SampleFormat.Int16] (by decide) (by decide)
  ⟨h.2.2.2.2.2.2.1 rfl rfl, h.2.2.2.2.2.2.2 rfl rfl⟩

/-- C9.  The preferred sample format is `Int16` if `Int16` occurs in the list of supported
sample formats, otherwise the first element of the list, and `Unknown` if the list is empty;
so it is `Unknown` or a member of the list. -/
theorem preferredFormat_sampleFormat (base : QOpenSLESDeviceInfo) (isDefaultDevice : Bool)
    (channels sampleRates : List Int) (formats : List QAudioFormat.SampleFormat) :
    (QAudioFormat.SampleFormat.Int16 ∈ formats →
      (QOpenSLESDeviceInfo.construct base isDefaultDevice channels sampleRates
        formats).preferredFormat.sampleFormat = QAudioFormat.SampleFormat.Int16) ∧
    (QAudioFormat.SampleFormat.Int16 ∉ formats →
      (QOpenSLESDeviceInfo.construct base isDefaultDevice channels sampleRates
        formats).preferredFormat.sampleFormat = formats.head?.getD QAudioFormat.SampleFormat.Unknown) ∧
    (formats = [] →
      (QOpenSLESDeviceInfo.construct base isDefaultDevice channels sampleRates
        formats).preferredFormat.sampleFormat = QAudioFormat.SampleFormat.Unknown) ∧
    ((QOpenSLESDeviceInfo.construct base isDefaultDevice channels sampleRates
        formats).preferredFormat.sampleFormat = QAudioFormat.SampleFormat.Unknown ∨
      (QOpenSLESDeviceInfo.construct base isDefaultDevice channels sampleRates
        formats).preferredFormat.sampleFormat ∈ formats) := by
  have hf : (QOpenSLESDeviceInfo.construct base isDefaultDevice channels sampleRates
      formats).preferredFormat.sampleFormat
        = if ¬ formats.contains QAudioFormat.SampleFormat.Int16
          then formats.headD QAudioFormat.SampleFormat.Unknown
          else QAudioFormat.SampleFormat.Int16 := rfl
  rw [hf]
  refine ⟨?_, ?_, ?_, ?_⟩
  · intro h
    simp [h]
  · intro h
    cases formats <;> simp_all
  · intro h
    subst h
    rfl
  · by_cases h : QAudioFormat.SampleFormat.Int16 ∈ formats
    · right
      simp [h]
    · cases formats with
      | nil => left; rfl
      | cons a t => right; simp_all

namespace QtPipeWire

theorem dictFind_emplace_ne {β : Type} (d : List (Nat × β)) (k k' : Nat) (v : β) (h : k ≠ k') :
    dictFind (dictEmplace d k v) k' = dictFind d k' := by
  unfold dictEmplace
  cases dictFind d k with
  | some x => rfl
  | none => simp [dictFind, h]

theorem dictFind_emplace_self {β : Type} (d : List (Nat × β)) (k : Nat) (v : β)
    (h : dictFind d k = none) :
    dictFind (dictEmplace d k v) k = some v := by
  unfold dictEmplace
  rw [h]
  simp [dictFind]

theorem dictFind_emplace_cases {β : Type} (d : List (Nat × β)) (k k' : Nat) (v x : β)
    (h : dictFind (dictEmplace d k v) k' = some x) :
    dictFind d k' = some x ∨ (k' = k ∧ x = v) := by
  by_cases hk : k = k'
  · subst hk
    cases hd : dictFind d k with
    | some y =>
      left
      unfold dictEmplace at h
      rw [hd] at h
      simp only at h
      rw [← hd]
      exact h
    | none =>
      rw [dictFind_emplace_self d k v hd] at h
      right
      exact ⟨rfl, (Option.some.inj h).symm⟩
  · rw [dictFind_emplace_ne d k k' v hk] at h
    exact Or.inl h

theorem dictFind_erase {β : Type} (d : List (Nat × β)) (k k' : Nat) :
    dictFind (dictErase d k) k' = if k = k' then none else dictFind d k' := by
  induction d with
  | nil => simp [dictErase, dictFind]
  | cons e rest ih =>
    obtain ⟨a, b⟩ := e
    unfold dictErase at ih ⊢
    by_cases ha : a = k
    · subst ha
      simp only [List.filter_cons, ne_eq, not_true_eq_false, decide_False, Bool.false_eq_true,
        if_false, ih]
      by_cases hk : a = k'
      · simp [hk]
      · simp [dictFind, hk]
    · simp only [List.filter_cons, ne_eq, ha, not_false_eq_true, decide_True, if_true, dictFind,
        ih]
      by_cases hk : k = k'
      · subst hk
        simp [ha]
      · simp [hk]

namespace QAudioDeviceMonitor

theorem startCompressionTimer_fields (m : QAudioDeviceMonitor) :
    (startCompressionTimer m).m_objectSerialDict = m.m_objectSerialDict ∧
    (startCompressionTimer m).m_serialObjectDict = m.m_serialObjectDict ∧
    (startCompressionTimer m).m_objectRemoveObserver = m.m_objectRemoveObserver ∧
    (startCompressionTimer m).emittedObjectRemoved = m.emittedObjectRemoved ∧
    (startCompressionTimer m).m_pendingRecords = m.m_pendingRecords ∧
    (startCompressionTimer m).m_devices = m.m_devices := by
  unfold startCompressionTimer
  split <;> exact ⟨rfl, rfl, rfl, rfl, rfl, rfl⟩

theorem addPendingNode_fields (m : QAudioDeviceMonitor) (sources : Bool) (serial : ObjectSerial)
    (props : PwPropertyDict) :
    (addPendingNode m sources serial props).m_objectSerialDict = m.m_objectSerialDict ∧
    (addPendingNode m sources serial props).m_serialObjectDict = m.m_serialObjectDict ∧
    (addPendingNode m sources serial props).m_objectRemoveObserver
      = m.m_objectRemoveObserver ∧
    (addPendingNode m sources serial props).emittedObjectRemoved = m.emittedObjectRemoved := by
  unfold addPendingNode
  cases props.nodeName with
  | none => exact ⟨rfl, rfl, rfl, rfl⟩
  | some nodeName =>
    simp only
    split
    · exact ⟨rfl, rfl, rfl, rfl⟩
    · split
      · exact ⟨rfl, rfl, rfl, rfl⟩
      · split <;> exact ⟨rfl, rfl, rfl, rfl⟩

/-- An object without media class or without serial is not tracked. -/
theorem objectAdded_untracked (m : QAudioDeviceMonitor) (id : ObjectId)
    (objectType : PipewireRegistryType) (props : PwPropertyDict)
    (h : props.mediaClass = none ∨ props.objectSerial = none) :
    objectAdded m id objectType props = m := by
  unfold objectAdded
  cases hmc : props.mediaClass with
  | none => rfl
  | some mc =>
    rcases h with h | h
    · rw [hmc] at h; cases h
    · simp only [h]

/-- What `objectAdded` does to the dictionaries, the observers and the emitted signals for an
object with media class and serial. -/
theorem objectAdded_fields (m : QAudioDeviceMonitor) (id : ObjectId)
    (objectType : PipewireRegistryType) (props : PwPropertyDict) (mc : String)
    (serial : ObjectSerial) (hmc : props.mediaClass = some mc)
    (hs : props.objectSerial = some serial) :
    (objectAdded m id objectType props).m_objectSerialDict
      = dictEmplace m.m_objectSerialDict id serial ∧
    (objectAdded m id objectType props).m_serialObjectDict
      = dictEmplace m.m_serialObjectDict serial id ∧
    (objectAdded m id objectType props).m_objectRemoveObserver = m.m_objectRemoveObserver ∧
    (objectAdded m id objectType props).emittedObjectRemoved = m.emittedObjectRemoved := by
  unfold objectAdded
  simp only [hmc, hs]
  cases objectType with
  | Device =>
    simp only
    split <;> exact ⟨rfl, rfl, rfl, rfl⟩
  | Node =>
    simp only
    split
    · exact addPendingNode_fields _ _ _ _
    · split
      · exact addPendingNode_fields _ _ _ _
      · exact ⟨rfl, rfl, rfl, rfl⟩
  | Other => exact ⟨rfl, rfl, rfl, rfl⟩

/-- What `objectRemoved` does to the dictionaries, the observers and the emitted signals for a
tracked object. -/
theorem objectRemoved_fields (m : QAudioDeviceMonitor) (id : ObjectId) (serial : ObjectSerial)
    (h : findObjectSerial m id = some serial) :
    (objectRemoved m id).m_objectSerialDict = dictErase m.m_objectSerialDict id ∧
    (objectRemoved m id).m_serialObjectDict = dictErase m.m_serialObjectDict serial ∧
    (objectRemoved m id).m_objectRemoveObserver
      = m.m_objectRemoveObserver.filter (fun element => !decide (element.serial = serial)) ∧
    (objectRemoved m id).emittedObjectRemoved
      = m.emittedObjectRemoved
        ++ m.m_objectRemoveObserver.filter (fun observer => decide (observer.serial = serial)) := by
  unfold objectRemoved
  simp only [h]
  obtain ⟨h1, h2, h3, h4, _, _⟩ := startCompressionTimer_fields
    { m with
      m_objectRemoveObserver :=
        m.m_objectRemoveObserver.filter (fun element => !decide (element.serial = serial))
      m_objectSerialDict := dictErase m.m_objectSerialDict id
      m_serialObjectDict := dictErase m.m_serialObjectDict serial
      emittedObjectRemoved := m.emittedObjectRemoved
        ++ m.m_objectRemoveObserver.filter (fun observer => decide (observer.serial = serial))
      m_pendingRecords :=
        { m.m_pendingRecords.removeRecordsForObject serial with
          m_removals := (m.m_pendingRecords.removeRecordsForObject serial).m_removals
            ++ [serial] } }
  exact ⟨h1, h2, h3, h4⟩

theorem objectRemoved_untracked (m : QAudioDeviceMonitor) (id : ObjectId)
    (h : findObjectSerial m id = none) : objectRemoved m id = m := by
  unfold objectRemoved
  simp only [h]

/-- A call that concerns other objects and other observers leaves the bookkeeping for `i`, `s`,
`s'` and `o` as it is. -/
theorem Tracks.step {m : QAudioDeviceMonitor} {i : ObjectId} {s s' : ObjectSerial}
    {o : ObjectRemoveObserver} {cur : Option ObjectSerial} {k c : Nat}
    (h : Tracks m i s s' o cur k c) (hcur : cur = none ∨ cur = some s ∨ cur = some s')
    (ho : o.m_observedSerial = s) (e : Event) (he : Event.unrelated i s s' o e) :
    Tracks (QAudioDeviceMonitor.step m e) i s s' o cur k c := by
  obtain ⟨h1, h2, h3, h4, h5, h6, h7⟩ := h
  cases e with
  | objectAdded j ty props =>
    obtain ⟨hj, hps, hps'⟩ := he
    simp only [QAudioDeviceMonitor.step]
    cases hmc : props.mediaClass with
    | none =>
      rw [objectAdded_untracked m j ty props (Or.inl hmc)]
      exact ⟨h1, h2, h3, h4, h5, h6, h7⟩
    | some mc =>
      cases hser : props.objectSerial with
      | none =>
        rw [objectAdded_untracked m j ty props (Or.inr hser)]
        exact ⟨h1, h2, h3, h4, h5, h6, h7⟩
      | some t =>
        have hts : t ≠ s := fun hh => hps (by rw [hser, hh])
        have hts' : t ≠ s' := fun hh => hps' (by rw [hser, hh])
        obtain ⟨f1, f2, f3, f4⟩ := objectAdded_fields m j ty props mc t hmc hser
        have hid : ∀ x, x ≠ j → findObjectSerial (objectAdded m j ty props) x
            = findObjectSerial m x := by
          intro x hx
          simp only [findObjectSerial, f1]
          exact dictFind_emplace_ne _ _ _ _ (Ne.symm hx)
        have hsr : ∀ u, u ≠ t → findObjectId (objectAdded m j ty props) u
            = findObjectId m u := by
          intro u hu
          simp only [findObjectId, f2]
          exact dictFind_emplace_ne _ _ _ _ (Ne.symm hu)
        refine ⟨?_, ?_, ?_, ?_, ?_, ?_, ?_⟩
        · rw [hid i (Ne.symm hj)]; exact h1
        · intro u hu
          have hut : u ≠ t := by
            rcases hcur with hc | hc | hc
            · rw [hc] at hu; cases hu
            · rw [hc] at hu; cases hu; exact Ne.symm hts
            · rw [hc] at hu; cases hu; exact Ne.symm hts'
          rw [hsr u hut]
          exact h2 u hu
        · intro x hx
          by_cases hxj : x = j
          · subst hxj
            constructor
            · intro hh
              simp only [findObjectSerial, f1] at hh
              rcases dictFind_emplace_cases _ _ _ _ _ hh with hh' | ⟨_, hh'⟩
              · exact (h3 x hx).1 hh'
              · exact hts hh'.symm
            · intro hh
              simp only [findObjectSerial, f1] at hh
              rcases dictFind_emplace_cases _ _ _ _ _ hh with hh' | ⟨_, hh'⟩
              · exact (h3 x hx).2 hh'
              · exact hts' hh'.symm
          · rw [hid x hxj]
            exact h3 x hx
        · intro hc
          rw [hsr s (Ne.symm hts)]
          exact h4 hc
        · intro hc
          rw [hsr s' (Ne.symm hts')]
          exact h5 hc
        · rw [f3]; exact h6
        · simp only [notifications, f4]; exact h7
  | objectRemoved j =>
    have hj : j ≠ i := he
    simp only [QAudioDeviceMonitor.step]
    cases hfind : findObjectSerial m j with
    | none =>
      rw [objectRemoved_untracked m j hfind]
      exact ⟨h1, h2, h3, h4, h5, h6, h7⟩
    | some t =>
      have hts : t ≠ s := fun hh => (h3 j hj).1 (by rw [hfind, hh])
      have hts' : t ≠ s' := fun hh => (h3 j hj).2 (by rw [hfind, hh])
      obtain ⟨f1, f2, f3, f4⟩ := objectRemoved_fields m j t hfind
      have hid : ∀ x, findObjectSerial (objectRemoved m j) x
          = if j = x then none else findObjectSerial m x := by
        intro x
        simp only [findObjectSerial, f1]
        exact dictFind_erase _ _ _
      have hsr : ∀ u, u ≠ t → findObjectId (objectRemoved m j) u = findObjectId m u := by
        intro u hu
        simp only [findObjectId, f2]
        rw [dictFind_erase, if_neg (Ne.symm hu)]
      have hos : o.serial ≠ t := by
        simp only [ObjectRemoveObserver.serial, ho]
        exact Ne.symm hts
      refine ⟨?_, ?_, ?_, ?_, ?_, ?_, ?_⟩
      · rw [hid i, if_neg hj]; exact h1
      · intro u hu
        have hut : u ≠ t := by
          rcases hcur with hc | hc | hc
          · rw [hc] at hu; cases hu
          · rw [hc] at hu; cases hu; exact Ne.symm hts
          · rw [hc] at hu; cases hu; exact Ne.symm hts'
        rw [hsr u hut]
        exact h2 u hu
      · intro x hx
        rw [hid x]
        by_cases hxj : j = x
        · simp [hxj]
        · rw [if_neg hxj]
          exact h3 x hx
      · intro hc
        rw [hsr s (Ne.symm hts)]
        exact h4 hc
      · intro hc
        rw [hsr s' (Ne.symm hts')]
        exact h5 hc
      · rw [f3, List.count_filter (by simpa using hos)]
        exact h6
      · simp only [notifications, f4, List.count_append]
        have hz : List.count o
            (m.m_objectRemoveObserver.filter (fun observer => decide (observer.serial = t)))
              = 0 := by
          apply List.count_eq_zero_of_not_mem
          intro hmem
          have := (List.mem_filter.mp hmem).2
          exact hos (by simpa using this)
        rw [hz, Nat.add_zero]
        exact h7
  | registerObserver o' =>
    have ho' : o' ≠ o := he
    simp only [QAudioDeviceMonitor.step, registerObserver]
    cases dictFind m.m_serialObjectDict o'.serial with
    | none => exact ⟨h1, h2, h3, h4, h5, h6, h7⟩
    | some x =>
      refine ⟨h1, h2, h3, h4, h5, ?_, h7⟩
      simp only [List.count_append, List.count_cons_of_ne (Ne.symm ho'), List.count_nil,
        Nat.add_zero]
      exact h6
  | unregisterObserver o' =>
    have ho' : o' ≠ o := he
    simp only [QAudioDeviceMonitor.step, unregisterObserver]
    refine ⟨h1, h2, h3, h4, h5, ?_, h7⟩
    simp only []
    rw [List.count_filter (by simpa using Ne.symm ho')]
    exact h6

theorem Tracks.run {i : ObjectId} {s s' : ObjectSerial} {o : ObjectRemoveObserver}
    {cur : Option ObjectSerial} {k c : Nat}
    (hcur : cur = none ∨ cur = some s ∨ cur = some s') (ho : o.m_observedSerial = s) :
    ∀ (es : List Event) (m : QAudioDeviceMonitor), (∀ e ∈ es, Event.unrelated i s s' o e) →
      Tracks m i s s' o cur k c → Tracks (QAudioDeviceMonitor.run m es) i s s' o cur k c := by
  intro es
  induction es with
  | nil => intro m _ h; exact h
  | cons e es ih =>
    intro m hes h
    simp only [QAudioDeviceMonitor.run, List.foldl_cons]
    exact ih _ (fun e' he' => hes e' (List.mem_cons_of_mem _ he'))
      (Tracks.step h hcur ho e (hes e (List.mem_cons_self _ _)))

/-- Adding an object with id `i` and serial `t` (one of `s`, `s'`) while `i` is not tracked
makes `i` track `t`. -/
theorem Tracks.added {m : QAudioDeviceMonitor} {i : ObjectId} {s s' : ObjectSerial}
    {o : ObjectRemoveObserver} {k c : Nat}
    (h : Tracks m i s s' o none k c) (hne : s ≠ s') (t : ObjectSerial) (ht : t = s ∨ t = s')
    (ty : PipewireRegistryType) (props : PwPropertyDict)
    (hmc : props.mediaClass.isSome = true) (hs : props.objectSerial = some t) :
    Tracks (objectAdded m i ty props) i s s' o (some t) k c := by
  obtain ⟨h1, _, h3, h4, h5, h6, h7⟩ := h
  obtain ⟨mc, hmc'⟩ := Option.isSome_iff_exists.mp hmc
  obtain ⟨f1, f2, f3, f4⟩ := objectAdded_fields m i ty props mc t hmc' hs
  have htnone : findObjectId m t = none := by
    rcases ht with rfl | rfl
    · exact h4 (by simp)
    · exact h5 (by simp)
  refine ⟨?_, ?_, ?_, ?_, ?_, ?_, ?_⟩
  · simp only [findObjectSerial, f1]
    exact dictFind_emplace_self _ _ _ h1
  · intro u hu
    cases hu
    simp only [findObjectId, f2]
    exact dictFind_emplace_self _ _ _ htnone
  · intro x hx
    simp only [findObjectSerial, f1]
    rw [dictFind_emplace_ne _ _ _ _ (Ne.symm hx)]
    exact h3 x hx
  · intro hc
    have hts : t ≠ s := fun hh => hc (by rw [hh])
    simp only [findObjectId, f2]
    rw [dictFind_emplace_ne _ _ _ _ hts]
    exact h4 (by simp)
  · intro hc
    have hts' : t ≠ s' := fun hh => hc (by rw [hh])
    simp only [findObjectId, f2]
    rw [dictFind_emplace_ne _ _ _ _ hts']
    exact h5 (by simp)
  · rw [f3]; exact h6
  · simp only [notifications, f4]; exact h7

/-- Registering the observer while its serial `s` is tracked succeeds. -/
theorem Tracks.registered {m : QAudioDeviceMonitor} {i : ObjectId} {s s' : ObjectSerial}
    {o : ObjectRemoveObserver} {k c : Nat}
    (h : Tracks m i s s' o (some s) k c) (ho : o.m_observedSerial = s) :
    (registerObserver m o).1 = true ∧
      Tracks (registerObserver m o).2 i s s' o (some s) (k + 1) c := by
  obtain ⟨h1, h2, h3, h4, h5, h6, h7⟩ := h
  have hf : dictFind m.m_serialObjectDict o.serial = some i := by
    simp only [ObjectRemoveObserver.serial, ho]
    exact h2 s rfl
  simp only [registerObserver, hf]
  refine ⟨trivial, h1, h2, h3, h4, h5, ?_, h7⟩
  simp only [List.count_append, List.count_cons_self, List.count_nil, h6]

/-- Removing the object with id `i` while `i` tracks the observed serial `s` notifies every
registration of the observer and drops it. -/
theorem Tracks.removed_observed {m : QAudioDeviceMonitor} {i : ObjectId} {s s' : ObjectSerial}
    {o : ObjectRemoveObserver} {k c : Nat}
    (h : Tracks m i s s' o (some s) k c) (hne : s ≠ s') (ho : o.m_observedSerial = s) :
    Tracks (objectRemoved m i) i s s' o none 0 (c + k) := by
  obtain ⟨h1, h2, h3, h4, h5, h6, h7⟩ := h
  obtain ⟨f1, f2, f3, f4⟩ := objectRemoved_fields m i s h1
  have hos : o.serial = s := ho
  refine ⟨?_, ?_, ?_, ?_, ?_, ?_, ?_⟩
  · simp only [findObjectSerial, f1]
    rw [dictFind_erase, if_pos rfl]
  · intro u hu; cases hu
  · intro x hx
    simp only [findObjectSerial, f1]
    rw [dictFind_erase, if_neg (Ne.symm hx)]
    exact h3 x hx
  · intro _
    simp only [findObjectId, f2]
    rw [dictFind_erase, if_pos rfl]
  · intro _
    simp only [findObjectId, f2]
    rw [dictFind_erase, if_neg hne]
    exact h5 (by simpa using hne)
  · rw [f3]
    apply List.count_eq_zero_of_not_mem
    intro hmem
    have := (List.mem_filter.mp hmem).2
    simp [hos] at this
  · simp only [notifications, f4, List.count_append]
    rw [List.count_filter (by simpa using hos), h6]
    simp only [notifications] at h7
    rw [h7]

/-- Removing the object with id `i` while `i` tracks the other serial `s'` neither notifies nor
drops the observer of `s`. -/
theorem Tracks.removed_other {m : QAudioDeviceMonitor} {i : ObjectId} {s s' : ObjectSerial}
    {o : ObjectRemoveObserver} {k c : Nat}
    (h : Tracks m i s s' o (some s') k c) (hne : s ≠ s') (ho : o.m_observedSerial = s) :
    Tracks (objectRemoved m i) i s s' o none k c := by
  obtain ⟨h1, h2, h3, h4, h5, h6, h7⟩ := h
  obtain ⟨f1, f2, f3, f4⟩ := objectRemoved_fields m i s' h1
  have hos : o.serial ≠ s' := by
    simp only [ObjectRemoveObserver.serial, ho]
    exact hne
  refine ⟨?_, ?_, ?_, ?_, ?_, ?_, ?_⟩
  · simp only [findObjectSerial, f1]
    rw [dictFind_erase, if_pos rfl]
  · intro u hu; cases hu
  · intro x hx
    simp only [findObjectSerial, f1]
    rw [dictFind_erase, if_neg (Ne.symm hx)]
    exact h3 x hx
  · intro _
    simp only [findObjectId, f2]
    rw [dictFind_erase, if_neg (Ne.symm hne)]
    exact h4 (by simpa using Ne.symm hne)
  · intro _
    simp only [findObjectId, f2]
    rw [dictFind_erase, if_pos rfl]
  · rw [f3, List.count_filter (by simpa using hos)]
    exact h6
  · simp only [notifications, f4, List.count_append]
    have hz : List.count o
        (m.m_objectRemoveObserver.filter (fun observer => decide (observer.serial = s')))
          = 0 := by
      apply List.count_eq_zero_of_not_mem
      intro hmem
      have := (List.mem_filter.mp hmem).2
      exact hos (by simpa using this)
    rw [hz, Nat.add_zero]
    exact h7

/-- C10.  An object with id `i` and serial `s` is added, an observer `o` is registered for
`s`, the object is removed, a new object reusing id `i` with another serial `s'` is added and
later removed, with calls for other objects and other observers in between.  Then the
registration succeeds, the observer has not been notified before the first removal, has been
notified exactly once after it, and its count stays at one through the re-add and the second
removal; after the re-add `findObjectSerial(i)` is `s'` and `findObjectId(s)` is empty. -/
theorem observer_notified_once_across_id_reuse
    (m0 : QAudioDeviceMonitor) (i : ObjectId) (s s' : ObjectSerial) (o : ObjectRemoveObserver)
    (ty ty' : PipewireRegistryType) (props props' : PwPropertyDict)
    (es1 es2 es3 es4 es5 : List Event)
    (hmc : props.mediaClass.isSome = true) (hs : props.objectSerial = some s)
    (hmc' : props'.mediaClass.isSome = true) (hs' : props'.objectSerial = some s')
    (hne : s ≠ s') (ho : o.m_observedSerial = s)
    (hi0 : findObjectSerial m0 i = none)
    (hfresh : ∀ j, findObjectSerial m0 j ≠ some s ∧ findObjectSerial m0 j ≠ some s')
    (hfresh' : findObjectId m0 s = none ∧ findObjectId m0 s' = none)
    (hreg0 : o ∉ m0.m_objectRemoveObserver)
    (h1 : ∀ e ∈ es1, Event.unrelated i s s' o e)
    (h2 : ∀ e ∈ es2, Event.unrelated i s s' o e)
    (h3 : ∀ e ∈ es3, Event.unrelated i s s' o e)
    (h4 : ∀ e ∈ es4, Event.unrelated i s s' o e)
    (h5 : ∀ e ∈ es5, Event.unrelated i s s' o e) :
    let m1 := run (objectAdded m0 i ty props) es1
    let r := registerObserver m1 o
    let m2 := run r.2 es2
    let m3 := objectRemoved m2 i
    let m4 := objectAdded (run m3 es3) i ty' props'
    let m4' := run m4 es4
    let m5 := objectRemoved m4' i
    let m5' := run m5 es5
    r.1 = true ∧
    notifications m2 o = notifications m0 o ∧
    notifications m3 o = notifications m0 o + 1 ∧
    notifications m4' o = notifications m0 o + 1 ∧
    notifications m5 o = notifications m0 o + 1 ∧
    notifications m5' o = notifications m0 o + 1 ∧
    findObjectSerial m4 i = some s' ∧ findObjectId m4 s = none ∧
    findObjectSerial m4' i = some s' ∧ findObjectId m4' s = none := by
  intro m1 r m2 m3 m4 m4' m5 m5'
  have hnone : (none : Option ObjectSerial) = none ∨ none = some s ∨ none = some s' :=
    Or.inl rfl
  have hsome : some s = none ∨ some s = some s ∨ some s = some s' := Or.inr (Or.inl rfl)
  have hsome' : some s' = none ∨ some s' = some s ∨ some s' = some s' := Or.inr (Or.inr rfl)
  have t0 : Tracks m0 i s s' o none 0 (notifications m0 o) :=
    ⟨hi0, fun t ht => (by cases ht), fun j _ => hfresh j, fun _ => hfresh'.1,
      fun _ => hfresh'.2, List.count_eq_zero_of_not_mem hreg0, rfl⟩
  have t1 : Tracks m1 i s s' o (some s) 0 (notifications m0 o) :=
    Tracks.run hsome ho es1 _ h1 (Tracks.added t0 hne s (Or.inl rfl) ty props hmc hs)
  have t2r := Tracks.registered t1 ho
  have t2 : Tracks m2 i s s' o (some s) (0 + 1) (notifications m0 o) :=
    Tracks.run hsome ho es2 _ h2 t2r.2
  have t3 : Tracks m3 i s s' o none 0 (notifications m0 o + (0 + 1)) :=
    Tracks.removed_observed t2 hne ho
  have t4 : Tracks m4 i s s' o (some s') 0 (notifications m0 o + (0 + 1)) :=
    Tracks.added (Tracks.run hnone ho es3 _ h3 t3) hne s' (Or.inr rfl) ty' props' hmc' hs'
  have t4' : Tracks m4' i s s' o (some s') 0 (notifications m0 o + (0 + 1)) :=
    Tracks.run hsome' ho es4 _ h4 t4
  have t5 : Tracks m5 i s s' o none 0 (notifications m0 o + (0 + 1)) :=
    Tracks.removed_other t4' hne ho
  have t5' : Tracks m5' i s s' o none 0 (notifications m0 o + (0 + 1)) :=
    Tracks.run hnone ho es5 _ h5 t5
  have hns : some s' ≠ some s := fun hh => hne (Option.some.inj hh).symm
  exact ⟨t2r.1, t2.2.2.2.2.2.2, t3.2.2.2.2.2.2, t4'.2.2.2.2.2.2, t5.2.2.2.2.2.2,
    t5'.2.2.2.2.2.2, t4.1, t4.2.2.2.1 hns, t4'.1, t4'.2.2.2.1 hns⟩

/-- Witness of `observer_notified_once_across_id_reuse`: id 5 with serial 100, then id 5 with
serial 101, on a monitor that tracks nothing; another device (id 6, serial 7) is added while
the observer is registered. -/
theorem observer_notified_once_across_id_reuse_witness :
    let o : ObjectRemoveObserver := { address := 1, m_observedSerial := 100 }
    let m1 := run (objectAdded empty 5 PipewireRegistryType.Device (deviceProps 100)) []
    let r := registerObserver m1 o
    let m2 := run r.2 [Event.objectAdded 6 PipewireRegistryType.Device (deviceProps 7)]
    let m3 := objectRemoved m2 5
    let m4 := objectAdded (run m3 []) 5 PipewireRegistryType.Device (deviceProps 101)
    let m4' := run m4 []
    let m5 := objectRemoved m4' 5
    let m5' := run m5 []
    r.1 = true ∧
    notifications m2 o = notifications empty o ∧
    notifications m3 o = notifications empty o + 1 ∧
    notifications m4' o = notifications empty o + 1 ∧
    notifications m5 o = notifications empty o + 1 ∧
    notifications m5' o = notifications empty o + 1 ∧
    findObjectSerial m4 5 = some 101 ∧ findObjectId m4 100 = none ∧
    findObjectSerial m4' 5 = some 101 ∧ findObjectId m4' 100 = none :=
  observer_notified_once_across_id_reuse empty 5 100 101
    { address := 1, m_observedSerial := 100 }
    PipewireRegistryType.Device PipewireRegistryType.Device (deviceProps 100) (deviceProps 101)
    [] [Event.objectAdded 6 PipewireRegistryType.Device (deviceProps 7)] [] [] []
    rfl rfl rfl rfl (by decide) rfl rfl
    (fun j => ⟨by simp [findObjectSerial, empty, dictFind],
      by simp [findObjectSerial, empty, dictFind]⟩)
    ⟨rfl, rfl⟩ (by simp [empty])
    (fun e he => by cases he)
    (fun e he => by
      simp only [List.mem_singleton] at he
      subst he
      exact ⟨by decide, by decide, by decide⟩)
    (fun e he => by cases he) (fun e he => by cases he) (fun e he => by cases he)

theorem registerObserver_serialDict (m : QAudioDeviceMonitor) (o : ObjectRemoveObserver) :
    (registerObserver m o).2.m_serialObjectDict = m.m_serialObjectDict := by
  unfold registerObserver
  cases dictFind m.m_serialObjectDict o.serial <;> rfl

/-- A serial without id stays without id as long as no object with this serial is added. -/
theorem findObjectId_none_run (s : ObjectSerial) :
    ∀ (es : List Event) (m : QAudioDeviceMonitor), findObjectId m s = none →
      (∀ e ∈ es, ¬ Event.addsSerial s e) → findObjectId (run m es) s = none := by
  intro es
  induction es with
  | nil => intro m h _; exact h
  | cons e es ih =>
    intro m h hes
    simp only [run, List.foldl_cons]
    refine ih _ ?_ (fun e' he' => hes e' (List.mem_cons_of_mem _ he'))
    have he := hes e (List.mem_cons_self _ _)
    cases e with
    | objectAdded j ty props =>
      simp only [step]
      cases hmc : props.mediaClass with
      | none => rw [objectAdded_untracked m j ty props (Or.inl hmc)]; exact h
      | some mc =>
        cases hser : props.objectSerial with
        | none => rw [objectAdded_untracked m j ty props (Or.inr hser)]; exact h
        | some t =>
          have hts : t ≠ s := fun hh => he (by simp only [Event.addsSerial, hser, hh])
          obtain ⟨_, f2, _, _⟩ := objectAdded_fields m j ty props mc t hmc hser
          simp only [findObjectId, f2]
          rw [dictFind_emplace_ne _ _ _ _ hts]
          exact h
    | objectRemoved j =>
      simp only [step]
      cases hfind : findObjectSerial m j with
      | none => rw [objectRemoved_untracked m j hfind]; exact h
      | some t =>
        obtain ⟨_, f2, _, _⟩ := objectRemoved_fields m j t hfind
        simp only [findObjectId, f2]
        rw [dictFind_erase]
        split
        · rfl
        · exact h
    | registerObserver o' =>
      simp only [step, findObjectId, registerObserver_serialDict]
      exact h
    | unregisterObserver o' =>
      exact h

/-- C11.  The call `registerObserver(observer)` returns true exactly when the serial of the
observer has an id in the serial dictionary, that is when its object is tracked; then the
observer is appended to the observer list and nothing else changes.  Otherwise the call
returns false and changes nothing.  The serial of an object that has just been added is
tracked; once the object has been removed, registration fails, also after any further calls
that do not add an object with this serial again. -/
theorem registerObserver_iff_tracked (m : QAudioDeviceMonitor) (o : ObjectRemoveObserver) :
    ((registerObserver m o).1 = true ↔ (findObjectId m o.serial).isSome = true) ∧
    ((registerObserver m o).1 = true →
      (registerObserver m o).2
        = { m with m_objectRemoveObserver := m.m_objectRemoveObserver ++ [o] }) ∧
    ((registerObserver m o).1 = false → (registerObserver m o).2 = m) ∧
    (∀ (id : ObjectId) (ty : PipewireRegistryType) (props : PwPropertyDict),
      props.mediaClass.isSome = true → props.objectSerial = some o.serial →
      (registerObserver (objectAdded m id ty props) o).1 = true) ∧
    (∀ (id : ObjectId) (es : List Event), findObjectSerial m id = some o.serial →
      (∀ e ∈ es, ¬ Event.addsSerial o.serial e) →
      registerObserver (run (objectRemoved m id) es) o = (false, run (objectRemoved m id) es)) := by
  have key : ∀ m' : QAudioDeviceMonitor, findObjectId m' o.serial = none →
      registerObserver m' o = (false, m') := by
    intro m' h
    simp only [findObjectId] at h
    simp only [registerObserver, h]
  refine ⟨?_, ?_, ?_, ?_, ?_⟩
  · simp only [registerObserver, findObjectId]
    cases dictFind m.m_serialObjectDict o.serial <;> simp
  · simp only [registerObserver]
    cases dictFind m.m_serialObjectDict o.serial <;> simp
  · simp only [registerObserver]
    cases dictFind m.m_serialObjectDict o.serial <;> simp
  · intro id ty props hmc hs
    obtain ⟨mc, hmc'⟩ := Option.isSome_iff_exists.mp hmc
    obtain ⟨_, f2, _, _⟩ := objectAdded_fields m id ty props mc o.serial hmc' hs
    simp only [registerObserver, f2]
    cases hd : dictFind m.m_serialObjectDict o.serial with
    | none => rw [dictFind_emplace_self _ _ _ hd]
    | some x =>
      have : dictEmplace m.m_serialObjectDict o.serial id = m.m_serialObjectDict := by
        simp only [dictEmplace, hd]
      rw [this, hd]
  · intro id es hfind hes
    apply key
    apply findObjectId_none_run _ es _ _ hes
    obtain ⟨_, f2, _, _⟩ := objectRemoved_fields m id o.serial hfind
    simp only [findObjectId, f2]
    rw [dictFind_erase, if_pos rfl]

theorem startCompressionTimer_eq (m : QAudioDeviceMonitor) :
    startCompressionTimer m = { m with m_compressionTimerActive := true } := by
  unfold startCompressionTimer
  split
  · rename_i h
    cases m
    simp only at h
    subst h
    rfl
  · rfl

/-- The comparison of `updateSourcesOrSinks` holds exactly when the two lists have the same
sequence of pairs of id and default flag. -/
theorem deviceListsEqual_iff : ∀ (lhs rhs : List QAudioDevice),
    deviceListsEqual lhs rhs = true ↔ lhs.map idAndDefault = rhs.map idAndDefault := by
  intro lhs
  induction lhs with
  | nil =>
    intro rhs
    cases rhs with
    | nil => simp [deviceListsEqual]
    | cons r rs => simp [deviceListsEqual]
  | cons l ls ih =>
    intro rhs
    cases rhs with
    | nil => simp [deviceListsEqual]
    | cons r rs =>
      simp only [deviceListsEqual, Bool.and_eq_true, decide_eq_true_eq, ih rs, List.map_cons,
        List.cons.injEq, idAndDefault, Prod.mk.injEq]

theorem createDevice_congr (m m1 : QAudioDeviceMonitor) (name : Option String)
    (record : NodeRecord) (h : m1.m_devices = m.m_devices) :
    createDevice m1 name record = createDevice m name record := by
  simp only [createDevice, sysFsPath, h]

theorem newDeviceList_congr (S : StdSort) (m m1 : QAudioDeviceMonitor) (mode : Direction)
    (nodes : List NodeRecord) (h : m1.m_devices = m.m_devices)
    (h1 : m1.m_defaultSinkName = m.m_defaultSinkName)
    (h2 : m1.m_defaultSourceName = m.m_defaultSourceName) :
    newDeviceList S m1 mode nodes = newDeviceList S m mode nodes := by
  simp only [newDeviceList, h1, h2]
  congr 2
  funext record
  exact createDevice_congr m m1 _ record h

/-- The result of `updateSourcesOrSinks` for sinks. -/
theorem updateSourcesOrSinks_sink (S : StdSort) (m : QAudioDeviceMonitor)
    (addedNodes : List PendingNodeRecord) (removedObjects : List ObjectSerial) :
    updateSourcesOrSinks S Direction.sink m addedNodes removedObjects
      = if deviceListsEqual m.m_sinkDeviceList
            (newDeviceList S m Direction.sink
              (updatedNodes S m.m_sinks addedNodes removedObjects)) = true
        then { m with m_sinks := updatedNodes S m.m_sinks addedNodes removedObjects }
        else { m with
                m_sinks := updatedNodes S m.m_sinks addedNodes removedObjects
                m_sinkDeviceList := newDeviceList S m Direction.sink
                  (updatedNodes S m.m_sinks addedNodes removedObjects)
                emittedAudioSinksChanged := m.emittedAudioSinksChanged
                  ++ [newDeviceList S m Direction.sink
                        (updatedNodes S m.m_sinks addedNodes removedObjects)] } := by
  have hn : newDeviceList S { m with m_sinks := updatedNodes S m.m_sinks addedNodes removedObjects }
      Direction.sink (updatedNodes S m.m_sinks addedNodes removedObjects)
        = newDeviceList S m Direction.sink
            (updatedNodes S m.m_sinks addedNodes removedObjects) :=
    newDeviceList_congr S m _ _ _ rfl rfl rfl
  simp only [updateSourcesOrSinks, if_true, hn]

/-- The result of `updateSourcesOrSinks` for sources. -/
theorem updateSourcesOrSinks_source (S : StdSort) (m : QAudioDeviceMonitor)
    (addedNodes : List PendingNodeRecord) (removedObjects : List ObjectSerial) :
    updateSourcesOrSinks S Direction.source m addedNodes removedObjects
      = if deviceListsEqual m.m_sourceDeviceList
            (newDeviceList S m Direction.source
              (updatedNodes S m.m_sources addedNodes removedObjects)) = true
        then { m with m_sources := updatedNodes S m.m_sources addedNodes removedObjects }
        else { m with
                m_sources := updatedNodes S m.m_sources addedNodes removedObjects
                m_sourceDeviceList := newDeviceList S m Direction.source
                  (updatedNodes S m.m_sources addedNodes removedObjects)
                emittedAudioSourcesChanged := m.emittedAudioSourcesChanged
                  ++ [newDeviceList S m Direction.source
                        (updatedNodes S m.m_sources addedNodes removedObjects)] } := by
  have hn : newDeviceList S
      { m with m_sources := updatedNodes S m.m_sources addedNodes removedObjects }
      Direction.source (updatedNodes S m.m_sources addedNodes removedObjects)
        = newDeviceList S m Direction.source
            (updatedNodes S m.m_sources addedNodes removedObjects) :=
    newDeviceList_congr S m _ _ _ rfl rfl rfl
  have hd : (Direction.source = Direction.sink) = False := by simp
  simp only [updateSourcesOrSinks, hd, if_false, hn]

/-- C13. Whenever `updateSourcesOrSinks` rebuilds a device list whose sequence of pairs of
device id and default flag equals that of the published list, it emits no change signal and
leaves the published list as it is; when the sequences differ it emits exactly one signal,
with the rebuilt list, and the rebuilt list becomes the published list.  The signals and the
published list of the other direction stay as they are in both cases. -/
theorem updateSourcesOrSinks_emits_iff_changed (S : StdSort) (mode : Direction)
    (m : QAudioDeviceMonitor) (addedNodes : List PendingNodeRecord)
    (removedObjects : List ObjectSerial) :
    ((publishedList m mode).map idAndDefault
        = (rebuiltDeviceList S mode m addedNodes removedObjects).map idAndDefault →
      emittedLists (updateSourcesOrSinks S mode m addedNodes removedObjects) mode
          = emittedLists m mode ∧
        publishedList (updateSourcesOrSinks S mode m addedNodes removedObjects) mode
          = publishedList m mode) ∧
    ((publishedList m mode).map idAndDefault
        ≠ (rebuiltDeviceList S mode m addedNodes removedObjects).map idAndDefault →
      emittedLists (updateSourcesOrSinks S mode m addedNodes removedObjects) mode
          = emittedLists m mode ++ [rebuiltDeviceList S mode m addedNodes removedObjects] ∧
        publishedList (updateSourcesOrSinks S mode m addedNodes removedObjects) mode
          = rebuiltDeviceList S mode m addedNodes removedObjects) ∧
    (∀ other, other ≠ mode →
      emittedLists (updateSourcesOrSinks S mode m addedNodes removedObjects) other
          = emittedLists m other ∧
        publishedList (updateSourcesOrSinks S mode m addedNodes removedObjects) other
          = publishedList m other) := by
  cases mode with
  | sink =>
    rw [updateSourcesOrSinks_sink]
    simp only [publishedList, rebuiltDeviceList, nodeList, emittedLists]
    refine ⟨fun h => ?_, fun h => ?_, fun other ho => ?_⟩
    · rw [if_pos ((deviceListsEqual_iff _ _).2 h)]
      exact ⟨rfl, rfl⟩
    · rw [if_neg (fun hh => h ((deviceListsEqual_iff _ _).1 hh))]
      exact ⟨rfl, rfl⟩
    · cases other with
      | sink => exact absurd rfl ho
      | source =>
        simp only [emittedLists, publishedList]
        constructor <;> split <;> rfl
  | source =>
    rw [updateSourcesOrSinks_source]
    simp only [publishedList, rebuiltDeviceList, nodeList, emittedLists]
    refine ⟨fun h => ?_, fun h => ?_, fun other ho => ?_⟩
    · rw [if_pos ((deviceListsEqual_iff _ _).2 h)]
      exact ⟨rfl, rfl⟩
    · rw [if_neg (fun hh => h ((deviceListsEqual_iff _ _).1 hh))]
      exact ⟨rfl, rfl⟩
    · cases other with
      | source => exact absurd rfl ho
      | sink =>
        simp only [emittedLists, publishedList]
        constructor <;> split <;> rfl

theorem usableResults_nil (S : StdSort) (hS : S.Permutes) (record : PendingNodeRecord)
    (hno : ∀ res ∈ record.formatResults, res = none ∨
      ∃ format codec, res = some format ∧
        format.sampleTypes = SpaSampleTypes.iec958Codec codec ∧
        codec ≠ SPA_AUDIO_IEC958_CODEC_PCM) :
    usableResults S record = [] := by
  have hfilter : (record.formatResults.filterMap (fun arg => arg)).filter
      (fun arg => !isIEC61937EncapsulatedDevice arg) = [] := by
    rw [List.filter_eq_nil_iff]
    intro format hmem
    rw [List.mem_filterMap] at hmem
    obtain ⟨res, hres, hsome⟩ := hmem
    subst hsome
    rcases hno _ hres with h | ⟨f, codec, hf, hty, hc⟩
    · cases h
    · cases hf
      simp [isIEC61937EncapsulatedDevice, hty, hc]
  unfold usableResults
  rw [hfilter]
  exact List.Perm.eq_nil (hS.1 [])

/-- C14. A resolved node whose format results hold no usable format (every result is empty
because parsing failed or is an IEC958 format with a codec other than PCM, or there is no
result at all) has no usable result, is not appended to the node list, and the whole run of
`updateSourcesOrSinks` is the run without this node: the node list, the published device list
and the emitted signals are those the other nodes of the pass give. -/
theorem updateSourcesOrSinks_drops_node_without_usable_format (S : StdSort) (hS : S.Permutes)
    (mode : Direction) (m : QAudioDeviceMonitor) (before after : List PendingNodeRecord)
    (record : PendingNodeRecord) (removedObjects : List ObjectSerial)
    (hno : ∀ res ∈ record.formatResults, res = none ∨
      ∃ format codec, res = some format ∧
        format.sampleTypes = SpaSampleTypes.iec958Codec codec ∧
        codec ≠ SPA_AUDIO_IEC958_CODEC_PCM) :
    usableResults S record = [] ∧
    (∀ nodes, addResolvedNode S nodes record = nodes) ∧
    updatedNodes S (nodeList m mode) (before ++ record :: after) removedObjects
      = updatedNodes S (nodeList m mode) (before ++ after) removedObjects ∧
    updateSourcesOrSinks S mode m (before ++ record :: after) removedObjects
      = updateSourcesOrSinks S mode m (before ++ after) removedObjects := by
  have hnil := usableResults_nil S hS record hno
  have hadd : ∀ nodes, addResolvedNode S nodes record = nodes := by
    intro nodes
    simp only [addResolvedNode, hnil]
  have hupd : ∀ nodes, updatedNodes S nodes (before ++ record :: after) removedObjects
      = updatedNodes S nodes (before ++ after) removedObjects := by
    intro nodes
    simp only [updatedNodes, List.foldl_append, List.foldl_cons, hadd]
  refine ⟨hnil, hadd, hupd _, ?_⟩
  simp only [updateSourcesOrSinks, hupd]

theorem updateSourcesOrSinks_drops_node_without_usable_format_witness :
    (∀ res ∈ (resolvedSink 101 "hdmi"
        [none, some (stereoFormat (SpaSampleTypes.iec958Codec 2))]).formatResults, res = none ∨
      ∃ format codec, res = some format ∧
        format.sampleTypes = SpaSampleTypes.iec958Codec codec ∧
        codec ≠ SPA_AUDIO_IEC958_CODEC_PCM) ∧
    (updateSourcesOrSinks StdSort.keep Direction.sink empty
        ([resolvedSink 100 "speaker" [some (stereoFormat (SpaSampleTypes.format 3))]]
          ++ resolvedSink 101 "hdmi" [none, some (stereoFormat (SpaSampleTypes.iec958Codec 2))]
            :: [])
        []).m_sinks.map (fun node => node.serial) = [100] := by
  have hno : ∀ res ∈ (resolvedSink 101 "hdmi"
        [none, some (stereoFormat (SpaSampleTypes.iec958Codec 2))]).formatResults, res = none ∨
      ∃ format codec, res = some format ∧
        format.sampleTypes = SpaSampleTypes.iec958Codec codec ∧
        codec ≠ SPA_AUDIO_IEC958_CODEC_PCM := by
    intro res hres
    simp only [resolvedSink, List.mem_cons, List.mem_singleton, List.not_mem_nil, or_false]
      at hres
    rcases hres with h | h
    · exact Or.inl h
    · exact Or.inr ⟨_, 2, h, rfl, by decide⟩
  refine ⟨hno, ?_⟩
  rw [(updateSourcesOrSinks_drops_node_without_usable_format StdSort.keep
    ⟨fun _ => List.Perm.refl _, fun _ => List.Perm.refl _⟩ Direction.sink empty
    [resolvedSink 100 "speaker" [some (stereoFormat (SpaSampleTypes.format 3))]] []
    (resolvedSink 101 "hdmi" [none, some (stereoFormat (SpaSampleTypes.iec958Codec 2))]) []
    hno).2.2.2]
  decide

/-- The loop `takeFullyResolvedRecords` leaves the records that are not finished and appends
the finished ones to `resolved`, both in their order. -/
theorem takeFullyResolvedRecords_eq : ∀ (toResolve resolved : List PendingNodeRecord),
    takeFullyResolvedRecords toResolve resolved
      = (toResolve.filter (fun record => !record.formatFinished),
          resolved ++ toResolve.filter (fun record => record.formatFinished)) := by
  intro toResolve
  induction toResolve with
  | nil =>
    intro resolved
    simp [takeFullyResolvedRecords]
  | cons it rest ih =>
    intro resolved
    unfold takeFullyResolvedRecords
    by_cases hfin : it.formatFinished = true
    · rw [if_pos hfin, ih]
      simp [hfin]
    · rw [if_neg hfin, ih]
      simp [hfin]

/-- The function `audioDevicesChanged` with the loop `takeFullyResolvedRecords` written as the
two filters it computes. -/
theorem audioDevicesChanged_eq (S : StdSort) (m : QAudioDeviceMonitor) :
    audioDevicesChanged S m
      = (
      let pendingRecords : PendingRecords :=
        { m_removals := m.m_pendingRecords.m_removals
          m_defaultSource := m.m_pendingRecords.m_defaultSource
          m_defaultSink := m.m_pendingRecords.m_defaultSink
          m_sources := m.m_pendingRecords.m_sources.filter (fun record => record.formatFinished)
          m_sinks := m.m_pendingRecords.m_sinks.filter (fun record => record.formatFinished) }
      let m1 : QAudioDeviceMonitor :=
        { m with
          audioDevicesChangedRuns := m.audioDevicesChangedRuns + 1
          m_pendingRecords :=
            { m_removals := []
              m_defaultSource := none
              m_defaultSink := none
              m_sources := m.m_pendingRecords.m_sources.filter (fun record => !record.formatFinished)
              m_sinks := m.m_pendingRecords.m_sinks.filter (fun record => !record.formatFinished) } }
      let defaultSourceChanged := pendingRecords.m_defaultSource.isSome
      let m2 : QAudioDeviceMonitor :=
        match pendingRecords.m_defaultSource with
        | some newDefault => { m1 with m_defaultSourceName := newDefault }
        | none => m1
      let defaultSinkChanged := pendingRecords.m_defaultSink.isSome
      let m3 : QAudioDeviceMonitor :=
        match pendingRecords.m_defaultSink with
        | some newDefault => { m2 with m_defaultSinkName := newDefault }
        | none => m2
      let m4 : QAudioDeviceMonitor :=
        if !pendingRecords.m_sources.isEmpty || !pendingRecords.m_removals.isEmpty
            || defaultSourceChanged then
          updateSources S m3 pendingRecords.m_sources pendingRecords.m_removals
        else m3
      if !pendingRecords.m_sinks.isEmpty || !pendingRecords.m_removals.isEmpty
          || defaultSinkChanged then
        updateSinks S m4 pendingRecords.m_sinks pendingRecords.m_removals
      else m4) := by
  unfold audioDevicesChanged
  simp only [takeFullyResolvedRecords_eq, List.nil_append]

theorem Call.run_cons (S : StdSort) (m : QAudioDeviceMonitor) (c : Call) (cs : List Call) :
    Call.run S m (c :: cs) = Call.run S (Call.step S m c) cs := rfl

/-- The members `updateSourcesOrSinks` writes for sinks. -/
theorem updateSourcesOrSinks_sink_fields (S : StdSort) (m : QAudioDeviceMonitor)
    (addedNodes : List PendingNodeRecord) (removedObjects : List ObjectSerial) :
    (updateSourcesOrSinks S Direction.sink m addedNodes removedObjects).m_objectSerialDict
      = m.m_objectSerialDict ∧
    (updateSourcesOrSinks S Direction.sink m addedNodes removedObjects).m_pendingRecords
      = m.m_pendingRecords ∧
    (updateSourcesOrSinks S Direction.sink m addedNodes removedObjects).m_sources
      = m.m_sources ∧
    (updateSourcesOrSinks S Direction.sink m addedNodes removedObjects).emittedAudioSourcesChanged
      = m.emittedAudioSourcesChanged ∧
    (updateSourcesOrSinks S Direction.sink m addedNodes removedObjects).m_sinks
      = updatedNodes S m.m_sinks addedNodes removedObjects ∧
    ((updateSourcesOrSinks S Direction.sink m addedNodes removedObjects).emittedAudioSinksChanged
        = m.emittedAudioSinksChanged ∨
      (updateSourcesOrSinks S Direction.sink m addedNodes removedObjects).emittedAudioSinksChanged
        = m.emittedAudioSinksChanged
          ++ [newDeviceList S m Direction.sink
                (updatedNodes S m.m_sinks addedNodes removedObjects)]) := by
  rw [updateSourcesOrSinks_sink]
  split
  · exact ⟨rfl, rfl, rfl, rfl, rfl, Or.inl rfl⟩
  · exact ⟨rfl, rfl, rfl, rfl, rfl, Or.inr rfl⟩

/-- The members `updateSourcesOrSinks` writes for sources. -/
theorem updateSourcesOrSinks_source_fields (S : StdSort) (m : QAudioDeviceMonitor)
    (addedNodes : List PendingNodeRecord) (removedObjects : List ObjectSerial) :
    (updateSourcesOrSinks S Direction.source m addedNodes removedObjects).m_objectSerialDict
      = m.m_objectSerialDict ∧
    (updateSourcesOrSinks S Direction.source m addedNodes removedObjects).m_pendingRecords
      = m.m_pendingRecords ∧
    (updateSourcesOrSinks S Direction.source m addedNodes removedObjects).m_sinks
      = m.m_sinks ∧
    (updateSourcesOrSinks S Direction.source m addedNodes removedObjects).emittedAudioSinksChanged
      = m.emittedAudioSinksChanged ∧
    (updateSourcesOrSinks S Direction.source m addedNodes removedObjects).m_sources
      = updatedNodes S m.m_sources addedNodes removedObjects ∧
    ((updateSourcesOrSinks S Direction.source m addedNodes
          removedObjects).emittedAudioSourcesChanged
        = m.emittedAudioSourcesChanged ∨
      (updateSourcesOrSinks S Direction.source m addedNodes
          removedObjects).emittedAudioSourcesChanged
        = m.emittedAudioSourcesChanged
          ++ [newDeviceList S m Direction.source
                (updatedNodes S m.m_sources addedNodes removedObjects)]) := by
  rw [updateSourcesOrSinks_source]
  split
  · exact ⟨rfl, rfl, rfl, rfl, rfl, Or.inl rfl⟩
  · exact ⟨rfl, rfl, rfl, rfl, rfl, Or.inr rfl⟩

/-- What a run of `audioDevicesChanged` leaves of the pending records and of the object
dictionary, and what it does to the node list and to the signals of each direction: either no
removal was pending and the direction is left as it is, or the node list is the updated node
list and at most one signal is emitted, with a device list rebuilt from the updated node
list. -/
theorem audioDevicesChanged_fields (S : StdSort) (m : QAudioDeviceMonitor) :
    (audioDevicesChanged S m).m_objectSerialDict = m.m_objectSerialDict ∧
    (audioDevicesChanged S m).m_pendingRecords.m_sources
      = m.m_pendingRecords.m_sources.filter (fun record => !record.formatFinished) ∧
    (audioDevicesChanged S m).m_pendingRecords.m_sinks
      = m.m_pendingRecords.m_sinks.filter (fun record => !record.formatFinished) ∧
    (audioDevicesChanged S m).m_pendingRecords.m_removals = [] ∧
    ((m.m_pendingRecords.m_removals = [] ∧
        (audioDevicesChanged S m).m_sources = m.m_sources ∧
        (audioDevicesChanged S m).emittedAudioSourcesChanged = m.emittedAudioSourcesChanged) ∨
      ((audioDevicesChanged S m).m_sources
          = updatedNodes S m.m_sources
              (m.m_pendingRecords.m_sources.filter (fun record => record.formatFinished))
              m.m_pendingRecords.m_removals ∧
        ((audioDevicesChanged S m).emittedAudioSourcesChanged = m.emittedAudioSourcesChanged ∨
          ∃ l mx, (audioDevicesChanged S m).emittedAudioSourcesChanged
              = m.emittedAudioSourcesChanged ++ [l] ∧
            l = newDeviceList S mx Direction.source
                  (updatedNodes S m.m_sources
                    (m.m_pendingRecords.m_sources.filter (fun record => record.formatFinished))
                    m.m_pendingRecords.m_removals)))) ∧
    ((m.m_pendingRecords.m_removals = [] ∧
        (audioDevicesChanged S m).m_sinks = m.m_sinks ∧
        (audioDevicesChanged S m).emittedAudioSinksChanged = m.emittedAudioSinksChanged) ∨
      ((audioDevicesChanged S m).m_sinks
          = updatedNodes S m.m_sinks
              (m.m_pendingRecords.m_sinks.filter (fun record => record.formatFinished))
              m.m_pendingRecords.m_removals ∧
        ((audioDevicesChanged S m).emittedAudioSinksChanged = m.emittedAudioSinksChanged ∨
          ∃ l mx, (audioDevicesChanged S m).emittedAudioSinksChanged
              = m.emittedAudioSinksChanged ++ [l] ∧
            l = newDeviceList S mx Direction.sink
                  (updatedNodes S m.m_sinks
                    (m.m_pendingRecords.m_sinks.filter (fun record => record.formatFinished))
                    m.m_pendingRecords.m_removals)))) := by
  -- the monitor before the two updates
  obtain ⟨m3, hm3, hdict, hpend, hsrc, hsnk, hes, hek⟩ :
      ∃ m3 : QAudioDeviceMonitor,
        audioDevicesChanged S m
          = (let m4 :=
              if (!(m.m_pendingRecords.m_sources.filter
                      (fun record => record.formatFinished)).isEmpty
                  || !m.m_pendingRecords.m_removals.isEmpty
                  || m.m_pendingRecords.m_defaultSource.isSome) = true then
                updateSourcesOrSinks S Direction.source m3
                  (m.m_pendingRecords.m_sources.filter (fun record => record.formatFinished))
                  m.m_pendingRecords.m_removals
              else m3
             if (!(m.m_pendingRecords.m_sinks.filter
                      (fun record => record.formatFinished)).isEmpty
                  || !m.m_pendingRecords.m_removals.isEmpty
                  || m.m_pendingRecords.m_defaultSink.isSome) = true then
               updateSourcesOrSinks S Direction.sink m4
                 (m.m_pendingRecords.m_sinks.filter (fun record => record.formatFinished))
                 m.m_pendingRecords.m_removals
             else m4) ∧
        m3.m_objectSerialDict = m.m_objectSerialDict ∧
        m3.m_pendingRecords
          = { m_removals := [], m_defaultSource := none, m_defaultSink := none,
              m_sources := m.m_pendingRecords.m_sources.filter
                (fun record => !record.formatFinished),
              m_sinks := m.m_pendingRecords.m_sinks.filter
                (fun record => !record.formatFinished) } ∧
        m3.m_sources = m.m_sources ∧ m3.m_sinks = m.m_sinks ∧
        m3.emittedAudioSourcesChanged = m.emittedAudioSourcesChanged ∧
        m3.emittedAudioSinksChanged = m.emittedAudioSinksChanged := by
    refine ⟨_, (audioDevicesChanged_eq S m).trans rfl, ?_, ?_, ?_, ?_, ?_, ?_⟩ <;>
      (cases m.m_pendingRecords.m_defaultSource <;> cases m.m_pendingRecords.m_defaultSink <;>
        rfl)
  rw [hm3]
  simp only []
  have hrem : ∀ (a b : Bool), ¬ ((a || !m.m_pendingRecords.m_removals.isEmpty || b) = true) →
      m.m_pendingRecords.m_removals = [] := by
    intro a b h
    cases hr : m.m_pendingRecords.m_removals with
    | nil => rfl
    | cons x xs =>
      rw [hr] at h
      simp at h
  by_cases h0 : (!(m.m_pendingRecords.m_sources.filter
                      (fun record => record.formatFinished)).isEmpty
                  || !m.m_pendingRecords.m_removals.isEmpty
                  || m.m_pendingRecords.m_defaultSource.isSome) = true
  · rw [if_pos h0]
    obtain ⟨a1, a2, a3, a4, a5, a6⟩ := updateSourcesOrSinks_source_fields S m3
      (m.m_pendingRecords.m_sources.filter (fun record => record.formatFinished))
      m.m_pendingRecords.m_removals
    rw [hsrc] at a5
    rw [hes, hsrc] at a6
    have hsrcs : ∀ mx : QAudioDeviceMonitor,
        mx.m_sources = (updateSourcesOrSinks S Direction.source m3
            (m.m_pendingRecords.m_sources.filter (fun record => record.formatFinished))
            m.m_pendingRecords.m_removals).m_sources →
        mx.emittedAudioSourcesChanged = (updateSourcesOrSinks S Direction.source m3
            (m.m_pendingRecords.m_sources.filter (fun record => record.formatFinished))
            m.m_pendingRecords.m_removals).emittedAudioSourcesChanged →
        ((m.m_pendingRecords.m_removals = [] ∧ mx.m_sources = m.m_sources ∧
            mx.emittedAudioSourcesChanged = m.emittedAudioSourcesChanged) ∨
          (mx.m_sources
              = updatedNodes S m.m_sources
                  (m.m_pendingRecords.m_sources.filter (fun record => record.formatFinished))
                  m.m_pendingRecords.m_removals ∧
            (mx.emittedAudioSourcesChanged = m.emittedAudioSourcesChanged ∨
              ∃ l my, mx.emittedAudioSourcesChanged = m.emittedAudioSourcesChanged ++ [l] ∧
                l = newDeviceList S my Direction.source
                      (updatedNodes S m.m_sources
                        (m.m_pendingRecords.m_sources.filter
                          (fun record => record.formatFinished))
                        m.m_pendingRecords.m_removals)))) := by
      intro mx e1 e2
      refine Or.inr ⟨e1.trans a5, ?_⟩
      rcases a6 with a6 | a6
      · exact Or.inl (e2.trans a6)
      · exact Or.inr ⟨_, m3, e2.trans a6, rfl⟩
    by_cases h1 : (!(m.m_pendingRecords.m_sinks.filter
                      (fun record => record.formatFinished)).isEmpty
                  || !m.m_pendingRecords.m_removals.isEmpty
                  || m.m_pendingRecords.m_defaultSink.isSome) = true
    · rw [if_pos h1]
      obtain ⟨b1, b2, b3, b4, b5, b6⟩ := updateSourcesOrSinks_sink_fields S
        (updateSourcesOrSinks S Direction.source m3
          (m.m_pendingRecords.m_sources.filter (fun record => record.formatFinished))
          m.m_pendingRecords.m_removals)
        (m.m_pendingRecords.m_sinks.filter (fun record => record.formatFinished))
        m.m_pendingRecords.m_removals
      rw [a3, hsnk] at b5
      rw [a4, hek, a3, hsnk] at b6
      refine ⟨by rw [b1, a1, hdict], by rw [b2, a2, hpend], by rw [b2, a2, hpend],
        by rw [b2, a2, hpend], hsrcs _ b3 b4, Or.inr ⟨b5, ?_⟩⟩
      rcases b6 with b6 | b6
      · exact Or.inl b6
      · exact Or.inr ⟨_, _, b6, rfl⟩
    · rw [if_neg h1]
      refine ⟨by rw [a1, hdict], by rw [a2, hpend], by rw [a2, hpend], by rw [a2, hpend],
        hsrcs _ rfl rfl, Or.inl ⟨hrem _ _ h1, by rw [a3, hsnk], by rw [a4, hek]⟩⟩
  · rw [if_neg h0]
    by_cases h1 : (!(m.m_pendingRecords.m_sinks.filter
                      (fun record => record.formatFinished)).isEmpty
                  || !m.m_pendingRecords.m_removals.isEmpty
                  || m.m_pendingRecords.m_defaultSink.isSome) = true
    · rw [if_pos h1]
      obtain ⟨b1, b2, b3, b4, b5, b6⟩ := updateSourcesOrSinks_sink_fields S m3
        (m.m_pendingRecords.m_sinks.filter (fun record => record.formatFinished))
        m.m_pendingRecords.m_removals
      rw [hsnk] at b5
      rw [hek, hsnk] at b6
      refine ⟨by rw [b1, hdict], by rw [b2, hpend], by rw [b2, hpend], by rw [b2, hpend],
        Or.inl ⟨hrem _ _ h0, by rw [b3, hsrc], by rw [b4, hes]⟩, Or.inr ⟨b5, ?_⟩⟩
      rcases b6 with b6 | b6
      · exact Or.inl b6
      · exact Or.inr ⟨_, _, b6, rfl⟩
    · rw [if_neg h1]
      exact ⟨hdict, by rw [hpend], by rw [hpend], by rw [hpend],
        Or.inl ⟨hrem _ _ h0, hsrc, hes⟩, Or.inl ⟨hrem _ _ h1, hsnk, hek⟩⟩

/-- The nodes that survive the loop over the removed objects are the nodes of the list that
concern none of the removed objects. -/
theorem eraseRemovedObjects_mem (record : NodeRecord) : ∀ (removedObjects : List ObjectSerial)
    (nodes : List NodeRecord),
    record ∈ eraseRemovedObjects nodes removedObjects
      ↔ record ∈ nodes ∧ ∀ id ∈ removedObjects, ¬ nodeConcerns record id := by
  intro removedObjects
  induction removedObjects with
  | nil =>
    intro nodes
    simp [eraseRemovedObjects]
  | cons id rest ih =>
    intro nodes
    have hstep : eraseRemovedObjects nodes (id :: rest)
        = eraseRemovedObjects
            (nodes.filter (fun record =>
              !(decide (record.serial = id) || decide (record.deviceSerial = some id))))
            rest := rfl
    rw [hstep, ih]
    simp only [List.mem_filter, Bool.not_eq_true', Bool.or_eq_false_iff, decide_eq_false_iff_not,
      List.mem_cons, forall_eq_or_imp, nodeConcerns, not_or]
    tauto

/-- A node of the list after one round of the loop over the added nodes was in the list before
or carries the serial and the device serial of the added node. -/
theorem addResolvedNode_mem (S : StdSort) (nodes : List NodeRecord) (added : PendingNodeRecord)
    (record : NodeRecord) (h : record ∈ addResolvedNode S nodes added) :
    record ∈ nodes ∨ (record.serial = added.serial ∧ record.deviceSerial = added.deviceSerial) := by
  unfold addResolvedNode at h
  split at h
  · exact Or.inl h
  · rw [List.mem_append, List.mem_singleton] at h
    rcases h with h | h
    · exact Or.inl h
    · subst h
      exact Or.inr ⟨rfl, rfl⟩

theorem foldl_addResolvedNode_mem (S : StdSort) (record : NodeRecord) :
    ∀ (addedNodes : List PendingNodeRecord) (nodes : List NodeRecord),
    record ∈ addedNodes.foldl (addResolvedNode S) nodes →
    record ∈ nodes ∨ ∃ added ∈ addedNodes,
      record.serial = added.serial ∧ record.deviceSerial = added.deviceSerial := by
  intro addedNodes
  induction addedNodes with
  | nil =>
    intro nodes h
    exact Or.inl h
  | cons a rest ih =>
    intro nodes h
    rw [List.foldl_cons] at h
    rcases ih _ h with h1 | ⟨added, hmem, hs⟩
    · rcases addResolvedNode_mem S nodes a record h1 with h2 | h2
      · exact Or.inl h2
      · exact Or.inr ⟨a, List.mem_cons_self _ _, h2⟩
    · exact Or.inr ⟨added, List.mem_cons_of_mem _ hmem, hs⟩

/-- The updated node list holds no node that concerns `s` when `s` is among the removed
objects or the node list held no such node, and no added node concerns `s`. -/
theorem updatedNodes_clean (S : StdSort) (s : ObjectSerial) (nodes : List NodeRecord)
    (addedNodes : List PendingNodeRecord) (removedObjects : List ObjectSerial)
    (hold : s ∈ removedObjects ∨ ∀ record ∈ nodes, ¬ nodeConcerns record s)
    (hadd : ∀ added ∈ addedNodes, ¬ pendingConcerns added s) :
    ∀ record ∈ updatedNodes S nodes addedNodes removedObjects, ¬ nodeConcerns record s := by
  intro record hmem
  unfold updatedNodes at hmem
  rcases foldl_addResolvedNode_mem S record addedNodes _ hmem with h | ⟨added, ha, hs, hd⟩
  · rw [eraseRemovedObjects_mem] at h
    rcases hold with hold | hold
    · exact h.2 s hold
    · exact hold record h.1
  · intro hc
    apply hadd added ha
    unfold nodeConcerns at hc
    unfold pendingConcerns
    rw [← hs, ← hd]
    exact hc

theorem addPendingNode_rest (m : QAudioDeviceMonitor) (sources : Bool) (serial : ObjectSerial)
    (props : PwPropertyDict) :
    (addPendingNode m sources serial props).m_sources = m.m_sources ∧
    (addPendingNode m sources serial props).m_sinks = m.m_sinks ∧
    (addPendingNode m sources serial props).emittedAudioSourcesChanged
      = m.emittedAudioSourcesChanged ∧
    (addPendingNode m sources serial props).emittedAudioSinksChanged
      = m.emittedAudioSinksChanged ∧
    (addPendingNode m sources serial props).m_pendingRecords.m_removals
      = m.m_pendingRecords.m_removals ∧
    (∀ record ∈ (addPendingNode m sources serial props).m_pendingRecords.m_sources,
      record ∈ m.m_pendingRecords.m_sources ∨
        (record.serial = serial ∧
          (record.deviceSerial = none ∨ ∃ d, record.deviceSerial = findObjectSerial m d))) ∧
    (∀ record ∈ (addPendingNode m sources serial props).m_pendingRecords.m_sinks,
      record ∈ m.m_pendingRecords.m_sinks ∨
        (record.serial = serial ∧
          (record.deviceSerial = none ∨ ∃ d, record.deviceSerial = findObjectSerial m d))) := by
  have hkeep : (m.m_sources = m.m_sources ∧ m.m_sinks = m.m_sinks ∧
      m.emittedAudioSourcesChanged = m.emittedAudioSourcesChanged ∧
      m.emittedAudioSinksChanged = m.emittedAudioSinksChanged ∧
      m.m_pendingRecords.m_removals = m.m_pendingRecords.m_removals ∧
      (∀ record ∈ m.m_pendingRecords.m_sources,
        record ∈ m.m_pendingRecords.m_sources ∨
          (record.serial = serial ∧
            (record.deviceSerial = none ∨ ∃ d, record.deviceSerial = findObjectSerial m d))) ∧
      (∀ record ∈ m.m_pendingRecords.m_sinks,
        record ∈ m.m_pendingRecords.m_sinks ∨
          (record.serial = serial ∧
            (record.deviceSerial = none ∨ ∃ d, record.deviceSerial = findObjectSerial m d)))) :=
    ⟨rfl, rfl, rfl, rfl, rfl, fun _ h => Or.inl h, fun _ h => Or.inl h⟩
  have hnew : ∀ record : PendingNodeRecord,
      record = { serial := serial,
                 deviceSerial := (match props.deviceId with
                    | some deviceId => findObjectSerial m deviceId
                    | none => none),
                 properties := props, formatFinished := false, formatResults := [] } →
      (record.serial = serial ∧
        (record.deviceSerial = none ∨ ∃ d, record.deviceSerial = findObjectSerial m d)) := by
    intro record hrec
    subst hrec
    refine ⟨rfl, ?_⟩
    cases props.deviceId with
    | none => exact Or.inl rfl
    | some d => exact Or.inr ⟨d, rfl⟩
  unfold addPendingNode
  split
  · exact hkeep
  · split
    · exact hkeep
    · simp only []
      split
      · exact hkeep
      · split
        · refine ⟨rfl, rfl, rfl, rfl, rfl, ?_, fun _ h => Or.inl h⟩
          intro record hmem
          simp only [List.mem_append, List.mem_singleton] at hmem
          rcases hmem with hmem | hmem
          · exact Or.inl hmem
          · exact Or.inr (hnew record hmem)
        · refine ⟨rfl, rfl, rfl, rfl, rfl, fun _ h => Or.inl h, ?_⟩
          intro record hmem
          simp only [List.mem_append, List.mem_singleton] at hmem
          rcases hmem with hmem | hmem
          · exact Or.inl hmem
          · exact Or.inr (hnew record hmem)

/-- What the addition of an object with a media class and the serial `serial` leaves as it
is, and which pending nodes it may add. -/
theorem objectAdded_rest (m : QAudioDeviceMonitor) (id : ObjectId)
    (objectType : PipewireRegistryType) (props : PwPropertyDict) (mc : String)
    (serial : ObjectSerial) (hmc : props.mediaClass = some mc)
    (hs : props.objectSerial = some serial) :
    (objectAdded m id objectType props).m_sources = m.m_sources ∧
    (objectAdded m id objectType props).m_sinks = m.m_sinks ∧
    (objectAdded m id objectType props).emittedAudioSourcesChanged
      = m.emittedAudioSourcesChanged ∧
    (objectAdded m id objectType props).emittedAudioSinksChanged
      = m.emittedAudioSinksChanged ∧
    (objectAdded m id objectType props).m_pendingRecords.m_removals
      = m.m_pendingRecords.m_removals ∧
    (∀ record ∈ (objectAdded m id objectType props).m_pendingRecords.m_sources,
      record ∈ m.m_pendingRecords.m_sources ∨
        (record.serial = serial ∧
          (record.deviceSerial = none ∨
            ∃ d, record.deviceSerial
              = dictFind (dictEmplace m.m_objectSerialDict id serial) d))) ∧
    (∀ record ∈ (objectAdded m id objectType props).m_pendingRecords.m_sinks,
      record ∈ m.m_pendingRecords.m_sinks ∨
        (record.serial = serial ∧
          (record.deviceSerial = none ∨
            ∃ d, record.deviceSerial
              = dictFind (dictEmplace m.m_objectSerialDict id serial) d))) := by
  unfold objectAdded
  rw [hmc, hs]
  simp only []
  cases objectType with
  | Device =>
    simp only []
    split
    · exact ⟨rfl, rfl, rfl, rfl, rfl, fun _ h => Or.inl h, fun _ h => Or.inl h⟩
    · exact ⟨rfl, rfl, rfl, rfl, rfl, fun _ h => Or.inl h, fun _ h => Or.inl h⟩
  | Node =>
    simp only []
    split
    · exact addPendingNode_rest _ true serial props
    · split
      · exact addPendingNode_rest _ false serial props
      · exact ⟨rfl, rfl, rfl, rfl, rfl, fun _ h => Or.inl h, fun _ h => Or.inl h⟩
  | Other => exact ⟨rfl, rfl, rfl, rfl, rfl, fun _ h => Or.inl h, fun _ h => Or.inl h⟩

/-- What the removal of a tracked object with the serial `serial` does to the pending records
and what it leaves as it is. -/
theorem objectRemoved_rest (m : QAudioDeviceMonitor) (id : ObjectId) (serial : ObjectSerial)
    (h : findObjectSerial m id = some serial) :
    (objectRemoved m id).m_sources = m.m_sources ∧
    (objectRemoved m id).m_sinks = m.m_sinks ∧
    (objectRemoved m id).emittedAudioSourcesChanged = m.emittedAudioSourcesChanged ∧
    (objectRemoved m id).emittedAudioSinksChanged = m.emittedAudioSinksChanged ∧
    (objectRemoved m id).m_pendingRecords.m_removals
      = m.m_pendingRecords.m_removals ++ [serial] ∧
    (objectRemoved m id).m_pendingRecords.m_sources
      = m.m_pendingRecords.m_sources.filter
          (fun record =>
            !(decide (record.serial = serial) || decide (record.deviceSerial = some serial))) ∧
    (objectRemoved m id).m_pendingRecords.m_sinks
      = m.m_pendingRecords.m_sinks.filter
          (fun record =>
            !(decide (record.serial = serial) || decide (record.deviceSerial = some serial))) := by
  unfold objectRemoved
  rw [h]
  simp [startCompressionTimer_eq, PendingRecords.removeRecordsForObject]

/-- The records of a filtered list of pending nodes that concern nothing they did not concern
before. -/
theorem pending_filter_clean (s : ObjectSerial) (l : List PendingNodeRecord)
    (p : PendingNodeRecord → Bool) (h : ∀ record ∈ l, ¬ pendingConcerns record s) :
    ∀ record ∈ l.filter p, ¬ pendingConcerns record s :=
  fun record hmem => h record (List.mem_of_mem_filter hmem)

theorem pending_map_clean (s : ObjectSerial) (l : List PendingNodeRecord)
    (f : PendingNodeRecord → PendingNodeRecord)
    (hf : ∀ record, (f record).serial = record.serial ∧
      (f record).deviceSerial = record.deviceSerial)
    (h : ∀ record ∈ l, ¬ pendingConcerns record s) :
    ∀ record ∈ l.map f, ¬ pendingConcerns record s := by
  intro record hmem
  rw [List.mem_map] at hmem
  obtain ⟨r0, hr0, hfr⟩ := hmem
  subst hfr
  intro hc
  apply h r0 hr0
  unfold pendingConcerns at hc ⊢
  rw [(hf r0).1, (hf r0).2] at hc
  exact hc

/-- The removal of the tracked object with serial `s` makes the monitor forget `s`, provided
no other object id stands for `s`. -/
theorem forgets_removed (m : QAudioDeviceMonitor) (id : ObjectId) (s : ObjectSerial)
    (h : findObjectSerial m id = some s) (hother : ∀ j, j ≠ id → findObjectSerial m j ≠ some s) :
    Forgets s (objectRemoved m id) := by
  obtain ⟨r1, r2, r3, r4, r5, r6, r7⟩ := objectRemoved_rest m id s h
  obtain ⟨f1, _, _, _⟩ := objectRemoved_fields m id s h
  refine ⟨?_, ?_, ?_, ?_⟩
  · intro j
    unfold findObjectSerial
    rw [f1, dictFind_erase]
    split
    · exact fun hh => Option.noConfusion hh
    · rename_i hne
      exact hother j (fun hj => hne hj.symm)
  · intro record hmem
    rw [r6, List.mem_filter] at hmem
    simpa [pendingConcerns] using hmem.2
  · intro record hmem
    rw [r7, List.mem_filter] at hmem
    simpa [pendingConcerns] using hmem.2
  · left
    rw [r5]
    exact List.mem_append_right _ (List.mem_singleton_self _)

/-- A monitor that agrees with a monitor that has forgotten `s` on the object dictionary, the
pending records and the node lists has forgotten `s` as well. -/
theorem forgets_congr {s : ObjectSerial} {m m1 : QAudioDeviceMonitor} (h : Forgets s m)
    (h1 : m1.m_objectSerialDict = m.m_objectSerialDict)
    (h2 : m1.m_pendingRecords.m_sources = m.m_pendingRecords.m_sources)
    (h3 : m1.m_pendingRecords.m_sinks = m.m_pendingRecords.m_sinks)
    (h4 : m1.m_pendingRecords.m_removals = m.m_pendingRecords.m_removals)
    (h5 : m1.m_sources = m.m_sources) (h6 : m1.m_sinks = m.m_sinks) :
    Forgets s m1 := by
  unfold Forgets at h ⊢
  unfold findObjectSerial at h ⊢
  rw [h1, h2, h3, h4, h5, h6]
  exact h

/-- A monitor that has forgotten `s` keeps it forgotten over every call that does not add an
object with the serial `s`; after a run of `audioDevicesChanged` the node lists hold no node
that concerns `s`. -/
theorem forgets_step (S : StdSort) {s : ObjectSerial} {m : QAudioDeviceMonitor}
    (h : Forgets s m) (c : Call) (hc : ¬ Call.addsSerial s c) :
    Forgets s (Call.step S m c) ∧
    (c = Call.timeout → m.m_compressionTimerActive = true →
      (∀ record ∈ (Call.step S m c).m_sources, ¬ nodeConcerns record s) ∧
      (∀ record ∈ (Call.step S m c).m_sinks, ¬ nodeConcerns record s)) := by
  cases c with
  | registry e =>
    refine ⟨?_, fun hh => Call.noConfusion hh⟩
    cases e with
    | objectAdded id ty props =>
      simp only [Call.addsSerial, Event.addsSerial] at hc
      simp only [Call.step, QAudioDeviceMonitor.step]
      cases hmc : props.mediaClass with
      | none => rw [objectAdded_untracked m id ty props (Or.inl hmc)]; exact h
      | some mc =>
        cases hs : props.objectSerial with
        | none => rw [objectAdded_untracked m id ty props (Or.inr hs)]; exact h
        | some t =>
          have hts : t ≠ s := fun hh => hc (by rw [hs, hh])
          obtain ⟨f1, _, _, _⟩ := objectAdded_fields m id ty props mc t hmc hs
          obtain ⟨r1, r2, r3, r4, r5, r6, r7⟩ := objectAdded_rest m id ty props mc t hmc hs
          obtain ⟨p1, p2, p3, p4⟩ := h
          have hdict : ∀ j, dictFind (dictEmplace m.m_objectSerialDict id t) j ≠ some s := by
            intro j hj
            rcases dictFind_emplace_cases _ _ _ _ _ hj with hj1 | ⟨_, hj2⟩
            · exact p1 j hj1
            · exact hts hj2.symm
          have hnew : ∀ record : PendingNodeRecord,
              (record.serial = t ∧
                (record.deviceSerial = none ∨
                  ∃ d, record.deviceSerial
                    = dictFind (dictEmplace m.m_objectSerialDict id t) d)) →
              ¬ pendingConcerns record s := by
            intro record hrec hcon
            rcases hcon with hcon | hcon
            · exact hts (hrec.1.symm.trans hcon)
            · rcases hrec.2 with hd | ⟨d, hd⟩
              · rw [hd] at hcon
                exact Option.noConfusion hcon
              · exact hdict d (hd.symm.trans hcon)
          refine ⟨?_, ?_, ?_, ?_⟩
          · intro j
            unfold findObjectSerial
            rw [f1]
            exact hdict j
          · intro record hmem
            rcases r6 record hmem with hold | hrec
            · exact p2 record hold
            · exact hnew record hrec
          · intro record hmem
            rcases r7 record hmem with hold | hrec
            · exact p3 record hold
            · exact hnew record hrec
          · rw [r5, r1, r2]
            exact p4
    | objectRemoved id =>
      simp only [Call.step, QAudioDeviceMonitor.step]
      cases ht : findObjectSerial m id with
      | none => rw [objectRemoved_untracked m id ht]; exact h
      | some t =>
        obtain ⟨f1, _, _, _⟩ := objectRemoved_fields m id t ht
        obtain ⟨r1, r2, r3, r4, r5, r6, r7⟩ := objectRemoved_rest m id t ht
        obtain ⟨p1, p2, p3, p4⟩ := h
        refine ⟨?_, ?_, ?_, ?_⟩
        · intro j
          unfold findObjectSerial
          rw [f1, dictFind_erase]
          split
          · exact fun hh => Option.noConfusion hh
          · exact p1 j
        · rw [r6]
          exact pending_filter_clean s _ _ p2
        · rw [r7]
          exact pending_filter_clean s _ _ p3
        · rw [r5, r1, r2]
          rcases p4 with p4 | p4
          · exact Or.inl (List.mem_append_left _ p4)
          · exact Or.inr p4
    | registerObserver o =>
      simp only [Call.step, QAudioDeviceMonitor.step, registerObserver]
      split
      · exact h
      · exact forgets_congr h rfl rfl rfl rfl rfl rfl
    | unregisterObserver o =>
      exact forgets_congr h rfl rfl rfl rfl rfl rfl
  | formatParam serial format =>
    refine ⟨?_, fun hh => Call.noConfusion hh⟩
    obtain ⟨p1, p2, p3, p4⟩ := h
    refine ⟨p1, ?_, ?_, p4⟩
    · exact pending_map_clean s _ _ (fun record => by split <;> exact ⟨rfl, rfl⟩) p2
    · exact pending_map_clean s _ _ (fun record => by split <;> exact ⟨rfl, rfl⟩) p3
  | formatDone serial =>
    refine ⟨?_, fun hh => Call.noConfusion hh⟩
    simp only [Call.step, QAudioDeviceMonitor.formatDone]
    split
    · rw [startCompressionTimer_eq]
      obtain ⟨p1, p2, p3, p4⟩ := h
      refine ⟨p1, ?_, ?_, p4⟩
      · exact pending_map_clean s _ _ (fun record => by split <;> exact ⟨rfl, rfl⟩) p2
      · exact pending_map_clean s _ _ (fun record => by split <;> exact ⟨rfl, rfl⟩) p3
    · exact h
  | setDefaultAudioSink d =>
    refine ⟨?_, fun hh => Call.noConfusion hh⟩
    simp only [Call.step, QAudioDeviceMonitor.setDefaultAudioSink, startCompressionTimer_eq]
    exact forgets_congr h rfl rfl rfl rfl rfl rfl
  | setDefaultAudioSource d =>
    refine ⟨?_, fun hh => Call.noConfusion hh⟩
    simp only [Call.step, QAudioDeviceMonitor.setDefaultAudioSource, startCompressionTimer_eq]
    exact forgets_congr h rfl rfl rfl rfl rfl rfl
  | timeout =>
    simp only [Call.step, compressionTimeout]
    split
    · have h0 : Forgets s { m with m_compressionTimerActive := false } :=
        forgets_congr h rfl rfl rfl rfl rfl rfl
      obtain ⟨p1, p2, p3, p4⟩ := h0
      obtain ⟨a1, a2, a3, a4, a5, a6⟩ :=
        audioDevicesChanged_fields S { m with m_compressionTimerActive := false }
      have hsrcClean : ∀ record ∈
          updatedNodes S m.m_sources
            (m.m_pendingRecords.m_sources.filter (fun record => record.formatFinished))
            m.m_pendingRecords.m_removals, ¬ nodeConcerns record s :=
        updatedNodes_clean S s _ _ _
          (p4.imp (fun x => x) (fun x => x.1)) (pending_filter_clean s _ _ p2)
      have hsnkClean : ∀ record ∈
          updatedNodes S m.m_sinks
            (m.m_pendingRecords.m_sinks.filter (fun record => record.formatFinished))
            m.m_pendingRecords.m_removals, ¬ nodeConcerns record s :=
        updatedNodes_clean S s _ _ _
          (p4.imp (fun x => x) (fun x => x.2)) (pending_filter_clean s _ _ p3)
      have hnodes : ∀ record ∈ m.m_sources, m.m_pendingRecords.m_removals = [] →
          ¬ nodeConcerns record s := by
        intro record hmem hnil
        rcases p4 with p4 | p4
        · rw [show ({ m with m_compressionTimerActive := false } :
            QAudioDeviceMonitor).m_pendingRecords.m_removals = m.m_pendingRecords.m_removals
            from rfl, hnil] at p4
          exact absurd p4 (List.not_mem_nil _)
        · exact p4.1 record hmem
      have hnodes2 : ∀ record ∈ m.m_sinks, m.m_pendingRecords.m_removals = [] →
          ¬ nodeConcerns record s := by
        intro record hmem hnil
        rcases p4 with p4 | p4
        · rw [show ({ m with m_compressionTimerActive := false } :
            QAudioDeviceMonitor).m_pendingRecords.m_removals = m.m_pendingRecords.m_removals
            from rfl, hnil] at p4
          exact absurd p4 (List.not_mem_nil _)
        · exact p4.2 record hmem
      have hsrc : ∀ record ∈
          (audioDevicesChanged S { m with m_compressionTimerActive := false }).m_sources,
          ¬ nodeConcerns record s := by
        rcases a5 with ⟨hnil, hsame, _⟩ | ⟨hupd, _⟩
        · rw [hsame]
          exact fun record hmem => hnodes record hmem hnil
        · rw [hupd]
          exact hsrcClean
      have hsnk : ∀ record ∈
          (audioDevicesChanged S { m with m_compressionTimerActive := false }).m_sinks,
          ¬ nodeConcerns record s := by
        rcases a6 with ⟨hnil, hsame, _⟩ | ⟨hupd, _⟩
        · rw [hsame]
          exact fun record hmem => hnodes2 record hmem hnil
        · rw [hupd]
          exact hsnkClean
      refine ⟨⟨?_, ?_, ?_, Or.inr ⟨hsrc, hsnk⟩⟩, fun _ _ => ⟨hsrc, hsnk⟩⟩
      · intro j
        unfold findObjectSerial
        rw [a1]
        exact p1 j
      · rw [a2]
        exact pending_filter_clean s _ _ p2
      · rw [a3]
        exact pending_filter_clean s _ _ p3
    · rename_i hidle
      refine ⟨h, fun _ hactive => ?_⟩
      exact absurd hactive hidle

theorem forgets_run (S : StdSort) {s : ObjectSerial} :
    ∀ (calls : List Call) {m : QAudioDeviceMonitor},
    Forgets s m → (∀ c ∈ calls, ¬ Call.addsSerial s c) →
    Forgets s (Call.run S m calls) := by
  intro calls
  induction calls with
  | nil =>
    intro m h _
    exact h
  | cons c cs ih =>
    intro m h hc
    rw [Call.run_cons]
    exact ih (forgets_step S h c (hc c (List.mem_cons_self _ _))).1
      (fun d hd => hc d (List.mem_cons_of_mem _ hd))

theorem addPendingNode_lists (m : QAudioDeviceMonitor) (sources : Bool) (serial : ObjectSerial)
    (props : PwPropertyDict) :
    (addPendingNode m sources serial props).m_sourceDeviceList = m.m_sourceDeviceList ∧
    (addPendingNode m sources serial props).m_sinkDeviceList = m.m_sinkDeviceList ∧
    (addPendingNode m sources serial props).emittedAudioSourcesChanged
      = m.emittedAudioSourcesChanged ∧
    (addPendingNode m sources serial props).emittedAudioSinksChanged
      = m.emittedAudioSinksChanged := by
  unfold addPendingNode
  split
  · exact ⟨rfl, rfl, rfl, rfl⟩
  · split
    · exact ⟨rfl, rfl, rfl, rfl⟩
    · simp only []
      split
      · exact ⟨rfl, rfl, rfl, rfl⟩
      · split <;> exact ⟨rfl, rfl, rfl, rfl⟩

theorem objectAdded_lists (m : QAudioDeviceMonitor) (id : ObjectId)
    (objectType : PipewireRegistryType) (props : PwPropertyDict) :
    (objectAdded m id objectType props).m_sourceDeviceList = m.m_sourceDeviceList ∧
    (objectAdded m id objectType props).m_sinkDeviceList = m.m_sinkDeviceList ∧
    (objectAdded m id objectType props).emittedAudioSourcesChanged
      = m.emittedAudioSourcesChanged ∧
    (objectAdded m id objectType props).emittedAudioSinksChanged
      = m.emittedAudioSinksChanged := by
  unfold objectAdded
  split
  · exact ⟨rfl, rfl, rfl, rfl⟩
  · split
    · exact ⟨rfl, rfl, rfl, rfl⟩
    · simp only []
      split
      · split <;> exact ⟨rfl, rfl, rfl, rfl⟩
      · split
        · exact addPendingNode_lists _ _ _ _
        · split
          · exact addPendingNode_lists _ _ _ _
          · exact ⟨rfl, rfl, rfl, rfl⟩
      · exact ⟨rfl, rfl, rfl, rfl⟩

/-- Every call other than the timeout of the compression timer leaves the published device
lists and the emitted change signals as they are. -/
theorem Call.step_lists (S : StdSort) (m : QAudioDeviceMonitor) (c : Call)
    (hc : c ≠ Call.timeout) :
    (Call.step S m c).m_sourceDeviceList = m.m_sourceDeviceList ∧
    (Call.step S m c).m_sinkDeviceList = m.m_sinkDeviceList ∧
    (Call.step S m c).emittedAudioSourcesChanged = m.emittedAudioSourcesChanged ∧
    (Call.step S m c).emittedAudioSinksChanged = m.emittedAudioSinksChanged := by
  cases c with
  | registry e =>
    cases e with
    | objectAdded id ty props => exact objectAdded_lists m id ty props
    | objectRemoved id =>
      simp only [Call.step, QAudioDeviceMonitor.step, objectRemoved]
      split
      · exact ⟨rfl, rfl, rfl, rfl⟩
      · rw [startCompressionTimer_eq]
        exact ⟨rfl, rfl, rfl, rfl⟩
    | registerObserver o =>
      simp only [Call.step, QAudioDeviceMonitor.step, registerObserver]
      split <;> exact ⟨rfl, rfl, rfl, rfl⟩
    | unregisterObserver o => exact ⟨rfl, rfl, rfl, rfl⟩
  | formatParam serial format => exact ⟨rfl, rfl, rfl, rfl⟩
  | formatDone serial =>
    simp only [Call.step, QAudioDeviceMonitor.formatDone]
    split
    · rw [startCompressionTimer_eq]
      exact ⟨rfl, rfl, rfl, rfl⟩
    · exact ⟨rfl, rfl, rfl, rfl⟩
  | setDefaultAudioSink d =>
    simp [Call.step, QAudioDeviceMonitor.setDefaultAudioSink, startCompressionTimer_eq]
  | setDefaultAudioSource d =>
    simp [Call.step, QAudioDeviceMonitor.setDefaultAudioSource, startCompressionTimer_eq]
  | timeout => exact absurd rfl hc

/-- Every device of a rebuilt device list is created from a node of the node list. -/
theorem newDeviceList_mem (S : StdSort) (hS : S.Permutes) (m : QAudioDeviceMonitor)
    (mode : Direction) (nodes : List NodeRecord) :
    ∀ d ∈ newDeviceList S m mode nodes, ∃ record ∈ nodes,
      d = createDevice m
            (if mode = Direction.sink then m.m_defaultSinkName else m.m_defaultSourceName)
            record := by
  intro d hd
  unfold newDeviceList at hd
  have hd2 := (hS.2 _).subset hd
  rw [List.mem_map] at hd2
  obtain ⟨record, hr, hrd⟩ := hd2
  exact ⟨record, hr, hrd.symm⟩

/-- The function `updateSourcesOrSinks` republishes the list of its direction and leaves the
other direction, the devices and the default names as they are. -/
theorem updateSourcesOrSinks_republishes (S : StdSort) (mode : Direction)
    (m : QAudioDeviceMonitor) (addedNodes : List PendingNodeRecord)
    (removedObjects : List ObjectSerial) :
    Republishes S mode m (updateSourcesOrSinks S mode m addedNodes removedObjects) ∧
    (∀ other, other ≠ mode →
      emittedLists (updateSourcesOrSinks S mode m addedNodes removedObjects) other
        = emittedLists m other ∧
      publishedList (updateSourcesOrSinks S mode m addedNodes removedObjects) other
        = publishedList m other ∧
      nodeList (updateSourcesOrSinks S mode m addedNodes removedObjects) other
        = nodeList m other) ∧
    (updateSourcesOrSinks S mode m addedNodes removedObjects).m_devices = m.m_devices ∧
    (updateSourcesOrSinks S mode m addedNodes removedObjects).m_defaultSinkName
      = m.m_defaultSinkName ∧
    (updateSourcesOrSinks S mode m addedNodes removedObjects).m_defaultSourceName
      = m.m_defaultSourceName := by
  cases mode with
  | sink =>
    rw [updateSourcesOrSinks_sink]
    split
    · refine ⟨Or.inl ⟨rfl, rfl⟩, ?_, rfl, rfl, rfl⟩
      intro other hother
      cases other with
      | sink => exact absurd rfl hother
      | source => exact ⟨rfl, rfl, rfl⟩
    · refine ⟨Or.inr ⟨rfl, ?_⟩, ?_, rfl, rfl, rfl⟩
      · exact (newDeviceList_congr S m _ Direction.sink _ rfl rfl rfl).symm
      · intro other hother
        cases other with
        | sink => exact absurd rfl hother
        | source => exact ⟨rfl, rfl, rfl⟩
  | source =>
    rw [updateSourcesOrSinks_source]
    split
    · refine ⟨Or.inl ⟨rfl, rfl⟩, ?_, rfl, rfl, rfl⟩
      intro other hother
      cases other with
      | source => exact absurd rfl hother
      | sink => exact ⟨rfl, rfl, rfl⟩
    · refine ⟨Or.inr ⟨rfl, ?_⟩, ?_, rfl, rfl, rfl⟩
      · exact (newDeviceList_congr S m _ Direction.source _ rfl rfl rfl).symm
      · intro other hother
        cases other with
        | source => exact absurd rfl hother
        | sink => exact ⟨rfl, rfl, rfl⟩

/-- A call that republishes, followed by a call that leaves the direction alone. -/
theorem republishes_then_same {S : StdSort} {mode : Direction} {a b c : QAudioDeviceMonitor}
    (h : Republishes S mode a b)
    (he : emittedLists c mode = emittedLists b mode)
    (hp : publishedList c mode = publishedList b mode)
    (hn : nodeList c mode = nodeList b mode) (hd : c.m_devices = b.m_devices)
    (h1 : c.m_defaultSinkName = b.m_defaultSinkName)
    (h2 : c.m_defaultSourceName = b.m_defaultSourceName) : Republishes S mode a c := by
  rcases h with ⟨x1, x2⟩ | ⟨x1, x2⟩
  · exact Or.inl ⟨he.trans x1, hp.trans x2⟩
  · refine Or.inr ⟨?_, ?_⟩
    · rw [he, hp]
      exact x1
    · rw [hp, hn, x2]
      exact (newDeviceList_congr S b c mode _ hd h1 h2).symm

/-- A call that leaves the direction alone, followed by a call that republishes. -/
theorem same_then_republishes {S : StdSort} {mode : Direction} {a b c : QAudioDeviceMonitor}
    (he : emittedLists b mode = emittedLists a mode)
    (hp : publishedList b mode = publishedList a mode)
    (h : Republishes S mode b c) : Republishes S mode a c := by
  rcases h with ⟨x1, x2⟩ | ⟨x1, x2⟩
  · exact Or.inl ⟨x1.trans he, x2.trans hp⟩
  · exact Or.inr ⟨by rw [x1, he], x2⟩

/-- A run of `audioDevicesChanged` republishes the list of each direction. -/
theorem audioDevicesChanged_republishes (S : StdSort) (m : QAudioDeviceMonitor)
    (mode : Direction) : Republishes S mode m (audioDevicesChanged S m) := by
  obtain ⟨m3, hm3, hls, hlk, hes, hek⟩ :
      ∃ m3 : QAudioDeviceMonitor,
        audioDevicesChanged S m
          = (let m4 :=
              if (!(m.m_pendingRecords.m_sources.filter
                      (fun record => record.formatFinished)).isEmpty
                  || !m.m_pendingRecords.m_removals.isEmpty
                  || m.m_pendingRecords.m_defaultSource.isSome) = true then
                updateSourcesOrSinks S Direction.source m3
                  (m.m_pendingRecords.m_sources.filter (fun record => record.formatFinished))
                  m.m_pendingRecords.m_removals
              else m3
             if (!(m.m_pendingRecords.m_sinks.filter
                      (fun record => record.formatFinished)).isEmpty
                  || !m.m_pendingRecords.m_removals.isEmpty
                  || m.m_pendingRecords.m_defaultSink.isSome) = true then
               updateSourcesOrSinks S Direction.sink m4
                 (m.m_pendingRecords.m_sinks.filter (fun record => record.formatFinished))
                 m.m_pendingRecords.m_removals
             else m4) ∧
        m3.m_sourceDeviceList = m.m_sourceDeviceList ∧
        m3.m_sinkDeviceList = m.m_sinkDeviceList ∧
        m3.emittedAudioSourcesChanged = m.emittedAudioSourcesChanged ∧
        m3.emittedAudioSinksChanged = m.emittedAudioSinksChanged := by
    refine ⟨_, (audioDevicesChanged_eq S m).trans rfl, ?_, ?_, ?_, ?_⟩ <;>
      (cases m.m_pendingRecords.m_defaultSource <;> cases m.m_pendingRecords.m_defaultSink <;>
        rfl)
  rw [hm3]
  simp only []
  have hstart : emittedLists m3 mode = emittedLists m mode ∧
      publishedList m3 mode = publishedList m mode := by
    cases mode with
    | sink => exact ⟨hek, hlk⟩
    | source => exact ⟨hes, hls⟩
  apply same_then_republishes hstart.1 hstart.2
  generalize (m.m_pendingRecords.m_sources.filter (fun record => record.formatFinished)) = a1
  generalize (m.m_pendingRecords.m_sinks.filter (fun record => record.formatFinished)) = a2
  generalize m.m_pendingRecords.m_removals = removals
  generalize m.m_pendingRecords.m_defaultSource.isSome = d1
  generalize m.m_pendingRecords.m_defaultSink.isSome = d2
  have hfirst : ∀ m4 : QAudioDeviceMonitor,
      m4 = (if (!a1.isEmpty || !removals.isEmpty || d1) = true then
              updateSourcesOrSinks S Direction.source m3 a1 removals
            else m3) →
      Republishes S Direction.source m3 m4 ∧
      emittedLists m4 Direction.sink = emittedLists m3 Direction.sink ∧
      publishedList m4 Direction.sink = publishedList m3 Direction.sink := by
    intro m4 h4
    subst h4
    split
    · obtain ⟨r1, r2, _, _, _⟩ :=
        updateSourcesOrSinks_republishes S Direction.source m3 a1 removals
      obtain ⟨o1, o2, _⟩ := r2 Direction.sink (by decide)
      exact ⟨r1, o1, o2⟩
    · exact ⟨Or.inl ⟨rfl, rfl⟩, rfl, rfl⟩
  obtain ⟨f1, f2, f3⟩ := hfirst _ rfl
  split
  · obtain ⟨r1, r2, r3, r4, r5⟩ := updateSourcesOrSinks_republishes S Direction.sink
      (if (!a1.isEmpty || !removals.isEmpty || d1) = true then
        updateSourcesOrSinks S Direction.source m3 a1 removals
      else m3) a2 removals
    cases mode with
    | sink => exact same_then_republishes f2 f3 r1
    | source =>
      obtain ⟨o1, o2, o3⟩ := r2 Direction.source (by decide)
      exact republishes_then_same f1 o1 o2 o3 r3 r4 r5
  · cases mode with
    | sink => exact Or.inl ⟨f2, f3⟩
    | source => exact f1

/-- Every call republishes the list of each direction; only the timeout of the compression
timer can publish. -/
theorem Call.step_republishes (S : StdSort) (m : QAudioDeviceMonitor) (c : Call)
    (mode : Direction) : Republishes S mode m (Call.step S m c) := by
  by_cases hc : c = Call.timeout
  · subst hc
    simp only [Call.step, compressionTimeout]
    split
    · have h := audioDevicesChanged_republishes S { m with m_compressionTimerActive := false } mode
      have he : emittedLists { m with m_compressionTimerActive := false } mode
          = emittedLists m mode := by cases mode <;> rfl
      have hp : publishedList { m with m_compressionTimerActive := false } mode
          = publishedList m mode := by cases mode <;> rfl
      unfold Republishes at h ⊢
      rw [he, hp] at h
      exact h
    · exact Or.inl ⟨rfl, rfl⟩
  · obtain ⟨l1, l2, l3, l4⟩ := Call.step_lists S m c hc
    cases mode with
    | sink => exact Or.inl ⟨l4, l2⟩
    | source => exact Or.inl ⟨l3, l1⟩

/-- A call that does not add an object with the serial `s`, on a monitor that has forgotten
`s`, publishes no device list of either direction or publishes the device list rebuilt from a
node list without a node that concerns `s`. -/
theorem Call.step_publishesWithout (S : StdSort) (hS : S.Permutes) {s : ObjectSerial}
    {m : QAudioDeviceMonitor} (h : Forgets s m) (c : Call) (hc : ¬ Call.addsSerial s c)
    (mode : Direction) : PublishesWithout S s mode m (Call.step S m c) := by
  rcases Call.step_republishes S m c mode with hsame | ⟨hemit, hlist⟩
  · exact Or.inl hsame
  · have hpass : c = Call.timeout ∧ m.m_compressionTimerActive = true := by
      by_cases hct : c = Call.timeout
      · refine ⟨hct, ?_⟩
        subst hct
        cases hactive : m.m_compressionTimerActive with
        | true => rfl
        | false =>
          exfalso
          have hid : Call.step S m Call.timeout = m := by
            simp [Call.step, compressionTimeout, hactive]
          rw [hid] at hemit
          have hlen := congrArg List.length hemit
          simp at hlen
      · exfalso
        obtain ⟨l1, l2, l3, l4⟩ := Call.step_lists S m c hct
        have hkeep : emittedLists (Call.step S m c) mode = emittedLists m mode := by
          cases mode with
          | sink => exact l4
          | source => exact l3
        rw [hkeep] at hemit
        have hlen := congrArg List.length hemit
        simp at hlen
    obtain ⟨hsrc, hsnk⟩ := (forgets_step S h c hc).2 hpass.1 hpass.2
    have hnodes : ∀ record ∈ nodeList (Call.step S m c) mode, ¬ nodeConcerns record s := by
      cases mode with
      | sink => exact hsnk
      | source => exact hsrc
    refine Or.inr ⟨hemit, hlist, hnodes, ?_⟩
    rw [hlist]
    exact newDeviceList_mem S hS _ mode _

/-- The timeout that publishes the sinks with the serials 100 and 101 is not a call that
publishes without the object with the serial 100: the node list it publishes from holds the
node with this serial. -/
theorem publishesWithout_rejects_published_node :
    ¬ PublishesWithout StdSort.keep 100 Direction.sink twoSinkPending twoSinkMonitor := by
  intro h
  rcases h with ⟨hsame, _⟩ | ⟨_, _, hnodes, _⟩
  · have hlen := congrArg List.length hsame
    revert hlen
    decide
  · have hmem : ∃ record ∈ nodeList twoSinkMonitor Direction.sink, record.serial = 100 := by
      decide
    obtain ⟨record, hr, hs⟩ := hmem
    exact hnodes record hr (Or.inl hs)

/-- C12. When serials are not reused (no other object id stands for `s` at the removal and no
later call adds an object with the serial `s`), then after `objectRemoved` for the tracked
object with serial `s` and any further calls: no pending node record has the serial `s` or the
parent-device serial `s`; every later call either publishes no device list of a direction (the
list passed to `audioSourcesChanged` or `audioSinksChanged` and the stored list stay as they
are) or publishes exactly the device list rebuilt from the node list of the monitor after the
call, in which no node has the serial `s` or the parent-device serial `s`, so that every
published device is created from a node that does not concern `s`; and once the pending
removal has been processed by a run of `audioDevicesChanged`, the node lists hold no node with
the serial `s` or the parent-device serial `s`.  The monitor `m` is arbitrary, so the format
enumeration of a node of `s` may be finished or not at the removal. -/
theorem removed_object_never_published (S : StdSort) (hS : S.Permutes) (m : QAudioDeviceMonitor)
    (id : ObjectId) (s : ObjectSerial) (calls : List Call)
    (htracked : findObjectSerial m id = some s)
    (hunique : ∀ j, j ≠ id → findObjectSerial m j ≠ some s)
    (hfresh : ∀ c ∈ calls, ¬ Call.addsSerial s c) :
    (∀ record ∈ (Call.run S (objectRemoved m id) calls).m_pendingRecords.m_sources
        ++ (Call.run S (objectRemoved m id) calls).m_pendingRecords.m_sinks,
      ¬ pendingConcerns record s) ∧
    (∀ earlier c later, calls = earlier ++ c :: later → ∀ mode : Direction,
      PublishesWithout S s mode (Call.run S (objectRemoved m id) earlier)
        (Call.step S (Call.run S (objectRemoved m id) earlier) c)) ∧
    (emittedLists (objectRemoved m id) Direction.source = emittedLists m Direction.source ∧
      emittedLists (objectRemoved m id) Direction.sink = emittedLists m Direction.sink ∧
      publishedList (objectRemoved m id) Direction.source = publishedList m Direction.source ∧
      publishedList (objectRemoved m id) Direction.sink = publishedList m Direction.sink) ∧
    (s ∉ (Call.run S (objectRemoved m id) calls).m_pendingRecords.m_removals →
      ∀ record ∈ (Call.run S (objectRemoved m id) calls).m_sources
          ++ (Call.run S (objectRemoved m id) calls).m_sinks,
        ¬ nodeConcerns record s) := by
  have hstart := forgets_removed m id s htracked hunique
  obtain ⟨_, p2, p3, p4⟩ := forgets_run S calls hstart hfresh
  obtain ⟨l1, l2, l3, l4⟩ := Call.step_lists S m (Call.registry (Event.objectRemoved id))
    (fun h => Call.noConfusion h)
  simp only [Call.step, QAudioDeviceMonitor.step] at l1 l2 l3 l4
  refine ⟨?_, ?_, ⟨l3, l4, l1, l2⟩, ?_⟩
  · intro record hmem
    rcases List.mem_append.1 hmem with hmem | hmem
    · exact p2 record hmem
    · exact p3 record hmem
  · intro earlier c later hsplit mode
    subst hsplit
    have hearlier : ∀ d ∈ earlier, ¬ Call.addsSerial s d :=
      fun d hd => hfresh d (List.mem_append_left _ hd)
    have hc : ¬ Call.addsSerial s c :=
      hfresh c (List.mem_append_right _ (List.mem_cons_self _ _))
    exact Call.step_publishesWithout S hS (forgets_run S earlier hstart hearlier) c hc mode
  · intro hnot record hmem
    rcases p4 with p4 | p4
    · exact absurd p4 hnot
    · rcases List.mem_append.1 hmem with hmem | hmem
      · exact p4.1 record hmem
      · exact p4.2 record hmem

theorem removed_object_never_published_witness :
    findObjectSerial twoSinkMonitor 10 = some 100 ∧
    twoSinkMonitor.m_sinkDeviceList.map (fun d => d.properties.objectSerial)
      = [some 100, some 101] ∧
    PublishesWithout StdSort.keep 100 Direction.sink (objectRemoved twoSinkMonitor 10)
      (Call.step StdSort.keep (objectRemoved twoSinkMonitor 10) Call.timeout) ∧
    (Call.step StdSort.keep (objectRemoved twoSinkMonitor 10)
        Call.timeout).emittedAudioSinksChanged.map
          (fun devices => devices.map (fun d => d.properties.objectSerial))
      = [[some 100, some 101], [some 101]] := by
  have hdict : twoSinkMonitor.m_objectSerialDict = [(11, 101), (10, 100)] := by decide
  refine ⟨by decide, by decide,
    (removed_object_never_published StdSort.keep
      ⟨fun _ => List.Perm.refl _, fun _ => List.Perm.refl _⟩ twoSinkMonitor 10 100
      [Call.timeout] (by decide) ?_ ?_).2.1 [] Call.timeout [] rfl Direction.sink, by decide⟩
  · intro j hj
    unfold findObjectSerial
    rw [hdict]
    have h100 : (100 : ObjectSerial) ≠ 101 := by decide
    by_cases hj2 : j = 11
    · subst hj2
      decide
    · simp [dictFind, Ne.symm hj, Ne.symm hj2]
  · intro c hc
    rw [List.mem_singleton] at hc
    subst hc
    exact fun h => h

/-- The sorting model `StdSort.nonIec958First` rearranges its argument and sorts the format
results. -/
theorem StdSort.nonIec958First_sorts :
    StdSort.nonIec958First.Permutes ∧ StdSort.nonIec958First.SortsResults := by
  refine ⟨⟨fun l => ?_, fun l => List.Perm.refl _⟩, fun l => ?_⟩
  · simp only [StdSort.nonIec958First]
    have h := List.filter_append_perm (fun arg => !hasIec958 arg) l
    simpa using h
  · simp only [StdSort.nonIec958First]
    rw [List.pairwise_append]
    refine ⟨?_, ?_, ?_⟩
    · rw [List.pairwise_iff_forall_sublist]
      intro a b hab
      have ha := hab.subset (List.mem_cons_self _ _)
      simp only [List.mem_filter, Bool.not_eq_true'] at ha
      simp [resultsLess, ha.2]
    · rw [List.pairwise_iff_forall_sublist]
      intro a b hab
      have hb := hab.subset (List.mem_cons_of_mem _ (List.mem_singleton_self _))
      simp only [List.mem_filter] at hb
      simp [resultsLess, hb.2]
    · intro a ha b hb
      simp only [List.mem_filter, Bool.not_eq_true'] at ha
      simp [resultsLess, ha.2]

/-- A format that is not IEC958 is not an encapsulated format. -/
theorem isIEC61937EncapsulatedDevice_of_not_iec958 (format : SpaObjectAudioFormat)
    (h : hasIec958 format = false) : isIEC61937EncapsulatedDevice format = false := by
  unfold hasIec958 at h
  unfold isIEC61937EncapsulatedDevice
  split
  · rename_i codec hs
    rw [hs] at h
    cases h
  · rfl

/-- C22. When a resolved node is appended to the node list, with the first of its usable
format results after sorting, the stored format is one of the formats the node reported, it is
never an IEC958 format with a codec other than PCM, and it is an IEC958 format only if every
usable format the node reported is one: whenever the node reported a format that is not
IEC958, the stored format is not IEC958. -/
theorem addResolvedNode_prefers_non_iec958 (S : StdSort) (hperm : S.Permutes)
    (hsort : S.SortsResults) (nodes : List NodeRecord) (record : PendingNodeRecord)
    (format : SpaObjectAudioFormat) (rest : List SpaObjectAudioFormat)
    (husable : usableResults S record = format :: rest) :
    addResolvedNode S nodes record
      = nodes ++ [{ serial := record.serial, deviceSerial := record.deviceSerial,
                    properties := record.properties, format := format }] ∧
    some format ∈ record.formatResults ∧
    isIEC61937EncapsulatedDevice format = false ∧
    ((∃ other, some other ∈ record.formatResults ∧ hasIec958 other = false) →
      hasIec958 format = false) := by
  have hmem : ∀ f, f ∈ format :: rest ↔
      (some f ∈ record.formatResults ∧ isIEC61937EncapsulatedDevice f = false) := by
    intro f
    rw [← husable]
    unfold usableResults
    rw [(hperm.1 _).mem_iff, List.mem_filter, List.mem_filterMap]
    constructor
    · rintro ⟨⟨res, hres, hsome⟩, hf⟩
      subst hsome
      exact ⟨hres, by simpa using hf⟩
    · rintro ⟨hres, hf⟩
      exact ⟨⟨some f, hres, rfl⟩, by simp [hf]⟩
  have hfirst := (hmem format).1 (List.mem_cons_self _ _)
  refine ⟨?_, hfirst.1, hfirst.2, ?_⟩
  · simp only [addResolvedNode, husable]
  · rintro ⟨other, hother, hnot⟩
    have hin : other ∈ format :: rest :=
      (hmem other).2 ⟨hother, isIEC61937EncapsulatedDevice_of_not_iec958 other hnot⟩
    rcases List.mem_cons.1 hin with heq | hrest
    · rw [← heq]
      exact hnot
    · have hpair := hsort
        ((record.formatResults.filterMap (fun arg => arg)).filter
          (fun arg => !isIEC61937EncapsulatedDevice arg))
      have husable2 : S.results
          ((record.formatResults.filterMap (fun arg => arg)).filter
            (fun arg => !isIEC61937EncapsulatedDevice arg)) = format :: rest := husable
      rw [husable2, List.pairwise_cons] at hpair
      have hless := hpair.1 other hrest
      simp only [resultsLess, hnot, Bool.not_false, Bool.true_and] at hless
      exact hless

theorem addResolvedNode_prefers_non_iec958_witness :
    usableResults StdSort.nonIec958First hdmiSink
      = [stereoFormat (SpaSampleTypes.format 3),
         stereoFormat (SpaSampleTypes.iec958Codec SPA_AUDIO_IEC958_CODEC_PCM)] ∧
    (addResolvedNode StdSort.nonIec958First [] hdmiSink).map (fun node => node.format)
      = [stereoFormat (SpaSampleTypes.format 3)] := by
  have husable : usableResults StdSort.nonIec958First hdmiSink
      = [stereoFormat (SpaSampleTypes.format 3),
         stereoFormat (SpaSampleTypes.iec958Codec SPA_AUDIO_IEC958_CODEC_PCM)] := by decide
  refine ⟨husable, ?_⟩
  rw [(addResolvedNode_prefers_non_iec958 StdSort.nonIec958First
    StdSort.nonIec958First_sorts.1 StdSort.nonIec958First_sorts.2 [] hdmiSink _ _ husable).1]
  rfl

theorem updatedNodes_nil (S : StdSort) (nodes : List NodeRecord) :
    updatedNodes S nodes [] [] = nodes := rfl

/-- The node lists after a run of `audioDevicesChanged` are the node lists updated with the
finished pending records and the pending removals. -/
theorem audioDevicesChanged_nodes (S : StdSort) (m : QAudioDeviceMonitor) :
    (audioDevicesChanged S m).m_sources
      = updatedNodes S m.m_sources
          (m.m_pendingRecords.m_sources.filter (fun record => record.formatFinished))
          m.m_pendingRecords.m_removals ∧
    (audioDevicesChanged S m).m_sinks
      = updatedNodes S m.m_sinks
          (m.m_pendingRecords.m_sinks.filter (fun record => record.formatFinished))
          m.m_pendingRecords.m_removals := by
  obtain ⟨m3, hm3, hsrc, hsnk⟩ :
      ∃ m3 : QAudioDeviceMonitor,
        audioDevicesChanged S m
          = (let m4 :=
              if (!(m.m_pendingRecords.m_sources.filter
                      (fun record => record.formatFinished)).isEmpty
                  || !m.m_pendingRecords.m_removals.isEmpty
                  || m.m_pendingRecords.m_defaultSource.isSome) = true then
                updateSourcesOrSinks S Direction.source m3
                  (m.m_pendingRecords.m_sources.filter (fun record => record.formatFinished))
                  m.m_pendingRecords.m_removals
              else m3
             if (!(m.m_pendingRecords.m_sinks.filter
                      (fun record => record.formatFinished)).isEmpty
                  || !m.m_pendingRecords.m_removals.isEmpty
                  || m.m_pendingRecords.m_defaultSink.isSome) = true then
               updateSourcesOrSinks S Direction.sink m4
                 (m.m_pendingRecords.m_sinks.filter (fun record => record.formatFinished))
                 m.m_pendingRecords.m_removals
             else m4) ∧
        m3.m_sources = m.m_sources ∧ m3.m_sinks = m.m_sinks := by
    refine ⟨_, (audioDevicesChanged_eq S m).trans rfl, ?_, ?_⟩ <;>
      (cases m.m_pendingRecords.m_defaultSource <;> cases m.m_pendingRecords.m_defaultSink <;>
        rfl)
  rw [hm3]
  simp only []
  have hempty : ∀ (l : List PendingNodeRecord) (nodes : List NodeRecord) (b : Bool),
      ¬ ((!l.isEmpty || !m.m_pendingRecords.m_removals.isEmpty || b) = true) →
      nodes = updatedNodes S nodes l m.m_pendingRecords.m_removals := by
    intro l nodes b h
    cases hr : m.m_pendingRecords.m_removals with
    | nil =>
      cases l with
      | nil => rfl
      | cons x xs =>
        rw [hr] at h
        simp at h
    | cons x xs =>
      rw [hr] at h
      simp at h
  by_cases h0 : (!(m.m_pendingRecords.m_sources.filter
                      (fun record => record.formatFinished)).isEmpty
                  || !m.m_pendingRecords.m_removals.isEmpty
                  || m.m_pendingRecords.m_defaultSource.isSome) = true
  · rw [if_pos h0]
    obtain ⟨_, _, a3, _, a5, _⟩ := updateSourcesOrSinks_source_fields S m3
      (m.m_pendingRecords.m_sources.filter (fun record => record.formatFinished))
      m.m_pendingRecords.m_removals
    rw [hsrc] at a5
    by_cases h1 : (!(m.m_pendingRecords.m_sinks.filter
                      (fun record => record.formatFinished)).isEmpty
                  || !m.m_pendingRecords.m_removals.isEmpty
                  || m.m_pendingRecords.m_defaultSink.isSome) = true
    · rw [if_pos h1]
      obtain ⟨_, _, b3, _, b5, _⟩ := updateSourcesOrSinks_sink_fields S
        (updateSourcesOrSinks S Direction.source m3
          (m.m_pendingRecords.m_sources.filter (fun record => record.formatFinished))
          m.m_pendingRecords.m_removals)
        (m.m_pendingRecords.m_sinks.filter (fun record => record.formatFinished))
        m.m_pendingRecords.m_removals
      rw [a3, hsnk] at b5
      exact ⟨b3.trans a5, b5⟩
    · rw [if_neg h1]
      exact ⟨a5, (a3.trans hsnk).trans (hempty _ _ _ h1)⟩
  · rw [if_neg h0]
    by_cases h1 : (!(m.m_pendingRecords.m_sinks.filter
                      (fun record => record.formatFinished)).isEmpty
                  || !m.m_pendingRecords.m_removals.isEmpty
                  || m.m_pendingRecords.m_defaultSink.isSome) = true
    · rw [if_pos h1]
      obtain ⟨_, _, b3, _, b5, _⟩ := updateSourcesOrSinks_sink_fields S m3
        (m.m_pendingRecords.m_sinks.filter (fun record => record.formatFinished))
        m.m_pendingRecords.m_removals
      rw [hsnk] at b5
      exact ⟨(b3.trans hsrc).trans (hempty _ _ _ h0), b5⟩
    · rw [if_neg h1]
      exact ⟨hsrc.trans (hempty _ _ _ h0), hsnk.trans (hempty _ _ _ h1)⟩

/-- A list of pending records splits into the finished and the unfinished records: each of the
two parts is a sublist, every record is in exactly one part, as often as in the list. -/
theorem pending_split (l : List PendingNodeRecord) :
    (l.filter (fun record => record.formatFinished)).Sublist l ∧
    (l.filter (fun record => !record.formatFinished)).Sublist l ∧
    (∀ record, record ∈ l.filter (fun record => record.formatFinished)
      ↔ record ∈ l ∧ record.formatFinished = true) ∧
    (∀ record, record ∈ l.filter (fun record => !record.formatFinished)
      ↔ record ∈ l ∧ record.formatFinished = false) ∧
    (∀ record, (l.filter (fun record => record.formatFinished)).count record
        + (l.filter (fun record => !record.formatFinished)).count record = l.count record) ∧
    (l.filter (fun record => record.formatFinished)).length
        + (l.filter (fun record => !record.formatFinished)).length = l.length := by
  refine ⟨List.filter_sublist _, List.filter_sublist _, ?_, ?_, ?_, ?_⟩
  · intro record
    simp [List.mem_filter]
  · intro record
    simp [List.mem_filter]
  · intro record
    have h := (List.filter_append_perm (fun record : PendingNodeRecord => record.formatFinished)
      l).count_eq record
    rw [List.count_append] at h
    exact h
  · have h := (List.filter_append_perm (fun record : PendingNodeRecord => record.formatFinished)
      l).length_eq
    rw [List.length_append] at h
    exact h

/-- C24. For every content of the pending source and sink lists, one run of
`audioDevicesChanged` takes out exactly the records whose format future is finished and leaves
exactly the others: the loop `takeFullyResolvedRecords` yields the unfinished records and the
finished records, each in their order in the pending list; the unfinished ones are the pending
list after the run; the finished ones are what the node list is updated with; every record
of the pending list is in exactly one of the two parts, as often as it was in the list. -/
theorem audioDevicesChanged_partitions_pending (S : StdSort) (m : QAudioDeviceMonitor) :
    (audioDevicesChanged S m).m_pendingRecords.m_sources
      = (takeFullyResolvedRecords m.m_pendingRecords.m_sources []).1 ∧
    (audioDevicesChanged S m).m_pendingRecords.m_sinks
      = (takeFullyResolvedRecords m.m_pendingRecords.m_sinks []).1 ∧
    (audioDevicesChanged S m).m_sources
      = updatedNodes S m.m_sources (takeFullyResolvedRecords m.m_pendingRecords.m_sources []).2
          m.m_pendingRecords.m_removals ∧
    (audioDevicesChanged S m).m_sinks
      = updatedNodes S m.m_sinks (takeFullyResolvedRecords m.m_pendingRecords.m_sinks []).2
          m.m_pendingRecords.m_removals ∧
    (∀ l : List PendingNodeRecord,
      (takeFullyResolvedRecords l []).1.Sublist l ∧
      (takeFullyResolvedRecords l []).2.Sublist l ∧
      (∀ record, record ∈ (takeFullyResolvedRecords l []).2
        ↔ record ∈ l ∧ record.formatFinished = true) ∧
      (∀ record, record ∈ (takeFullyResolvedRecords l []).1
        ↔ record ∈ l ∧ record.formatFinished = false) ∧
      (∀ record, (takeFullyResolvedRecords l []).2.count record
          + (takeFullyResolvedRecords l []).1.count record = l.count record) ∧
      (takeFullyResolvedRecords l []).2.length + (takeFullyResolvedRecords l []).1.length
        = l.length) := by
  obtain ⟨_, a2, a3, _, _, _⟩ := audioDevicesChanged_fields S m
  obtain ⟨n1, n2⟩ := audioDevicesChanged_nodes S m
  simp only [takeFullyResolvedRecords_eq, List.nil_append]
  refine ⟨a2, a3, n1, n2, fun l => ?_⟩
  obtain ⟨p1, p2, p3, p4, p5, p6⟩ := pending_split l
  exact ⟨p2, p1, p3, p4, p5, p6⟩

/-- Every device `createDevice` creates has the mode `Output`. -/
theorem createDevice_mode (m : QAudioDeviceMonitor) (name : Option String)
    (record : NodeRecord) : (createDevice m name record).mode = QAudioDevice.Mode.Output := rfl

/-- Every device of a rebuilt device list has the mode `Output`, for sinks and for sources. -/
theorem newDeviceList_mode (S : StdSort) (hS : S.Permutes) (m : QAudioDeviceMonitor)
    (mode : Direction) (nodes : List NodeRecord) :
    ∀ d ∈ newDeviceList S m mode nodes, d.mode = QAudioDevice.Mode.Output := by
  intro d hd
  unfold newDeviceList at hd
  have hd2 := (hS.2 _).subset hd
  rw [List.mem_map] at hd2
  obtain ⟨record, _, hrd⟩ := hd2
  rw [← hrd]
  rfl

/-- C26, evaluated.  A source node is added, its format is resolved and the compression timer
times out: the list passed to `audioSourcesChanged` holds the device of the node, created with
the mode `Output`. -/
theorem published_source_has_mode_output :
    publishedSourceMonitor.m_sources.map (fun node => node.serial) = [200] ∧
    publishedSourceMonitor.emittedAudioSourcesChanged.map
        (fun devices => devices.map (fun d => (d.id, d.mode)))
      = [[(some "mic", QAudioDevice.Mode.Output)]] ∧
    publishedSourceMonitor.m_sourceDeviceList.map (fun d => d.mode)
      = [QAudioDevice.Mode.Output] ∧
    publishedSourceMonitor.emittedAudioSinksChanged = [] := by
  decide

/-- The call `startCompressionTimer` leaves a running timer as it is. -/
theorem startCompressionTimerAt_active (timer : QTimer) (now : Nat)
    (h : timer.isActive = true) : startCompressionTimerAt timer now = timer := by
  simp only [startCompressionTimerAt, h, if_true]

/-- The call `startCompressionTimer` starts a timer that is not running. -/
theorem startCompressionTimerAt_idle (timer : QTimer) (now : Nat)
    (h : timer.isActive = false) :
    startCompressionTimerAt timer now = { timer with deadline := some (now + timer.interval) } := by
  simp only [startCompressionTimerAt, h, Bool.false_eq_true, if_false, QTimer.start]

/-- The timer is active after `startCompressionTimer`, as the flag of the monitor is. -/
theorem startCompressionTimerAt_isActive (timer : QTimer) (now : Nat) :
    (startCompressionTimerAt timer now).isActive = true := by
  unfold startCompressionTimerAt
  split
  · rename_i h
    exact h
  · rfl

theorem startCompressionTimerAtAll_active : ∀ (times : List Nat) (timer : QTimer),
    timer.isActive = true → startCompressionTimerAtAll timer times = timer := by
  intro times
  induction times with
  | nil =>
    intro timer _
    rfl
  | cons t ts ih =>
    intro timer h
    simp only [startCompressionTimerAtAll, List.foldl_cons,
      startCompressionTimerAt_active timer t h]
    exact ih timer h

/-- C23, as claimed, fails.  The timer is started at the time 0 and a second event arrives at
the time 10, while the timer runs: the timer still times out at the time 50, one interval after
the first event, not at the time 60, one interval after the second. -/
theorem compression_timer_not_restarted :
    (startCompressionTimerAt compressionTimer 0).deadline = some 50 ∧
    (startCompressionTimerAt (startCompressionTimerAt compressionTimer 0) 10).deadline
      = some 50 ∧
    (startCompressionTimerAt (startCompressionTimerAt compressionTimer 0) 10).deadline
      ≠ ((startCompressionTimerAt compressionTimer 0).start 10).deadline := by
  decide

/-- C23, amended.  An event that arrives while the compression timer is not running starts
it, so that it times out one interval after this event; the events that arrive while the timer
runs leave the timer as it is, however many they are and whenever they arrive, so the
recomputation takes place one interval after the first event and is not postponed. -/
theorem compression_timer_keeps_first_deadline (timer : QTimer) (first : Nat)
    (later : List Nat) (hidle : timer.isActive = false) :
    (startCompressionTimerAt timer first).deadline = some (first + timer.interval) ∧
    startCompressionTimerAtAll timer (first :: later) = startCompressionTimerAt timer first ∧
    (startCompressionTimerAtAll timer (first :: later)).deadline
      = some (first + timer.interval) ∧
    (∀ now, startCompressionTimerAt (startCompressionTimerAtAll timer (first :: later)) now
      = startCompressionTimerAtAll timer (first :: later)) := by
  have h1 : (startCompressionTimerAt timer first).deadline = some (first + timer.interval) := by
    rw [startCompressionTimerAt_idle timer first hidle]
  have h2 : startCompressionTimerAtAll timer (first :: later)
      = startCompressionTimerAt timer first := by
    simp only [startCompressionTimerAtAll, List.foldl_cons]
    exact startCompressionTimerAtAll_active later _
      (startCompressionTimerAt_isActive timer first)
  refine ⟨h1, h2, by rw [h2, h1], fun now => ?_⟩
  rw [h2]
  exact startCompressionTimerAt_active _ now (startCompressionTimerAt_isActive timer first)

theorem compression_timer_keeps_first_deadline_witness :
    compressionTimer.isActive = false ∧
    (startCompressionTimerAtAll compressionTimer (0 :: [10, 20, 49])).deadline
      = some (0 + compressionTimer.interval) :=
  ⟨rfl, (compression_timer_keeps_first_deadline compressionTimer 0 [10, 20, 49] rfl).2.2.1⟩

theorem findObjectSerial_registerObserver (m : QAudioDeviceMonitor) (o : ObjectRemoveObserver) :
    (registerObserver m o).2.m_objectSerialDict = m.m_objectSerialDict := by
  unfold registerObserver
  cases dictFind m.m_serialObjectDict o.serial <;> rfl

theorem dictFind_emplace_new {β : Type} (d : List (Nat × β)) (k k' : Nat) (v : β)
    (h : dictFind d k = none) :
    dictFind (dictEmplace d k v) k' = if k = k' then some v else dictFind d k' := by
  by_cases hk : k = k'
  · subst hk
    rw [if_pos rfl, dictFind_emplace_self d k v h]
  · rw [if_neg hk, dictFind_emplace_ne d k k' v hk]

/-- One admissible registry call keeps the dictionaries inverse of each other. -/
theorem DictsInverse.next {m : QAudioDeviceMonitor} {live : List ObjectId}
    {used : List ObjectSerial} (h : DictsInverse m live used) (e : Event) (rest : List Event)
    (hadm : admissible live used (e :: rest)) :
    ∃ live1 used1, DictsInverse (step m e) live1 used1 ∧ admissible live1 used1 rest := by
  obtain ⟨hinv, hmem⟩ := h
  cases e with
  | objectAdded id ty props =>
    obtain ⟨hid, hser, hrest⟩ := hadm
    refine ⟨id :: live, props.objectSerial.toList ++ used, ?_, hrest⟩
    simp only [step]
    have hweak : DictsInverse m (id :: live) (props.objectSerial.toList ++ used) :=
      ⟨hinv, fun i s his => ⟨List.mem_cons_of_mem _ (hmem i s his).1,
        List.mem_append_right _ (hmem i s his).2⟩⟩
    cases hmc : props.mediaClass with
    | none => rw [objectAdded_untracked m id ty props (Or.inl hmc)]; exact hweak
    | some mc =>
      cases hs : props.objectSerial with
      | none =>
        rw [objectAdded_untracked m id ty props (Or.inr hs)]
        rw [hs] at hweak
        exact hweak
      | some t =>
        obtain ⟨f1, f2, _, _⟩ := objectAdded_fields m id ty props mc t hmc hs
        have hidnone : dictFind m.m_objectSerialDict id = none := by
          cases hf : dictFind m.m_objectSerialDict id with
          | none => rfl
          | some x => exact absurd (hmem id x hf).1 hid
        have htnone : dictFind m.m_serialObjectDict t = none := by
          cases hf : dictFind m.m_serialObjectDict t with
          | none => rfl
          | some x => exact absurd (hmem x t ((hinv x t).2 hf)).2 (hser t hs)
        have e1 : ∀ i, findObjectSerial (objectAdded m id ty props) i
            = if id = i then some t else findObjectSerial m i := by
          intro i
          unfold findObjectSerial
          rw [f1, dictFind_emplace_new _ _ _ _ hidnone]
        have e2 : ∀ s, findObjectId (objectAdded m id ty props) s
            = if t = s then some id else findObjectId m s := by
          intro s
          unfold findObjectId
          rw [f2, dictFind_emplace_new _ _ _ _ htnone]
        constructor
        · intro i s
          rw [e1, e2]
          by_cases hi : id = i
          · by_cases hts : t = s
            · rw [if_pos hi, if_pos hts]
              constructor
              · intro _; rw [hi]
              · intro _; rw [hts]
            · rw [if_pos hi, if_neg hts]
              constructor
              · intro heq
                exact absurd (Option.some.inj heq) hts
              · intro heq
                have := (hmem i s ((hinv i s).2 heq)).1
                rw [← hi] at this
                exact absurd this hid
          · by_cases hts : t = s
            · rw [if_neg hi, if_pos hts]
              constructor
              · intro heq
                have := (hmem i s heq).2
                rw [← hts] at this
                exact absurd this (hser t hs)
              · intro heq
                exact absurd (Option.some.inj heq) hi
            · rw [if_neg hi, if_neg hts]
              exact hinv i s
        · intro i s his
          rw [e1] at his
          by_cases hi : id = i
          · rw [if_pos hi] at his
            have hts := Option.some.inj his
            refine ⟨by rw [← hi]; exact List.mem_cons_self _ _, ?_⟩
            rw [← hts]
            simp
          · rw [if_neg hi] at his
            exact ⟨List.mem_cons_of_mem _ (hmem i s his).1,
              List.mem_append_right _ (hmem i s his).2⟩
  | objectRemoved id =>
    have hrest : admissible (live.erase id) used rest := hadm
    refine ⟨live.erase id, used, ?_, hrest⟩
    simp only [step]
    cases ht : findObjectSerial m id with
    | none =>
      rw [objectRemoved_untracked m id ht]
      refine ⟨hinv, fun i s his => ⟨?_, (hmem i s his).2⟩⟩
      have hne : i ≠ id := by
        intro heq
        rw [heq, ht] at his
        cases his
      exact (List.mem_erase_of_ne hne).2 (hmem i s his).1
    | some t =>
      obtain ⟨f1, f2, _, _⟩ := objectRemoved_fields m id t ht
      have e1 : ∀ i, findObjectSerial (objectRemoved m id) i
          = if id = i then none else findObjectSerial m i := by
        intro i
        unfold findObjectSerial
        rw [f1, dictFind_erase]
      have e2 : ∀ s, findObjectId (objectRemoved m id) s
          = if t = s then none else findObjectId m s := by
        intro s
        unfold findObjectId
        rw [f2, dictFind_erase]
      constructor
      · intro i s
        rw [e1, e2]
        by_cases hi : id = i
        · rw [if_pos hi]
          by_cases hts : t = s
          · rw [if_pos hts]
            constructor <;> (intro heq; cases heq)
          · rw [if_neg hts]
            constructor
            · intro heq; cases heq
            · intro heq
              have := (hinv i s).2 heq
              rw [← hi, ht] at this
              exact absurd (Option.some.inj this) hts
        · rw [if_neg hi]
          by_cases hts : t = s
          · rw [if_pos hts]
            constructor
            · intro heq
              have h1 := (hinv i s).1 heq
              have h2 := (hinv id t).1 ht
              rw [hts, h1] at h2
              exact absurd (Option.some.inj h2).symm hi
            · intro heq; cases heq
          · rw [if_neg hts]
            exact hinv i s
      · intro i s his
        rw [e1] at his
        by_cases hi : id = i
        · rw [if_pos hi] at his
          cases his
        · rw [if_neg hi] at his
          exact ⟨(List.mem_erase_of_ne (fun h => hi h.symm)).2 (hmem i s his).1,
            (hmem i s his).2⟩
  | registerObserver o =>
    have hrest : admissible live used rest := hadm
    refine ⟨live, used, ?_, hrest⟩
    simp only [step]
    unfold DictsInverse findObjectSerial findObjectId
    rw [findObjectSerial_registerObserver, registerObserver_serialDict]
    exact ⟨hinv, hmem⟩
  | unregisterObserver o =>
    have hrest : admissible live used rest := hadm
    exact ⟨live, used, ⟨hinv, hmem⟩, hrest⟩

/-- An admissible history keeps the dictionaries inverse of each other. -/
theorem DictsInverse.history : ∀ (es : List Event) (m : QAudioDeviceMonitor)
    (live : List ObjectId) (used : List ObjectSerial), DictsInverse m live used →
    admissible live used es → ∃ live1 used1, DictsInverse (run m es) live1 used1 := by
  intro es
  induction es with
  | nil =>
    intro m live used h _
    exact ⟨live, used, h⟩
  | cons e rest ih =>
    intro m live used h hadm
    obtain ⟨live1, used1, h1, hadm1⟩ := DictsInverse.next h e rest hadm
    exact ih (step m e) live1 used1 h1 hadm1

/-- An id that the monitor maps to a serial was mapped to it before the calls or was added
with it, with a media class, by one of the calls. -/
theorem findObjectSerial_history (i : ObjectId) (s : ObjectSerial) :
    ∀ (es : List Event) (m : QAudioDeviceMonitor), findObjectSerial (run m es) i = some s →
    findObjectSerial m i = some s ∨ ∃ e ∈ es, Event.tracks i s e := by
  intro es
  induction es with
  | nil =>
    intro m h
    exact Or.inl h
  | cons e rest ih =>
    intro m h
    have hrun : run m (e :: rest) = run (step m e) rest := rfl
    rw [hrun] at h
    rcases ih _ h with h1 | ⟨e1, he1, ht⟩
    · have hstep : findObjectSerial m i = some s ∨ Event.tracks i s e := by
        cases e with
        | objectAdded id ty props =>
          simp only [step] at h1
          cases hmc : props.mediaClass with
          | none =>
            rw [objectAdded_untracked m id ty props (Or.inl hmc)] at h1
            exact Or.inl h1
          | some mc =>
            cases hs : props.objectSerial with
            | none =>
              rw [objectAdded_untracked m id ty props (Or.inr hs)] at h1
              exact Or.inl h1
            | some t =>
              obtain ⟨f1, _, _, _⟩ := objectAdded_fields m id ty props mc t hmc hs
              unfold findObjectSerial at h1
              rw [f1] at h1
              rcases dictFind_emplace_cases _ _ _ _ _ h1 with h2 | ⟨h2, h3⟩
              · exact Or.inl h2
              · refine Or.inr ⟨h2.symm, ?_, by rw [hmc]; rfl⟩
                rw [h3]
                exact hs
        | objectRemoved id =>
          simp only [step] at h1
          cases ht : findObjectSerial m id with
          | none =>
            rw [objectRemoved_untracked m id ht] at h1
            exact Or.inl h1
          | some t =>
            obtain ⟨f1, _, _, _⟩ := objectRemoved_fields m id t ht
            unfold findObjectSerial at h1
            rw [f1, dictFind_erase] at h1
            split at h1
            · cases h1
            · exact Or.inl h1
        | registerObserver o =>
          simp only [step] at h1
          unfold findObjectSerial at h1
          rw [findObjectSerial_registerObserver] at h1
          exact Or.inl h1
        | unregisterObserver o => exact Or.inl h1
      rcases hstep with h2 | h2
      · exact Or.inl h2
      · exact Or.inr ⟨e, List.mem_cons_self _ _, h2⟩
    · exact Or.inr ⟨e1, List.mem_cons_of_mem _ he1, ht⟩

/-- C29. For every history of registry calls on a monitor that tracks nothing, in which an id
is added only while it is not in use and no serial is used twice, the two dictionaries are
inverse of each other: `findObjectSerial(i)` is `s` exactly when `findObjectId(s)` is `i`.
Both lookups are empty for an object that has just been removed, and for ids and serials that
no call has added with a media class. -/
theorem dictionaries_stay_inverse (es : List Event) (hadm : admissible [] [] es) :
    (∀ i s, findObjectSerial (run empty es) i = some s ↔ findObjectId (run empty es) s = some i) ∧
    (∀ id, findObjectSerial (objectRemoved (run empty es) id) id = none ∧
      ∀ s, findObjectSerial (run empty es) id = some s →
        findObjectId (objectRemoved (run empty es) id) s = none) ∧
    (∀ i, (∀ s, ∀ e ∈ es, ¬ Event.tracks i s e) → findObjectSerial (run empty es) i = none) ∧
    (∀ s, (∀ i, ∀ e ∈ es, ¬ Event.tracks i s e) → findObjectId (run empty es) s = none) := by
  have hempty : DictsInverse empty [] [] := by
    refine ⟨fun i s => ?_, fun i s h => ?_⟩
    · simp [findObjectSerial, findObjectId, empty, dictFind]
    · simp [findObjectSerial, empty, dictFind] at h
  obtain ⟨live1, used1, hinv, _⟩ := DictsInverse.history es empty [] [] hempty hadm
  have hnone : ∀ i, (∀ s, ∀ e ∈ es, ¬ Event.tracks i s e) →
      findObjectSerial (run empty es) i = none := by
    intro i hno
    cases hf : findObjectSerial (run empty es) i with
    | none => rfl
    | some s =>
      rcases findObjectSerial_history i s es empty hf with h | ⟨e, he, ht⟩
      · simp [findObjectSerial, empty, dictFind] at h
      · exact absurd ht (hno s e he)
  refine ⟨hinv, fun id => ?_, hnone, fun s hno => ?_⟩
  · cases ht : findObjectSerial (run empty es) id with
    | none =>
      rw [objectRemoved_untracked _ id ht]
      exact ⟨ht, fun s hs => by cases hs⟩
    | some t =>
      obtain ⟨f1, f2, _, _⟩ := objectRemoved_fields (run empty es) id t ht
      constructor
      · unfold findObjectSerial
        rw [f1, dictFind_erase, if_pos rfl]
      · intro s hs
        have hst : t = s := Option.some.inj hs
        unfold findObjectId
        rw [f2, dictFind_erase, if_pos hst]
  · cases hf : findObjectId (run empty es) s with
    | none => rfl
    | some i =>
      have h1 := (hinv i s).2 hf
      rcases findObjectSerial_history i s es empty h1 with h | ⟨e, he, ht⟩
      · simp [findObjectSerial, empty, dictFind] at h
      · exact absurd ht (hno i e he)

theorem dictionaries_stay_inverse_witness :
    admissible [] []
      [Event.objectAdded 5 PipewireRegistryType.Device (deviceProps 100),
       Event.objectRemoved 5,
       Event.objectAdded 5 PipewireRegistryType.Device (deviceProps 101)] ∧
    findObjectSerial
      (run empty
        [Event.objectAdded 5 PipewireRegistryType.Device (deviceProps 100),
         Event.objectRemoved 5,
         Event.objectAdded 5 PipewireRegistryType.Device (deviceProps 101)]) 5 = some 101 ∧
    findObjectId
      (run empty
        [Event.objectAdded 5 PipewireRegistryType.Device (deviceProps 100),
         Event.objectRemoved 5,
         Event.objectAdded 5 PipewireRegistryType.Device (deviceProps 101)]) 101 = some 5 := by
  have hadm : admissible [] []
      [Event.objectAdded 5 PipewireRegistryType.Device (deviceProps 100),
       Event.objectRemoved 5,
       Event.objectAdded 5 PipewireRegistryType.Device (deviceProps 101)] := by
    simp [admissible, deviceProps]
  have hfind : findObjectSerial
      (run empty
        [Event.objectAdded 5 PipewireRegistryType.Device (deviceProps 100),
         Event.objectRemoved 5,
         Event.objectAdded 5 PipewireRegistryType.Device (deviceProps 101)]) 5 = some 101 := by
    decide
  exact ⟨hadm, hfind, ((dictionaries_stay_inverse _ hadm).1 5 101).1 hfind⟩

end QAudioDeviceMonitor

end QtPipeWire

namespace QPlatformAudioDevices

/-- The accessor `audioInputs` on a filled cache returns the cached list and changes nothing. -/
theorem audioInputs_cached {Device : Type} (platform : AudioPlatform Device)
    (d : QPlatformAudioDevices Device) (l : List Device) (h : d.m_audioInputs.m_value = some l) :
    audioInputs platform d = (l, d) := by
  simp only [audioInputs, QCachedValue.ensure, h]

/-- The accessor `audioInputs` on an empty cache enumerates once and caches what it found. -/
theorem audioInputs_empty {Device : Type} (platform : AudioPlatform Device)
    (d : QPlatformAudioDevices Device) (h : d.m_audioInputs.m_value = none) :
    audioInputs platform d
      = (platform.findAudioInputs d.findAudioInputsCalls,
          { d with m_audioInputs := { m_value := some (platform.findAudioInputs
                                        d.findAudioInputsCalls) },
                   findAudioInputsCalls := d.findAudioInputsCalls + 1 }) := by
  simp only [audioInputs, QCachedValue.ensure, h, findAudioInputs]

/-- The accessor `audioOutputs` on a filled cache returns the cached list and changes
nothing. -/
theorem audioOutputs_cached {Device : Type} (platform : AudioPlatform Device)
    (d : QPlatformAudioDevices Device) (l : List Device)
    (h : d.m_audioOutputs.m_value = some l) :
    audioOutputs platform d = (l, d) := by
  simp only [audioOutputs, QCachedValue.ensure, h]

/-- The accessor `audioOutputs` on an empty cache enumerates once and caches what it found. -/
theorem audioOutputs_empty {Device : Type} (platform : AudioPlatform Device)
    (d : QPlatformAudioDevices Device) (h : d.m_audioOutputs.m_value = none) :
    audioOutputs platform d
      = (platform.findAudioOutputs d.findAudioOutputsCalls,
          { d with m_audioOutputs := { m_value := some (platform.findAudioOutputs
                                         d.findAudioOutputsCalls) },
                   findAudioOutputsCalls := d.findAudioOutputsCalls + 1 }) := by
  simp only [audioOutputs, QCachedValue.ensure, h, findAudioOutputs]

/-- Over a sequence of accessor calls each direction is enumerated once when its cache is empty
and its accessor is called, and not at all otherwise; no signal is emitted. -/
theorem access_calls {Device : Type} (platform : AudioPlatform Device) :
    ∀ (accesses : List Accessor) (d : QPlatformAudioDevices Device),
    (access platform d accesses).findAudioInputsCalls
      = d.findAudioInputsCalls
        + (if d.m_audioInputs.m_value.isNone = true ∧ Accessor.audioInputs ∈ accesses then 1
           else 0) ∧
    (access platform d accesses).findAudioOutputsCalls
      = d.findAudioOutputsCalls
        + (if d.m_audioOutputs.m_value.isNone = true ∧ Accessor.audioOutputs ∈ accesses then 1
           else 0) ∧
    (access platform d accesses).emittedAudioInputsChanged = d.emittedAudioInputsChanged ∧
    (access platform d accesses).emittedAudioOutputsChanged = d.emittedAudioOutputsChanged := by
  intro accesses
  induction accesses with
  | nil =>
    intro d
    simp [access]
  | cons a rest ih =>
    intro d
    have mio : (Accessor.audioOutputs ∈ Accessor.audioInputs :: rest)
        = (Accessor.audioOutputs ∈ rest) := by simp
    have moi : (Accessor.audioInputs ∈ Accessor.audioOutputs :: rest)
        = (Accessor.audioInputs ∈ rest) := by simp
    have mii : (Accessor.audioInputs ∈ Accessor.audioInputs :: rest) = True := by simp
    have moo : (Accessor.audioOutputs ∈ Accessor.audioOutputs :: rest) = True := by simp
    cases a with
    | audioInputs =>
      cases hin : d.m_audioInputs.m_value with
      | some l =>
        obtain ⟨i1, i2, i3, i4⟩ := ih d
        rw [hin] at i1
        simp only [access, audioInputs_cached platform d l hin, i1, i2, i3, i4, mio,
          Option.isNone_some, Bool.false_eq_true, false_and, if_false, and_self]
      | none =>
        obtain ⟨i1, i2, i3, i4⟩ := ih (audioInputs platform d).2
        rw [audioInputs_empty platform d hin] at i1 i2 i3 i4
        simp only [Option.isNone_some, Bool.false_eq_true, false_and, if_false,
          Nat.add_zero] at i1
        simp only [access, i1, i2, i3, i4, mio, mii, Option.isNone_none, and_self, if_true,
          audioInputs_empty platform d hin]
    | audioOutputs =>
      cases hout : d.m_audioOutputs.m_value with
      | some l =>
        obtain ⟨i1, i2, i3, i4⟩ := ih d
        rw [hout] at i2
        simp only [access, audioOutputs_cached platform d l hout, i1, i2, i3, i4, moi,
          Option.isNone_some, Bool.false_eq_true, false_and, if_false, and_self]
      | none =>
        obtain ⟨i1, i2, i3, i4⟩ := ih (audioOutputs platform d).2
        rw [audioOutputs_empty platform d hout] at i1 i2 i3 i4
        simp only [Option.isNone_some, Bool.false_eq_true, false_and, if_false,
          Nat.add_zero] at i2
        simp only [access, i1, i2, i3, i4, moi, moo, Option.isNone_none, and_self, if_true,
          audioOutputs_empty platform d hout]

/-- C15. The accessors `audioInputs` and `audioOutputs` run the enumeration only when their
cache is empty, and return the cached list without enumerating otherwise; over any sequence of
accessor calls (no change notification in between) each enumeration runs at most once.  The
functions `onAudioInputsChanged` and `onAudioOutputsChanged` empty their cache without
enumerating and leave the cache of the other direction as it is; the next access enumerates
again, once, however many accesses follow. -/
theorem accessors_enumerate_only_on_empty_cache {Device : Type} (platform : AudioPlatform Device)
    (d : QPlatformAudioDevices Device) :
    (∀ l, d.m_audioInputs.m_value = some l → audioInputs platform d = (l, d)) ∧
    (∀ l, d.m_audioOutputs.m_value = some l → audioOutputs platform d = (l, d)) ∧
    (d.m_audioInputs.m_value = none →
      (audioInputs platform d).1 = platform.findAudioInputs d.findAudioInputsCalls ∧
      (audioInputs platform d).2.m_audioInputs.m_value = some (audioInputs platform d).1 ∧
      (audioInputs platform d).2.findAudioInputsCalls = d.findAudioInputsCalls + 1 ∧
      (audioInputs platform d).2.findAudioOutputsCalls = d.findAudioOutputsCalls ∧
      (audioInputs platform d).2.m_audioOutputs = d.m_audioOutputs) ∧
    (d.m_audioOutputs.m_value = none →
      (audioOutputs platform d).1 = platform.findAudioOutputs d.findAudioOutputsCalls ∧
      (audioOutputs platform d).2.m_audioOutputs.m_value = some (audioOutputs platform d).1 ∧
      (audioOutputs platform d).2.findAudioOutputsCalls = d.findAudioOutputsCalls + 1 ∧
      (audioOutputs platform d).2.findAudioInputsCalls = d.findAudioInputsCalls ∧
      (audioOutputs platform d).2.m_audioInputs = d.m_audioInputs) ∧
    (∀ accesses,
      (access platform d accesses).findAudioInputsCalls ≤ d.findAudioInputsCalls + 1 ∧
      (access platform d accesses).findAudioOutputsCalls ≤ d.findAudioOutputsCalls + 1) ∧
    ((onAudioInputsChanged d).m_audioInputs.m_value = none ∧
      (onAudioInputsChanged d).m_audioOutputs = d.m_audioOutputs ∧
      (onAudioInputsChanged d).findAudioInputsCalls = d.findAudioInputsCalls ∧
      (onAudioInputsChanged d).findAudioOutputsCalls = d.findAudioOutputsCalls ∧
      (onAudioInputsChanged d).emittedAudioInputsChanged = d.emittedAudioInputsChanged + 1) ∧
    ((onAudioOutputsChanged d).m_audioOutputs.m_value = none ∧
      (onAudioOutputsChanged d).m_audioInputs = d.m_audioInputs ∧
      (onAudioOutputsChanged d).findAudioInputsCalls = d.findAudioInputsCalls ∧
      (onAudioOutputsChanged d).findAudioOutputsCalls = d.findAudioOutputsCalls ∧
      (onAudioOutputsChanged d).emittedAudioOutputsChanged
        = d.emittedAudioOutputsChanged + 1) ∧
    (∀ accesses,
      (access platform (onAudioInputsChanged d) accesses).findAudioInputsCalls
        = d.findAudioInputsCalls + (if Accessor.audioInputs ∈ accesses then 1 else 0)) ∧
    (∀ accesses,
      (access platform (onAudioOutputsChanged d) accesses).findAudioOutputsCalls
        = d.findAudioOutputsCalls + (if Accessor.audioOutputs ∈ accesses then 1 else 0)) := by
  refine ⟨audioInputs_cached platform d, audioOutputs_cached platform d, ?_, ?_, ?_,
    ⟨rfl, rfl, rfl, rfl, rfl⟩, ⟨rfl, rfl, rfl, rfl, rfl⟩, ?_, ?_⟩
  · intro h
    rw [audioInputs_empty platform d h]
    exact ⟨rfl, rfl, rfl, rfl, rfl⟩
  · intro h
    rw [audioOutputs_empty platform d h]
    exact ⟨rfl, rfl, rfl, rfl, rfl⟩
  · intro accesses
    obtain ⟨h1, h2, _, _⟩ := access_calls platform accesses d
    rw [h1, h2]
    constructor <;> split <;> omega
  · intro accesses
    rw [(access_calls platform accesses (onAudioInputsChanged d)).1]
    simp [onAudioInputsChanged, QCachedValue.reset]
  · intro accesses
    rw [(access_calls platform accesses (onAudioOutputsChanged d)).2.1]
    simp [onAudioOutputsChanged, QCachedValue.reset]

end QPlatformAudioDevices

/-- The channel mask of a channel count outside 1 to 12 is 0. -/
theorem getChannelMask_unsupported (channelCount : Nat)
    (h : ¬ (1 ≤ channelCount ∧ channelCount ≤ 12)) : getChannelMask channelCount = 0 := by
  unfold getChannelMask
  split <;> first | rfl | (exfalso; apply h; decide)

/-- C25. For every channel count from 1 to 12 the mask of `getChannelMask` has exactly that
many bits set, and it is the union of that many distinct speaker positions; for every other
channel count the mask is 0.  Hence for every format with 1 to 12 channels
`audioFormatToSLFormatPCM` yields the channel count of the format as `numChannels`, which is
the population count of `channelMask`. -/
theorem getChannelMask_popCount (channelCount : Nat) (format : QAudioFormat) :
    (1 ≤ channelCount ∧ channelCount ≤ 12 →
      popCount (getChannelMask channelCount) = channelCount ∧
      (speakerPositionsOf (getChannelMask channelCount)).length = channelCount ∧
      (speakerPositionsOf (getChannelMask channelCount)).Nodup ∧
      (speakerPositionsOf (getChannelMask channelCount)).foldl (fun mask position =>
        mask ||| position) 0 = getChannelMask channelCount) ∧
    (¬ (1 ≤ channelCount ∧ channelCount ≤ 12) → getChannelMask channelCount = 0) ∧
    (1 ≤ format.channelCount ∧ format.channelCount ≤ 12 →
      ((audioFormatToSLFormatPCM format).numChannels : Int) = format.channelCount ∧
      (audioFormatToSLFormatPCM format).numChannels
        = popCount (audioFormatToSLFormatPCM format).channelMask) := by
  have hmask : ∀ n : Nat, 1 ≤ n ∧ n ≤ 12 →
      popCount (getChannelMask n) = n ∧
      (speakerPositionsOf (getChannelMask n)).length = n ∧
      (speakerPositionsOf (getChannelMask n)).Nodup ∧
      (speakerPositionsOf (getChannelMask n)).foldl (fun mask position =>
        mask ||| position) 0 = getChannelMask n := by
    intro n hn
    obtain ⟨h1, h2⟩ := hn
    interval_cases n <;> decide
  refine ⟨hmask channelCount, getChannelMask_unsupported channelCount, ?_⟩
  intro hformat
  obtain ⟨h1, h2⟩ := hformat
  have hnum : (audioFormatToSLFormatPCM format).numChannels = format.channelCount.toNat := by
    show toSLuint32 format.channelCount = format.channelCount.toNat
    unfold toSLuint32
    omega
  have hmaskeq : (audioFormatToSLFormatPCM format).channelMask
      = getChannelMask (audioFormatToSLFormatPCM format).numChannels := rfl
  rw [hmaskeq, hnum]
  have hrange : 1 ≤ format.channelCount.toNat ∧ format.channelCount.toNat ≤ 12 := by omega
  exact ⟨by omega, (hmask _ hrange).1.symm⟩

namespace QtMultimediaPrivate

/-- The conversion to `int` keeps a value of the range of `int`. -/
theorem toInt32_of_range (value : Int) (h0 : 0 ≤ value) (h1 : value < 2 ^ 31) :
    toInt32 value = value := by
  unfold toInt32
  omega

/-- A callback that `validateAudioCallback` accepts has a target, and its sample type has the
sample format and the sample size of the format. -/
theorem validateAudioCallback_accepts (audioCallback : AudioCallback) (format : QAudioFormat)
    (h : validateAudioCallback audioCallback format = true) :
    audioCallback.hasTarget = true ∧
    getSampleFormat audioCallback.sampleType = format.sampleFormat ∧
    audioCallback.sampleType.sizeof = format.bytesPerSample := by
  unfold validateAudioCallback validateAudioCallbackImpl at h
  cases ht : audioCallback.hasTarget with
  | false => simp [ht] at h
  | true =>
    simp [ht] at h
    refine ⟨rfl, h, ?_⟩
    unfold QAudioFormat.bytesPerSample
    rw [← h]
    cases audioCallback.sampleType <;> rfl

/-- C30, as the spec states it, fails on the code: for a host buffer of 2^31 bytes and a mono
format of 8-bit samples the spec gives a span of 2^31 samples, which is the size of the
buffer; the number of samples of `runAudioCallback` is of the type `int` and is not 2^31. -/
theorem runAudioCallback_large_buffer :
    monoUInt8Format.isValid = true ∧
    validateAudioCallback { sampleType := SampleType.uint8_t, hasTarget := true }
      monoUInt8Format = true ∧
    (2 : Int) ^ 31 / monoUInt8Format.bytesPerFrame * monoUInt8Format.channelCount = 2 ^ 31 ∧
    runAudioCallback { sampleType := SampleType.uint8_t, hasTarget := true } (2 ^ 31)
        monoUInt8Format
      = some { sampleType := SampleType.uint8_t, size := -2 ^ 31 } := by
  decide

/-- C30, amended.  For every valid format, every host buffer of S bytes with 0 < S < 2^31 and
every callback that `validateAudioCallback` accepts, `runAudioCallback` calls the callback on a
span of n = floor(S / bytesPerFrame) * channelCount samples of the sample type of the
callback, whose size is the size of a sample of the format; the n * bytesPerSample bytes of
the span do not exceed S, and they are S when S is a whole number of frames. -/
theorem runAudioCallback_span_within_buffer (audioCallback : AudioCallback)
    (hostBufferSize : Nat) (format : QAudioFormat) (hvalid : format.isValid = true)
    (hnonempty : 0 < hostBufferSize) (hint : hostBufferSize < 2 ^ 31)
    (hcallback : validateAudioCallback audioCallback format = true) :
    ∃ span, runAudioCallback audioCallback hostBufferSize format = some span ∧
      span.sampleType = audioCallback.sampleType ∧
      span.sampleType.sizeof = format.bytesPerSample ∧
      span.size = (hostBufferSize : Int) / format.bytesPerFrame * format.channelCount ∧
      0 ≤ span.size ∧
      span.size_bytes = span.size * format.bytesPerSample ∧
      span.size_bytes ≤ hostBufferSize ∧
      (format.bytesPerFrame ∣ (hostBufferSize : Int) → span.size_bytes = hostBufferSize) := by
  obtain ⟨_, hformat, hsize⟩ := validateAudioCallback_accepts audioCallback format hcallback
  have hv : 0 < format.sampleRate ∧ 0 < format.channelCount
      ∧ format.sampleFormat ≠ QAudioFormat.SampleFormat.Unknown := by
    simpa [QAudioFormat.isValid, and_assoc] using hvalid
  obtain ⟨_, hcc, hknown⟩ := hv
  have hbps : 1 ≤ format.bytesPerSample := by
    unfold QAudioFormat.bytesPerSample
    cases hf : format.sampleFormat <;> simp_all
  have hbpf : format.bytesPerFrame = format.bytesPerSample * format.channelCount := rfl
  have hbpfpos : 0 < format.bytesPerFrame := by
    rw [hbpf]
    exact Int.mul_pos (by omega) hcc
  have hS0 : (0 : Int) ≤ hostBufferSize := Int.ofNat_nonneg _
  have hS1 : (hostBufferSize : Int) < 2 ^ 31 := by exact_mod_cast hint
  have hframes : format.framesForBytes hostBufferSize
      = (hostBufferSize : Int) / format.bytesPerFrame := by
    unfold QAudioFormat.framesForBytes
    rw [if_pos hbpfpos, toInt32_of_range _ hS0 hS1, Int.tdiv_eq_ediv hS0 (le_of_lt hbpfpos)]
  have hq0 : 0 ≤ (hostBufferSize : Int) / format.bytesPerFrame :=
    Int.ediv_nonneg hS0 (le_of_lt hbpfpos)
  have hqle : (hostBufferSize : Int) / format.bytesPerFrame * format.bytesPerFrame
      ≤ hostBufferSize := Int.ediv_mul_le _ (ne_of_gt hbpfpos)
  have hn0 : 0 ≤ (hostBufferSize : Int) / format.bytesPerFrame * format.channelCount :=
    Int.mul_nonneg hq0 (le_of_lt hcc)
  have hbytes : (hostBufferSize : Int) / format.bytesPerFrame * format.channelCount
      * format.bytesPerSample
      = (hostBufferSize : Int) / format.bytesPerFrame * format.bytesPerFrame := by
    rw [hbpf]
    ring
  have hnle : (hostBufferSize : Int) / format.bytesPerFrame * format.channelCount
      ≤ hostBufferSize := by
    have h1 : (hostBufferSize : Int) / format.bytesPerFrame * format.channelCount * 1
        ≤ (hostBufferSize : Int) / format.bytesPerFrame * format.channelCount
          * format.bytesPerSample := Int.mul_le_mul_of_nonneg_left hbps hn0
    rw [hbytes, Int.mul_one] at h1
    exact le_trans h1 hqle
  have hrun : runAudioCallback audioCallback hostBufferSize format
      = some { sampleType := audioCallback.sampleType,
               size := (hostBufferSize : Int) / format.bytesPerFrame * format.channelCount } := by
    unfold runAudioCallback
    rw [if_neg (Nat.ne_of_gt hnonempty)]
    simp only [hcallback, Bool.not_true, Bool.false_eq_true, if_false, hframes]
    rw [toInt32_of_range _ hn0 (lt_of_le_of_lt hnle hS1)]
  refine ⟨_, hrun, rfl, hsize, rfl, hn0, ?_, ?_, ?_⟩
  · show _ * audioCallback.sampleType.sizeof = _
    rw [hsize]
  · show _ * audioCallback.sampleType.sizeof ≤ _
    rw [hsize, hbytes]
    exact hqle
  · intro hdvd
    show _ * audioCallback.sampleType.sizeof = _
    rw [hsize, hbytes]
    exact Int.ediv_mul_cancel hdvd

theorem runAudioCallback_span_within_buffer_witness :
    stereoInt16Format.isValid = true ∧
    validateAudioCallback { sampleType := SampleType.int16_t, hasTarget := true }
      stereoInt16Format = true ∧
    ∃ span, runAudioCallback { sampleType := SampleType.int16_t, hasTarget := true } 10
        stereoInt16Format = some span ∧
      span.size = 4 ∧ span.size_bytes = 8 := by
  obtain ⟨span, hrun, _, _, hsize, _, hbytes, _, _⟩ :=
    runAudioCallback_span_within_buffer { sampleType := SampleType.int16_t, hasTarget := true }
      10 stereoInt16Format (by decide) (by decide) (by decide) (by decide)
  refine ⟨by decide, by decide, span, hrun, ?_, ?_⟩
  · rw [hsize]
    decide
  · rw [hbytes, hsize]
    decide

end QtMultimediaPrivate
